import Mathlib

/-!
# Serechops-Stash: the cross-provider reconciliation logic

A shallow embedding of the data-handling code of two browser plugins,

* `plugins/stashNewPerformerScenes/stashNewPerformerScenes.js` (new-release badge),
* `plugins/stashRightClickPerformers/stashRightClickPerformers.js` (context menu),

and the properties proved about it.

JavaScript values that arrive from the network are modelled by `JSVal` (the values
`JSON.parse` can produce, plus `undefined`).  A thrown exception is the `error` case of
`Except JSError`.  Network traffic is an explicit trace of `Request`s next to each result,
answered by an oracle `Net`.
-/

set_option autoImplicit false

namespace Stash

/-! ## Numbers

A Number of JavaScript is an IEEE 754 double.  The numbers this code computes with are
integers: window lengths read by `parseInt`, time values, numeric ids.  Integers up to
2^53 in magnitude are doubles; beyond that a mathematical integer is rounded to the
nearest double (ties to the even significand), and a double is printed with the fewest
decimal digits that identify it. -/

/-- A Number that is an integer, an infinity or `NaN`.  Negative zero is not told apart
from zero: nothing in the modelled code distinguishes them. -/
inductive JSNumber where
  | nan
  | finite (n : Int)
  | infinite (negative : Bool)
  deriving DecidableEq, Repr

/-- The number of binary digits of `m`, with `fuel` halvings allowed. -/
def bitLengthAux : Nat → Nat → Nat
  | 0, _ => 0
  | fuel + 1, m => if m = 0 then 0 else bitLengthAux fuel (m / 2) + 1

/-- The number of binary digits of `m`. -/
def bitLength (m : Nat) : Nat := bitLengthAux m m

/-- The Number for a mathematical integer `z` (the operation written 𝔽 in ECMAScript):
`z` itself up to 2^53 in magnitude; beyond, `z` rounded to 53 significant binary digits,
a tie going to the even significand, and an infinity when the result has more than 1024
binary digits (from 2^1024 on). -/
def roundToDouble (z : Int) : JSNumber :=
  let m := z.natAbs
  if m ≤ 2 ^ 53 then JSNumber.finite z
  else
    let e := bitLength m - 53
    let q := m / 2 ^ e
    let r := m % 2 ^ e
    let half := 2 ^ (e - 1)
    let q1 := if half < r ∨ (r = half ∧ q % 2 = 1) then q + 1 else q
    let v := q1 * 2 ^ e
    if 1024 < bitLength v then JSNumber.infinite (decide (z < 0))
    else JSNumber.finite (if z < 0 then -(v : Int) else (v : Int))

/-- The distance of two natural numbers. -/
def distance (a b : Nat) : Nat := if a ≤ b then b - a else a - b

/-- The decimals `s × 10^(n-k)` with `k` digits in `s` that round to the double `x`, a
double above 2^53 with `d` decimal digits: each as `(s, n, s × 10^(n-k))`.  Either `n = d`
and `s` is `x` cut to `k` digits or the next number, or the decimal is `10^d`. -/
def decimalCandidates (x d k : Nat) : List (Nat × Nat × Nat) :=
  (if k = 1 ∧ roundToDouble (10 ^ d : Nat) = JSNumber.finite x then [(1, d + 1, 10 ^ d)]
    else [])
  ++ ([x / 10 ^ (d - k), x / 10 ^ (d - k) + 1].filter (fun s =>
        decide (10 ^ (k - 1) ≤ s ∧ s < 10 ^ k
          ∧ roundToDouble ((s * 10 ^ (d - k) : Nat) : Int) = JSNumber.finite x))).map
      (fun s => (s, d, s * 10 ^ (d - k)))

/-- The better of two candidates: the one nearer to `x`, the even `s` when they are
equally near. -/
def betterDecimal (x : Nat) (a b : Nat × Nat × Nat) : Nat × Nat × Nat :=
  if distance b.2.2 x < distance a.2.2 x
      ∨ (distance b.2.2 x = distance a.2.2 x ∧ b.1 % 2 = 0 ∧ a.1 % 2 ≠ 0) then b
  else a

/-- The search for the fewest digits, from `k` digits on. -/
def shortestDecimalAux (x d : Nat) : Nat → Nat → Option (Nat × Nat × Nat)
  | 0, _ => none
  | fuel + 1, k =>
    match decimalCandidates x d k with
    | [] => shortestDecimalAux x d fuel (k + 1)
    | c :: cs => some (cs.foldl (betterDecimal x) c)

/-- The integers `s` and `n` of `Number::toString` for a double `x` above 2^53: `s` has as
few digits as possible (17 always suffice) and `s × 10^(n-k)` rounds to `x`. -/
def shortestDecimal (x : Nat) : Option (Nat × Nat × Nat) :=
  shortestDecimalAux x (Nat.toDigits 10 x).length 17 1

/-- `String(x)` for a double `x` above 2^53: the digits of `s` followed by zeros when
`n ≤ 21`, exponent notation beyond. -/
def bigToString (x : Nat) : String :=
  match shortestDecimal x with
  | none => toString x
  | some (s, n, _) =>
    let ds := Nat.toDigits 10 s
    if n ≤ 21 then String.mk (ds ++ List.replicate (n - ds.length) '0')
    else
      match ds with
      | [] => ""
      | [c] => String.mk (c :: 'e' :: '+' :: Nat.toDigits 10 (n - 1))
      | c :: rest => String.mk (c :: '.' :: rest ++ 'e' :: '+' :: Nat.toDigits 10 (n - 1))

/-- `String(x)`, ECMAScript `Number::toString` in radix 10.  An integer up to 2^53 in
magnitude is printed with all its digits. -/
def numberToString : JSNumber → String
  | JSNumber.nan => "NaN"
  | JSNumber.infinite negative => if negative then "-Infinity" else "Infinity"
  | JSNumber.finite n =>
    if n.natAbs ≤ 2 ^ 53 then toString n
    else (if n < 0 then "-" else "") ++ bigToString n.natAbs

/-! ## JavaScript values -/

/-- The values a parsed JSON body can hold, plus `undefined`.  Numbers are the integers:
`num n` is the Number with the value `n` (a JSON number with a fraction behaves like a
non-zero integer wherever this code looks at it, apart from its decimal rendering).  In `obj` the properties are listed in the
order `Object.keys` reports them and no key occurs twice. -/
inductive JSVal where
  | undefined
  | null
  | bool (b : Bool)
  | num (n : Int)
  | str (s : String)
  | arr (items : List JSVal)
  | obj (props : List (String × JSVal))

/-- The exception values the modelled code can throw: all of them are `TypeError`s
(reading a property of `null`/`undefined`, calling something that is not a function,
spreading something that is not iterable). -/
inductive JSError where
  | typeError
  deriving DecidableEq, Repr

namespace JSVal

/-- ECMAScript `ToBoolean`. -/
def truthy : JSVal → Bool
  | undefined => false
  | null => false
  | bool b => b
  | num n => n != 0
  | str s => s != ""
  | arr _ => true
  | obj _ => true

mutual
/-- ECMAScript `ToString` on JSON values; this is also `ToPropertyKey`, and what a
template literal interpolates. -/
def toStr : JSVal → String
  | undefined => "undefined"
  | null => "null"
  | bool b => if b then "true" else "false"
  | num n => numberToString (roundToDouble n)
  | str s => s
  | arr items => joinStr items
  | obj _ => "[object Object]"
termination_by structural v => v
/-- `Array.prototype.join(",")`: `null` and `undefined` elements render as the empty
string. -/
def joinStr : List JSVal → String
  | [] => ""
  | x :: rest =>
    (match x with
      | undefined => ""
      | null => ""
      | v => toStr v) ++ (if rest.isEmpty then "" else ",") ++ joinStr rest
termination_by structural l => l
end

/-- `SameValueZero`, the equality of `Set.prototype.has` and `Array.prototype.includes`.
Arrays and objects are compared by reference; the two sides always come from different
parsed responses (or one side is a string), so two of them are never the same. -/
def sameValueZero : JSVal → JSVal → Bool
  | undefined, undefined => true
  | null, null => true
  | bool a, bool b => a == b
  | num a, num b => a == b
  | str a, str b => a == b
  | _, _ => false

/-- Whether the value is an object (a record), as opposed to a primitive or an array. -/
def isObject : JSVal → Bool
  | obj _ => true
  | _ => false

/-- `x === s` for a string literal `s`. -/
def strictEqStr (x : JSVal) (s : String) : Bool :=
  match x with
  | str t => t == s
  | _ => false

end JSVal

open JSVal

/-- Own-property lookup `o[key]` in a property list: the value, or `undefined`. -/
def lookup : List (String × JSVal) → String → JSVal
  | [], _ => JSVal.undefined
  | (k, v) :: rest, key => if k = key then v else lookup rest key

/-- Property read `v.key` / `v[key]`.  Reading from `null` or `undefined` throws a
`TypeError`.  On strings, numbers, booleans and arrays the property names this code reads
(`title`, `endpoint`, `stash_ids`, the aliases `performer0`, `stash0`, ...) are not
defined, so the read gives `undefined`. -/
def getProp (v : JSVal) (key : String) : Except JSError JSVal :=
  match v with
  | JSVal.undefined => Except.error JSError.typeError
  | JSVal.null => Except.error JSError.typeError
  | JSVal.obj props => Except.ok (lookup props key)
  | _ => Except.ok JSVal.undefined

/-- Optional chaining `v?.key` / `v?.[key]`: `undefined` when `v` is `null` or
`undefined`, the property read otherwise. -/
def optGet (v : JSVal) (key : String) : JSVal :=
  match v with
  | JSVal.obj props => lookup props key
  | _ => JSVal.undefined

/-- The operand chosen by `a || b`. -/
def orElse (a b : JSVal) : JSVal := if a.truthy then a else b

/-- `xs.map(f)` for a callback that may throw: the first exception aborts the call. -/
def mapE {α β : Type} (f : α → Except JSError β) : List α → Except JSError (List β)
  | [] => Except.ok []
  | x :: xs =>
    match f x with
    | Except.error e => Except.error e
    | Except.ok y =>
      match mapE f xs with
      | Except.error e => Except.error e
      | Except.ok ys => Except.ok (y :: ys)

/-- `xs.filter(p)` for a callback that may throw: the first exception aborts the call. -/
def filterE {α : Type} (p : α → Except JSError Bool) : List α → Except JSError (List α)
  | [] => Except.ok []
  | x :: xs =>
    match p x with
    | Except.error e => Except.error e
    | Except.ok b =>
      match filterE p xs with
      | Except.error e => Except.error e
      | Except.ok ys => Except.ok (if b then x :: ys else ys)

/-- A loop over `xs` threading a state, for a body that may throw: the first exception
aborts the loop (`forEach`, `for ... of`). -/
def foldlE {σ α : Type} (f : σ → α → Except JSError σ) : σ → List α → Except JSError σ
  | s, [] => Except.ok s
  | s, x :: xs =>
    match f s x with
    | Except.error e => Except.error e
    | Except.ok s1 => foldlE f s1 xs

/-! ## Objects built by the program

An object literal filled by assignments `o[k] = v` is the list of its own properties in
the order `Object.keys`, `Object.values` and `Object.entries` report them: keys that are
array indices first, in ascending numeric order, then the other keys in the order they
were first assigned.  Keys are assumed not to be names of `Object.prototype` members
(`constructor`, `toString`, `__proto__`, ...). -/

/-- The number a key denotes when it is a canonical array index (`"0"`, `"17"`, not
`"017"`, below 2^32 - 1). -/
def arrayIndex (k : String) : Option Nat :=
  let cs := k.toList
  if cs.all Char.isDigit ∧ (cs.length = 1 ∨ (cs ≠ [] ∧ cs.head? ≠ some '0')) then
    let n := cs.foldl (fun acc c => 10 * acc + (c.toNat - 48)) 0
    if n < 4294967295 then some n else none
  else none

/-- Whether a new key `k` is enumerated before the existing key `k2`. -/
def keyBefore (k k2 : String) : Bool :=
  match arrayIndex k, arrayIndex k2 with
  | some n, some m => n < m
  | some _, none => true
  | none, _ => false

/-- Own property `o[k]` of a program-built object, `none` when there is none. -/
def getOwn {α : Type} : List (String × α) → String → Option α
  | [], _ => none
  | (k, v) :: rest, key => if k = key then some v else getOwn rest key

/-- Whether `o` has an own property `k`. -/
def hasOwn {α : Type} (o : List (String × α)) (k : String) : Bool :=
  o.any (fun p => p.1 == k)

/-- Place of a new property in the enumeration order. -/
def insertKey {α : Type} (k : String) (v : α) : List (String × α) → List (String × α)
  | [] => [(k, v)]
  | (k2, v2) :: rest =>
    if keyBefore k k2 then (k, v) :: (k2, v2) :: rest else (k2, v2) :: insertKey k v rest

/-- The assignment `o[k] = v`: an existing property keeps its place and takes the new
value, a new property is created. -/
def setProp {α : Type} (k : String) (v : α) (o : List (String × α)) : List (String × α) :=
  if hasOwn o k then o.map (fun p => if p.1 = k then (p.1, v) else p) else insertKey k v o

/-- `Object.values(o)`. -/
def objValues {α : Type} (o : List (String × α)) : List α := o.map Prod.snd

/-- An object of objects: `performerStashMap` (local id, then endpoint, to external id)
and `stashScenesMap` (endpoint, then external id, to scenes). -/
abbrev ObjMap := List (String × List (String × JSVal))

/-- The two statements `if (!m[k1]) m[k1] = {}; m[k1][k2] = v`. -/
def setProp2 (k1 k2 : String) (v : JSVal) (m : ObjMap) : ObjMap :=
  let m1 := if hasOwn m k1 then m else setProp k1 [] m
  match getOwn m1 k1 with
  | some inner => setProp k1 (setProp k2 v inner) m1
  | none => m1

/-! ## Network -/

/-- The field selected under each aliased `findPerformer` sub-query. -/
inductive Selection where
  | stashIds
  | scenes
  deriving DecidableEq, Repr

/-- The GraphQL documents the plugin sends.  `findPerformers sel subs` is the batched
`query FindPerformers` with one sub-query `alias: findPerformer(id: "id") ...` per
element `(alias, id)` of `subs`. -/
inductive Query where
  | configuration
  | findPerformers (sel : Selection) (subs : List (String × String))
  deriving DecidableEq, Repr

/-- One `fetch` POST: the URL, the document, and the `Apikey` header when one is set. -/
structure Request where
  endpoint : String
  query : Query
  apiKey : Option String
  deriving DecidableEq, Repr

/-- What happens to a request. -/
inductive FetchOutcome where
  | networkError
  | invalidBody
  | body (data : JSVal)

/-- The servers, seen from the plugin. -/
abbrev Net := Request → FetchOutcome

/-- A value computed by an asynchronous function together with the requests it issued,
in order.  An exception is the `error` case of `result`; the requests issued before
it was thrown stay in the trace. -/
structure Traced (α : Type) where
  requests : List Request
  result : α

namespace NewScenes

/-- The endpoint literal of the two ThePornDB exclusions. -/
def disallowedEndpoint : String := "https://theporndb.net/graphql"

/-- The request `performGraphQLQuery(endpoint, query, {}, apiKey)` sends: `gqlHeaders`
adds the `Apikey` header only for a truthy key. -/
def requestOf (endpoint : String) (query : Query) (apiKey : JSVal) : Request :=
  { endpoint := endpoint, query := query,
    apiKey := if apiKey.truthy then some apiKey.toStr else none }

/-- What `performGraphQLQuery` makes of the outcome of its request, lines 89-105:
`null` when `fetch` or `response.json()` rejects, when reading `data.errors` throws (all
inside the `try`), when `data.errors` is truthy; else `data?.data || null`. -/
def responseData : FetchOutcome → JSVal
  | FetchOutcome.networkError => JSVal.null
  | FetchOutcome.invalidBody => JSVal.null
  | FetchOutcome.body data =>
    match getProp data "errors" with
    | Except.error _ => JSVal.null
    | Except.ok errors =>
      if errors.truthy then JSVal.null else orElse (optGet data "data") JSVal.null

/-- `performGraphQLQuery(endpoint, query, variables, apiKey)`, lines 80-106: exactly one
request, and never an exception. -/
def performGraphQLQuery (net : Net) (endpoint : String) (query : Query) (apiKey : JSVal) :
    Traced JSVal :=
  let req := requestOf endpoint query apiKey
  { requests := [req], result := responseData (net req) }

/-- The module-level `config` object, lines 17-23 (`baseURL` is not read by the modelled
code). -/
structure Config where
  localEndpoint : String
  stashBoxes : List JSVal
  apiKey : JSVal
  defaultDateRange : JSNumber

/-- `getAllStashBoxes()`, lines 111-139.  The result is the `config` after the call. -/
def getAllStashBoxes (net : Net) (config : Config) : Traced (Except JSError Config) :=
  let r := performGraphQLQuery net config.localEndpoint Query.configuration config.apiKey
  let stashBoxes := optGet (optGet (optGet r.result "configuration") "general") "stashBoxes"
  { requests := r.requests,
    result :=
      if !stashBoxes.truthy then Except.ok config
      else
        match stashBoxes with
        | JSVal.arr boxes =>
          match filterE (fun box =>
              match getProp box "endpoint" with
              | Except.error e => Except.error e
              | Except.ok endpoint => Except.ok (!(strictEqStr endpoint disallowedEndpoint)))
              boxes with
          | Except.error e => Except.error e
          | Except.ok filteredStashBoxes =>
            Except.ok { config with stashBoxes := filteredStashBoxes }
        | _ => Except.error JSError.typeError }

/-- The aliases `pfx0`, `pfx1`, ... of a batched query with `n` sub-queries. -/
def aliasesOf (pfx : String) (n : Nat) : List String :=
  (List.range n).map (fun index => pfx ++ toString index)

/-- The body of `stashIds.forEach(idObj => ...)`, lines 188-196. -/
def addStashId (performerId : String) (performerStashMap : ObjMap) (idObj : JSVal) :
    Except JSError ObjMap :=
  match getProp idObj "endpoint" with
  | Except.error e => Except.error e
  | Except.ok endpoint =>
    if strictEqStr endpoint disallowedEndpoint then Except.ok performerStashMap
    else
      match getProp idObj "stash_id" with
      | Except.error e => Except.error e
      | Except.ok stashId =>
        Except.ok (setProp2 performerId endpoint.toStr stashId performerStashMap)

/-- The body of `aliases.forEach((alias, index) => ...)`, lines 186-197: a truthy
`stash_ids` that is not an array has no `forEach`. -/
def addPerformer (result : JSVal) (performerStashMap : ObjMap) (entry : String × String) :
    Except JSError ObjMap :=
  match orElse (optGet (optGet result entry.1) "stash_ids") (JSVal.arr []) with
  | JSVal.arr stashIds => foldlE (addStashId entry.2) performerStashMap stashIds
  | _ => Except.error JSError.typeError

/-- `getPerformerStashIDs(performerIds)`, lines 159-201. -/
def getPerformerStashIDs (net : Net) (config : Config) (performerIds : List String) :
    Traced (Except JSError ObjMap) :=
  if performerIds.length = 0 then { requests := [], result := Except.ok [] }
  else
    let aliases := aliasesOf "performer" performerIds.length
    let query := Query.findPerformers Selection.stashIds (aliases.zip performerIds)
    let r := performGraphQLQuery net config.localEndpoint query config.apiKey
    if !r.result.truthy then { requests := r.requests, result := Except.ok [] }
    else
      { requests := r.requests,
        result := foldlE (addPerformer r.result) [] (aliases.zip performerIds) }

/-- The body of `Object.values(performerStashMap).forEach(...)`, lines 218-223, for one
provider: the truthy values found under its endpoint, one per performer that has one. -/
def collectStashIds (performerStashMap : ObjMap) (endpoint : JSVal) : List JSVal :=
  (objValues performerStashMap).filterMap (fun stashObj =>
    if (lookup stashObj endpoint.toStr).truthy then some (lookup stashObj endpoint.toStr)
    else none)

/-- The body of `aliases.forEach((alias, index) => ...)`, lines 254-262. -/
def storeScenes (result endpoint : JSVal) (stashScenesMap : ObjMap) (entry : String × JSVal) :
    ObjMap :=
  let scenes := orElse (optGet (optGet result entry.1) "scenes") (JSVal.arr [])
  setProp2 endpoint.toStr entry.2.toStr scenes stashScenesMap

/-- The `for (const stashBox of config.stashBoxes)` loop of `getNewReleasesForStashIDs`,
lines 210-265, from the boxes still to visit and the `stashScenesMap` built so far.
Destructuring a `null` or `undefined` box throws. -/
def fetchBoxes (net : Net) (performerStashMap : ObjMap) :
    List JSVal → ObjMap → Traced (Except JSError ObjMap)
  | [], stashScenesMap => { requests := [], result := Except.ok stashScenesMap }
  | stashBox :: rest, stashScenesMap =>
    match getProp stashBox "endpoint", getProp stashBox "api_key" with
    | Except.ok endpoint, Except.ok api_key =>
      if !api_key.truthy then fetchBoxes net performerStashMap rest stashScenesMap
      else
        let stashIds := collectStashIds performerStashMap endpoint
        if stashIds.length = 0 then fetchBoxes net performerStashMap rest stashScenesMap
        else
          let aliases := aliasesOf "stash" stashIds.length
          let query := Query.findPerformers Selection.scenes
            (aliases.zip (stashIds.map JSVal.toStr))
          let r := performGraphQLQuery net endpoint.toStr query api_key
          let next :=
            if !r.result.truthy then stashScenesMap
            else (aliases.zip stashIds).foldl (storeScenes r.result endpoint) stashScenesMap
          let t := fetchBoxes net performerStashMap rest next
          { requests := r.requests ++ t.requests, result := t.result }
    | _, _ => { requests := [], result := Except.error JSError.typeError }

/-- `getNewReleasesForStashIDs(performerStashMap)`, lines 206-268. -/
def getNewReleasesForStashIDs (net : Net) (config : Config) (performerStashMap : ObjMap) :
    Traced (Except JSError ObjMap) :=
  fetchBoxes net performerStashMap config.stashBoxes []

/-! ### Dates -/

/-- Milliseconds in a day. -/
def msPerDay : Int := 86400000

/-- ECMAScript `TimeClip`: a time value beyond 8.64e15 ms from the epoch is `NaN`. -/
def timeClip (t : Int) : Option Int :=
  if -8640000000000000 ≤ t ∧ t ≤ 8640000000000000 then some t else none

/-- The time value of `new Date(v)`, `none` for an invalid date (`NaN`).  `parse` is
`Date.parse`, which the host provides. -/
def dateOf (parse : String → Option Int) : JSVal → Option Int
  | JSVal.undefined => none
  | JSVal.null => some 0
  | JSVal.bool b => some (if b then 1 else 0)
  | JSVal.num n => timeClip n
  | JSVal.str s => parse s
  | v => parse v.toStr

/-- `a > b` on two dates: false when either is invalid. -/
def dateGt (a b : Option Int) : Bool :=
  match a, b with
  | some x, some y => decide (y < x)
  | _, _ => false

/-- The host's time zone as ECMAScript reads it, in milliseconds: `offsetAtUtc t` is
`LocalTZA(t, true)`, the offset of local time from UTC in force at the instant `t`, and
`offsetAtLocal tl` is `LocalTZA(tl, false)`, the offset in force when the local clock
shows `tl` (the offset before the change, for a wall-clock time that a change of offset
skips or repeats).  Offsets are below 24 hours in magnitude. -/
structure TimeZone where
  offsetAtUtc : Int → Int
  offsetAtLocal : Int → Int

/-- The date `cutoffDate` of lines 599-600, from the reading `now` of the clock:
`new Date()` moved by `setDate(getDate() - range)`.  `setDate` works on local time: it
keeps the time of day the local clock shows and moves the calendar day, here by `range`
days back, then converts that local time to an instant with the offset in force then.
`NaN` or an infinite `range` gives an invalid date, and so does a result beyond the range
of time values. -/
def cutoffDate (zone : TimeZone) (now : Int) (range : JSNumber) : Option Int :=
  match range with
  | JSNumber.finite days =>
    let localNow := now + zone.offsetAtUtc now
    let moved := localNow - days * msPerDay
    timeClip (moved - zone.offsetAtLocal moved)
  | _ => none

/-! ### The driver -/

/-- The elements `push(...scenes)` appends: an array spreads to its elements, a string to
its characters, nothing else that is truthy is iterable. -/
def spreadOf : JSVal → Except JSError (List JSVal)
  | JSVal.arr items => Except.ok items
  | JSVal.str s => Except.ok (s.toList.map (fun c => JSVal.str (String.singleton c)))
  | _ => Except.error JSError.typeError

/-- The body of `Object.entries(stashData).forEach(([stashId, scenes]) => ...)`,
lines 586-593. -/
def aggregateEntry (individualStashIds : List JSVal) (endpoint : String)
    (performerStashScenesMap : List (String × List JSVal)) (entry : String × JSVal) :
    Except JSError (List (String × List JSVal)) :=
  if individualStashIds.any (fun v => sameValueZero v (JSVal.str entry.1)) then
    let m1 :=
      if hasOwn performerStashScenesMap endpoint then performerStashScenesMap
      else setProp endpoint [] performerStashScenesMap
    match spreadOf entry.2 with
    | Except.error e => Except.error e
    | Except.ok scenes =>
      Except.ok (setProp endpoint ((getOwn m1 endpoint).getD [] ++ scenes) m1)
  else Except.ok performerStashScenesMap

/-- The aggregation of lines 582-594: `performerStashScenesMap` of one performer. -/
def aggregateScenes (stashScenesMap : ObjMap) (individualStashIds : List JSVal) :
    Except JSError (List (String × List JSVal)) :=
  foldlE (fun acc (group : String × List (String × JSVal)) =>
    foldlE (aggregateEntry individualStashIds group.1) acc group.2) [] stashScenesMap

/-- The callback of `scenes.filter(...)`, line 603. -/
def isRecent (parse : String → Option Int) (cutoff : Option Int) (scene : JSVal) :
    Except JSError Bool :=
  match getProp scene "release_date" with
  | Except.error e => Except.error e
  | Except.ok releaseDate => Except.ok (dateGt (dateOf parse releaseDate) cutoff)

/-- The recency filter of lines 600-608: `filteredStashScenesMap`. -/
def filterByDate (parse : String → Option Int) (cutoff : Option Int)
    (performerStashScenesMap : List (String × List JSVal)) :
    Except JSError (List (String × List JSVal)) :=
  foldlE (fun filteredStashScenesMap (group : String × List JSVal) =>
    match filterE (isRecent parse cutoff) group.2 with
    | Except.error e => Except.error e
    | Except.ok filteredScenes =>
      Except.ok (if filteredScenes.length > 0
        then setProp group.1 filteredScenes filteredStashScenesMap
        else filteredStashScenesMap)) [] performerStashScenesMap

/-- Whether `new Date(scene.release_date) > cutoffDate` for a cutoff that is a valid
date: the comparison line 603 makes for a scene that is an object. -/
def releasedAfter (parse : String → Option Int) (cutoff : Int) (scene : JSVal) : Bool :=
  dateGt (dateOf parse (optGet scene "release_date")) (some cutoff)

/-- What a run hands to `addNewReleaseIcon` for one performer card (the DOM work itself
is outside the model). -/
structure Icon where
  performerId : String
  stashMap : List (String × JSVal)
  filteredStashScenesMap : List (String × List JSVal)

/-- The state a run of the driver changes: the guard set `processedPerformers` (its
elements in insertion order) and the icons added so far. -/
structure DriverState where
  processedPerformers : List String
  icons : List Icon

/-- `processedPerformers.add(id)`. -/
def addProcessed (processed : List String) (id : String) : List String :=
  if processed.contains id then processed else processed ++ [id]

/-- The loop `for (const performerId of performerIds)` of lines 575-626.  `clock i` is
the reading `new Date()` takes in the iteration of index `i`, `zone` the time zone of the
host.  An exception leaves the loop with the state reached so far. -/
def processLoop (parse : String → Option Int) (zone : TimeZone) (clock : Nat → Int)
    (config : Config)
    (performerStashMap stashScenesMap : ObjMap) :
    Nat → List String → DriverState → DriverState × Except JSError Unit
  | _, [], st => (st, Except.ok ())
  | i, performerId :: rest, st =>
    match getOwn performerStashMap performerId with
    | none => processLoop parse zone clock config performerStashMap stashScenesMap (i + 1) rest st
    | some stashMap =>
      let individualStashIds := objValues stashMap
      if individualStashIds.length = 0 then
        processLoop parse zone clock config performerStashMap stashScenesMap (i + 1) rest st
      else
        match aggregateScenes stashScenesMap individualStashIds with
        | Except.error e => (st, Except.error e)
        | Except.ok performerStashScenesMap =>
          let cutoff := cutoffDate zone (clock i) config.defaultDateRange
          match filterByDate parse cutoff performerStashScenesMap with
          | Except.error e => (st, Except.error e)
          | Except.ok filteredStashScenesMap =>
            let icons :=
              if filteredStashScenesMap.length > 0 then
                st.icons ++ [{ performerId := performerId, stashMap := stashMap,
                               filteredStashScenesMap := filteredStashScenesMap }]
              else st.icons
            processLoop parse zone clock config performerStashMap stashScenesMap (i + 1) rest
              { processedPerformers := addProcessed st.processedPerformers performerId,
                icons := icons }

/-- The performer ids the driver collects from the cards, lines 526-534.  A card is given
by the id that `/\/performers\/(\d+)/` captures in the `href` of its first link, if any. -/
def collectPerformerIds (cards : List (Option String)) (processed : List String) :
    List String :=
  cards.filterMap (fun card =>
    match card with
    | some performerId =>
      if performerId != "" && !processed.contains performerId then some performerId else none
    | none => none)

/-- What one run of the driver leaves behind. -/
structure RunResult where
  requests : List Request
  result : Except JSError Unit
  processedPerformers : List String
  icons : List Icon

/-- The function inside `processPerformerCards = debounce(async () => ..., 300)`,
lines 511-627, on the performer cards found in the page. -/
def processPerformerCards (net : Net) (parse : String → Option Int) (zone : TimeZone)
    (clock : Nat → Int) (config : Config) (cards : List (Option String))
    (processed : List String) : RunResult :=
  if cards.length = 0 then
    { requests := [], result := Except.ok (), processedPerformers := processed, icons := [] }
  else
    let performerIds := collectPerformerIds cards processed
    if performerIds.length = 0 then
      { requests := [], result := Except.ok (), processedPerformers := processed, icons := [] }
    else
      let r1 := getPerformerStashIDs net config performerIds
      match r1.result with
      | Except.error e =>
        { requests := r1.requests, result := Except.error e,
          processedPerformers := processed, icons := [] }
      | Except.ok performerStashMap =>
        let stashIds := ((objValues performerStashMap).map objValues).flatten
        if stashIds.length = 0 then
          { requests := r1.requests, result := Except.ok (),
            processedPerformers := processed, icons := [] }
        else
          let r2 := getNewReleasesForStashIDs net config performerStashMap
          match r2.result with
          | Except.error e =>
            { requests := r1.requests ++ r2.requests, result := Except.error e,
              processedPerformers := processed, icons := [] }
          | Except.ok stashScenesMap =>
            let out := processLoop parse zone clock config performerStashMap stashScenesMap 0
              performerIds { processedPerformers := processed, icons := [] }
            { requests := r1.requests ++ r2.requests, result := out.2,
              processedPerformers := out.1.processedPerformers, icons := out.1.icons }

/-- What the `stash:location` listener of `initializePageChangeListener`, lines 821-834,
does to the guard set when the page path has become `newPath`: cleared when the path
starts with `/performers`.  (The listener then waits for performer cards and calls the
debounced driver.) -/
def onLocationChange (newPath : String) (processed : List String) : List String :=
  if "/performers".toList.isPrefixOf newPath.toList then [] else processed

/-! ### The preview popout -/

/-- The values `Object.entries(v).forEach(([key, value]) => ...)` visits, in order (the
popout never reads the keys): the elements of an array, the property values of an
object, the characters of a string, nothing for a number or a boolean; `Object.entries`
throws on `null` and `undefined`. -/
def entryValues : JSVal → Except JSError (List JSVal)
  | JSVal.undefined => Except.error JSError.typeError
  | JSVal.null => Except.error JSError.typeError
  | JSVal.arr items => Except.ok items
  | JSVal.obj props => Except.ok (props.map Prod.snd)
  | JSVal.str s => Except.ok (s.toList.map (fun c => JSVal.str (String.singleton c)))
  | _ => Except.ok []

/-- The test `scene && typeof scene === 'object'`: objects and arrays pass, `null` and
primitives do not. -/
def isObjectLike : JSVal → Bool
  | JSVal.obj _ => true
  | JSVal.arr _ => true
  | _ => false

/-- The scenes for which `createScenePreviewPopout` appends a card, out of one value
`scenes` of `stashData`, lines 313-331: an array gives its elements that are objects; a
value that is not an array is wrapped into a one-element array when it is an object and
skipped otherwise. -/
def popoutBatch (scenes : JSVal) : List JSVal :=
  match scenes with
  | JSVal.arr items => items.filter isObjectLike
  | JSVal.obj props => [JSVal.obj props]
  | _ => []

/-- The scene cards `createScenePreviewPopout(stashScenesMap, referenceElement)` appends
to the popout, lines 301-361, as (endpoint, scene) in order of appearance (the DOM work
is outside the model; the lookup of the source name in `config.stashBoxes` cannot throw,
as the registry stored by `getAllStashBoxes` holds no `null`). -/
def createScenePreviewPopout (stashScenesMap : List (String × JSVal)) :
    Except JSError (List (String × JSVal)) :=
  foldlE (fun cards (group : String × JSVal) =>
    match entryValues group.2 with
    | Except.error e => Except.error e
    | Except.ok values =>
      Except.ok (cards ++ values.flatMap (fun scenes =>
        (popoutBatch scenes).map (fun scene => (group.1, scene))))) [] stashScenesMap

/-! ### The recency preference -/

/-- ECMAScript `StrWhiteSpaceChar`, by code point: the characters `parseInt` skips at the
start of its argument. -/
def isJSWhitespace (c : Char) : Bool :=
  decide (c.toNat = 9 ∨ c.toNat = 10 ∨ c.toNat = 11 ∨ c.toNat = 12 ∨ c.toNat = 13
    ∨ c.toNat = 32 ∨ c.toNat = 160 ∨ c.toNat = 5760 ∨ (8192 ≤ c.toNat ∧ c.toNat ≤ 8202)
    ∨ c.toNat = 8232 ∨ c.toNat = 8233 ∨ c.toNat = 8239 ∨ c.toNat = 8287
    ∨ c.toNat = 12288 ∨ c.toNat = 65279)

/-- A decimal digit `0`..`9`. -/
def isDecimalDigit (c : Char) : Bool := decide (48 ≤ c.toNat ∧ c.toNat ≤ 57)

/-- The number written by a sequence of decimal digits. -/
def digitsValue (ds : List Char) : Nat :=
  ds.foldl (fun acc c => 10 * acc + (c.toNat - 48)) 0

/-- `parseInt(s, 10)`: leading white space is skipped, then an optional sign, then the
longest run of decimal digits; `NaN` when there is no digit.  The result is the Number for
the integer the digits write (ECMAScript lets an engine replace the digits after the 20th
by zeros before rounding; the engines in use round the exact integer). -/
def parseInt10 (s : String) : JSNumber :=
  let cs := s.toList.dropWhile isJSWhitespace
  let negative := match cs with
    | c :: _ => decide (c.toNat = 45)
    | [] => false
  let body := match cs with
    | c :: rest => if c.toNat = 45 ∨ c.toNat = 43 then rest else cs
    | [] => []
  let ds := body.takeWhile isDecimalDigit
  if ds.isEmpty then JSNumber.nan
  else roundToDouble (if negative then -(digitsValue ds : Int) else (digitsValue ds : Int))

/-- The initial `config.defaultDateRange`, lines 16 and 22, from what
`localStorage.getItem('newReleaseDateRange')` returns (`none` for `null`):
`storedDateRange ? parseInt(storedDateRange, 10) : 7`. -/
def initialDateRange (storedDateRange : Option String) : JSNumber :=
  match storedDateRange with
  | some s => if s ≠ "" then parseInt10 s else JSNumber.finite 7
  | none => JSNumber.finite 7

/-- The state the Save button of the settings modal works on: the stored preference, the
`config` object and the guard set. -/
structure Settings where
  storedDateRange : Option String
  config : Config
  processedPerformers : List String

/-- `isNaN(newRange) || newRange < 1`, line 728. -/
def refusedRange : JSNumber → Bool
  | JSNumber.nan => true
  | JSNumber.finite n => decide (n < 1)
  | JSNumber.infinite negative => negative

/-- The click handler of the Save button, lines 726-738, on the text of the input field:
a value that does not parse or is below 1 is refused (after an alert); otherwise
`localStorage.setItem` stores the number as the string `String(newRange)`, the number is
put into `config.defaultDateRange`, and the guard set is cleared before the driver is
called again. -/
def saveDateRange (input : String) (st : Settings) : Settings :=
  if refusedRange (parseInt10 input) then st
  else
    { storedDateRange := some (numberToString (parseInt10 input)),
      config := { st.config with defaultDateRange := parseInt10 input },
      processedPerformers := [] }

end NewScenes

/-! ## JavaScript `Set` -/

/-- `set.has(x)` on the list of a set's elements. -/
def setHas (elems : List JSVal) (x : JSVal) : Bool :=
  elems.any (fun y => sameValueZero y x)

/-- `set.add(x)`: appended unless already present. -/
def setAdd (elems : List JSVal) (x : JSVal) : List JSVal :=
  if setHas elems x then elems else elems ++ [x]

/-- `new Set(xs)`: the elements in insertion order, each once. -/
def newSet (xs : List JSVal) : List JSVal :=
  xs.foldl setAdd []

/-! ## stashRightClickPerformers.js: `compareScenes` -/

namespace RightClick

/-- `compareScenes(localScenes, stashDBScenes)`, lines 448-457:
the remote scenes whose title is not in the set of local titles.  (The second set,
`stashDBSceneTitles`, is built and never read; building it reads every remote title.) -/
def compareScenes (localScenes stashDBScenes : List JSVal) : Except JSError (List JSVal) :=
  match mapE (fun scene => getProp scene "title") localScenes with
  | Except.error e => Except.error e
  | Except.ok localTitles =>
    let localSceneTitles := newSet localTitles
    match mapE (fun scene => getProp scene "title") stashDBScenes with
    | Except.error e => Except.error e
    | Except.ok remoteTitles =>
      let _stashDBSceneTitles := newSet remoteTitles
      filterE (fun scene =>
        match getProp scene "title" with
        | Except.error e => Except.error e
        | Except.ok t => Except.ok (!(setHas localSceneTitles t))) stashDBScenes

end RightClick

/-! ## Arrays by reference

To speak about a function changing the arrays it is given, arrays are put in a store and
passed by reference.  `Array.prototype.map` and `Array.prototype.filter` create a new
array and leave the array they are called on as it is. -/

/-- The arrays of the JavaScript heap: the element of index `ref` is the content of the
array with the reference `ref`. -/
abbrev ArrayStore := List (List JSVal)

/-- The content of the array behind a reference. -/
def readArray (store : ArrayStore) (ref : Nat) : List JSVal := store.getD ref []

/-- The creation of a new array: the store with it, and its reference. -/
def newArray (store : ArrayStore) (items : List JSVal) : ArrayStore × Nat :=
  (store ++ [items], store.length)

namespace RightClick

/-- `compareScenes(localScenes, stashDBScenes)`, lines 448-457, on arrays passed by
reference: the two `map` calls and the `filter` call each create an array (the sets are
not arrays); the result is the reference of the array `filter` created. -/
def compareScenesOnStore (store : ArrayStore) (localScenes stashDBScenes : Nat) :
    Except JSError (ArrayStore × Nat) :=
  match mapE (fun scene => getProp scene "title") (readArray store localScenes) with
  | Except.error e => Except.error e
  | Except.ok localTitles =>
    let store1 := (newArray store localTitles).1
    let localSceneTitles := newSet localTitles
    match mapE (fun scene => getProp scene "title") (readArray store1 stashDBScenes) with
    | Except.error e => Except.error e
    | Except.ok remoteTitles =>
      let store2 := (newArray store1 remoteTitles).1
      let _stashDBSceneTitles := newSet remoteTitles
      match filterE (fun scene =>
          match getProp scene "title" with
          | Except.error e => Except.error e
          | Except.ok t => Except.ok (!(setHas localSceneTitles t)))
          (readArray store2 stashDBScenes) with
      | Except.error e => Except.error e
      | Except.ok missingScenes => Except.ok (newArray store2 missingScenes)

end RightClick

namespace NewScenes

/-- The recency filter of lines 600-608 on arrays passed by reference:
`performerStashScenesMap` maps each endpoint to the reference of its array of scenes, and
`filteredStashScenesMap` maps it to the reference of the array `filter` created. -/
def filterByDateOnStore (parse : String → Option Int) (cutoff : Option Int)
    (store : ArrayStore) (performerStashScenesMap : List (String × Nat)) :
    Except JSError (ArrayStore × List (String × Nat)) :=
  foldlE (fun (st : ArrayStore × List (String × Nat)) (group : String × Nat) =>
    match filterE (isRecent parse cutoff) (readArray st.1 group.2) with
    | Except.error e => Except.error e
    | Except.ok filteredScenes =>
      Except.ok ((newArray st.1 filteredScenes).1,
        if filteredScenes.length > 0
        then setProp group.1 (newArray st.1 filteredScenes).2 st.2
        else st.2)) (store, []) performerStashScenesMap

end NewScenes

/-- An object whose values are array references, with each reference replaced by the
content of its array. -/
def contentsOf (store : ArrayStore) (o : List (String × Nat)) : List (String × List JSVal) :=
  o.map (fun g => (g.1, readArray store g.2))

/-! ## Further functions of the two plugins -/

/-- `s.includes(sub)`: whether `sub` occurs in `s` as a contiguous run of characters
(code units in JavaScript; the needles of this code are ASCII literals). -/
def includes (s sub : String) : Bool :=
  s.toList.tails.any (fun t => sub.toList.isPrefixOf t)

/-- `s.startsWith(pre)`. -/
def startsWith (s pre : String) : Bool := pre.toList.isPrefixOf s.toList

/-- `xs.find(p)` for a callback that may throw: the first element `p` accepts, or
`undefined`. -/
def findE (p : JSVal → Except JSError Bool) : List JSVal → Except JSError JSVal
  | [] => Except.ok JSVal.undefined
  | x :: xs =>
    match p x with
    | Except.error e => Except.error e
    | Except.ok b => if b then Except.ok x else findE p xs

/-- The operand chosen by `a ?? b`. -/
def nullish (a b : JSVal) : JSVal :=
  match a with
  | JSVal.undefined => b
  | JSVal.null => b
  | v => v

namespace NewScenes

/-- `generateSceneUrl(endpoint, stashId)`, lines 418-426.  The endpoint is a key of
`stashScenesMap`, hence a string; the template literal renders `stashId` with
`ToString`. -/
def generateSceneUrl (endpoint : String) (stashId : JSVal) : String :=
  if includes endpoint "pmvstash" then "https://pmvstash.org/scenes/" ++ stashId.toStr
  else if includes endpoint "fansdb" then "https://fansdb.cc/scenes/" ++ stashId.toStr
  else "https://stashdb.org/scenes/" ++ stashId.toStr

/-- The capture `performerHref.match(/\/performers\/(\d+)/)?.[1]` of line 535, at the
start of `cs`: the longest run of digits after the literal, when it is not empty. -/
def hrefIdHere (cs : List Char) : Option String :=
  if "/performers/".toList.isPrefixOf cs then
    let digits := (cs.drop "/performers/".toList.length).takeWhile Char.isDigit
    if digits.isEmpty then none else some (String.mk digits)
  else none

/-- The leftmost match of `/\/performers\/(\d+)/` in `cs`. -/
def hrefIdSearch : List Char → Option String
  | [] => none
  | c :: cs =>
    match hrefIdHere (c :: cs) with
    | some d => some d
    | none => hrefIdSearch cs

/-- The performer id line 535 reads off the `href` of a card's link. -/
def hrefPerformerId (performerHref : String) : Option String :=
  hrefIdSearch performerHref.toList

/-! ### Debouncing

Time is the host's clock in milliseconds.  A timer fires when the clock reaches the time
it is due (`setTimeout` never runs a callback early), and timers that are due run before
an event that arrives later. -/

/-- A timer set by `setTimeout` inside the debounced function and still pending: its id,
the time it is due, and the arguments its callback hands to `func`. -/
structure Timer (α : Type) where
  id : Nat
  due : Nat
  args : α

/-- One function returned by `debounce(func, delay)`, lines 58-66, with the host's view of
it: the closure variable `timeoutId` (`none` while `undefined`), its pending timers, the
id the next `setTimeout` returns (ids are positive), and the calls of `func` started so
far, each with its time and arguments. -/
structure Debounced (α : Type) where
  timeoutId : Option Nat
  pending : List (Timer α)
  nextId : Nat
  started : List (Nat × α)

/-- The state right after `debounce(func, delay)` returned. -/
def Debounced.fresh {α : Type} : Debounced α :=
  { timeoutId := none, pending := [], nextId := 1, started := [] }

/-- The clock reaches `now`: every pending timer due by then runs its callback
`func.apply(null, args)`. -/
def elapse {α : Type} (now : Nat) (d : Debounced α) : Debounced α :=
  { d with
    pending := d.pending.filter (fun t => decide (now < t.due)),
    started := d.started ++
      (d.pending.filter (fun t => decide (t.due ≤ now))).map (fun t => (t.due, t.args)) }

/-- `clearTimeout(id)`. -/
def clearTimeout {α : Type} (id : Nat) (pending : List (Timer α)) : List (Timer α) :=
  pending.filter (fun t => t.id != id)

/-- A call `debounced(...args)` at time `now`, lines 60-65: a truthy `timeoutId` is
cleared, then a new timer is set for `now + delay`. -/
def debounce {α : Type} (delay : Nat) (now : Nat) (args : α) (d : Debounced α) :
    Debounced α :=
  let d1 := elapse now d
  let pending1 :=
    match d1.timeoutId with
    | some id => if id != 0 then clearTimeout id d1.pending else d1.pending
    | none => d1.pending
  { timeoutId := some d1.nextId,
    pending := pending1 ++ [{ id := d1.nextId, due := now + delay, args := args }],
    nextId := d1.nextId + 1,
    started := d1.started }

/-- A call of `processPerformerCards = debounce(async () => ..., 300)`, line 519, at time
`now`. -/
def debouncedProcessPerformerCards {α : Type} (now : Nat) (args : α) (d : Debounced α) :
    Debounced α :=
  debounce 300 now args d

/-- A sequence of calls of the debounced driver, each with its time and arguments. -/
def triggerAll {α : Type} (events : List (Nat × α)) (d : Debounced α) : Debounced α :=
  events.foldl (fun d e => debouncedProcessPerformerCards e.1 e.2 d) d

end NewScenes

namespace RightClick

/-- The capture of `/\/performers\/(\d+)\//`, line 1372, for a match that begins at the
start of `cs`: the literal, a run of digits, a slash.  The digits are followed by a
slash only when the run is the longest one, so backtracking to a shorter run never
succeeds. -/
def performerIdHere (cs : List Char) : Option String :=
  if "/performers/".toList.isPrefixOf cs then
    let rest := cs.drop "/performers/".toList.length
    let digits := rest.takeWhile Char.isDigit
    if !digits.isEmpty && (rest.dropWhile Char.isDigit).head? == some '/' then
      some (String.mk digits)
    else none
  else none

/-- The leftmost match of the pattern in `cs`, as `String.prototype.match` finds it. -/
def performerIdSearch : List Char → Option String
  | [] => none
  | c :: cs =>
    match performerIdHere (c :: cs) with
    | some d => some d
    | none => performerIdSearch cs

/-- `getPerformerIDFromURL()`, lines 1370-1374, as a function of `window.location.href`. -/
def getPerformerIDFromURL (url : String) : JSVal :=
  match performerIdSearch url.toList with
  | some performerID => JSVal.str performerID
  | none => JSVal.null

/-- `tpdbConfig`, lines 63-65: the first provider whose endpoint starts with the TPDB
URL.  Reading `endpoint` of `null`/`undefined` throws, and so does calling `startsWith`
on an endpoint that is not a string. -/
def tpdbConfig (stashBoxes : List JSVal) : Except JSError JSVal :=
  findE (fun box =>
    match getProp box "endpoint" with
    | Except.error e => Except.error e
    | Except.ok (JSVal.str endpoint) =>
      Except.ok (startsWith endpoint "https://theporndb.net/graphql")
    | Except.ok _ => Except.error JSError.typeError) stashBoxes

/-- `config.tpdbEndpoint` after line 76, the URL `fetchPerformerImagesFromTPDB` sends its
request to (line 236). -/
def tpdbEndpoint (stashBoxes : List JSVal) : Except JSError JSVal :=
  match tpdbConfig stashBoxes with
  | Except.error e => Except.error e
  | Except.ok box => Except.ok (nullish (optGet box "endpoint") (JSVal.str ""))

/-- `stash_ids.find((id) => id.endpoint === endpoint)?.stash_id`, lines 159-164; calling
`find` on something that is not an array throws. -/
def stashIdAt (stash_ids : JSVal) (endpoint : String) : Except JSError JSVal :=
  match stash_ids with
  | JSVal.arr ids =>
    match findE (fun id =>
        match getProp id "endpoint" with
        | Except.error e => Except.error e
        | Except.ok e => Except.ok (strictEqStr e endpoint)) ids with
    | Except.error e => Except.error e
    | Except.ok found => Except.ok (optGet found "stash_id")
  | _ => Except.error JSError.typeError

/-- `fetchPerformerIDs(performerID)`, lines 140-174, as a function of what
`graphqlRequest` gave (an exception when the request failed): the object
`{ stashDBID, tpdbID }`, or `null` when the data is missing or anything inside the `try`
threw. -/
def fetchPerformerIDs (response : Except JSError JSVal) : JSVal :=
  match response with
  | Except.error _ => JSVal.null
  | Except.ok response =>
    let findPerformer := optGet (optGet response "data") "findPerformer"
    if response.truthy && (optGet response "data").truthy && findPerformer.truthy then
      let stash_ids := optGet findPerformer "stash_ids"
      match stashIdAt stash_ids "https://stashdb.org/graphql" with
      | Except.error _ => JSVal.null
      | Except.ok stashDBID =>
        match stashIdAt stash_ids "https://theporndb.net/graphql" with
        | Except.error _ => JSVal.null
        | Except.ok tpdbID => JSVal.obj [("stashDBID", stashDBID), ("tpdbID", tpdbID)]
    else JSVal.null

/-- The list `combinedTagIds` that `addTagsToPerformer(performerID, newTagIds)`, lines
1062-1100, sends as `tag_ids` of its update, as a function of the answer
`existingTagsResponse` to its first query.  The statements before the update are outside
any `try`: an answer without `data.findPerformer.tags` makes the call throw before
anything is sent. -/
def addTagsToPerformer (existingTagsResponse : JSVal) (newTagIds : List JSVal) :
    Except JSError (List JSVal) :=
  match getProp existingTagsResponse "data" with
  | Except.error e => Except.error e
  | Except.ok data =>
    match getProp data "findPerformer" with
    | Except.error e => Except.error e
    | Except.ok findPerformer =>
      match getProp findPerformer "tags" with
      | Except.error e => Except.error e
      | Except.ok (JSVal.arr tags) =>
        match mapE (fun tag => getProp tag "id") tags with
        | Except.error e => Except.error e
        | Except.ok existingTags => Except.ok (newSet (existingTags ++ newTagIds))
      | Except.ok _ => Except.error JSError.typeError

/-- What `fetchStashDBScenes` returns when it does not return `null`: the `queryScenes`
object of the answer, typed as the provider's schema declares it. -/
structure QueryScenes where
  scenes : List JSVal
  count : Int

/-- The paging loop of the Missing Scenes action, lines 1126-1137.  `fetchStashDBScenes
page` is the result of the call for that page, `none` for `null`.  The first component of
the result lists the pages requested, in order; the second is `stashDBScenes` when the
loop is left by `break`, or the `TypeError` of reading `scenes` of `null`.  The outer
`none` means that `fuel` iterations did not finish the loop. -/
def pagingLoop (fetchStashDBScenes : Nat → Option QueryScenes) :
    Nat → Nat → List Nat → List JSVal → Option (List Nat × Except JSError (List JSVal))
  | 0, _, _, _ => none
  | fuel + 1, page, requested, stashDBScenes =>
    match fetchStashDBScenes page with
    | none => some (requested ++ [page], Except.error JSError.typeError)
    | some result =>
      let stashDBScenes1 := stashDBScenes ++ result.scenes
      if (stashDBScenes1.length : Int) ≥ result.count ∨ result.scenes.length < 25 then
        some (requested ++ [page], Except.ok stashDBScenes1)
      else pagingLoop fetchStashDBScenes fuel (page + 1) (requested ++ [page]) stashDBScenes1

/-- The loop from its start: `stashDBScenes = []`, `page = 1`. -/
def fetchAllPages (fetchStashDBScenes : Nat → Option QueryScenes) (fuel : Nat) :
    Option (List Nat × Except JSError (List JSVal)) :=
  pagingLoop fetchStashDBScenes fuel 1 [] []

/-- The elements of `performers.flatMap((performer) => performer.tags)`, line 934: an
array of tags contributes its elements, any other value contributes itself. -/
def flatMapTags (performers : List JSVal) : Except JSError (List JSVal) :=
  match mapE (fun performer => getProp performer "tags") performers with
  | Except.error e => Except.error e
  | Except.ok tagLists =>
    Except.ok (tagLists.flatMap (fun tags =>
      match tags with
      | JSVal.arr items => items
      | v => [v]))

/-- The body of `.forEach((tag) => ...)`, lines 936-938. -/
def addUniqueTag (uniqueTags : List (String × JSVal)) (tag : JSVal) :
    Except JSError (List (String × JSVal)) :=
  match getProp tag "id" with
  | Except.error e => Except.error e
  | Except.ok id =>
    if !((getOwn uniqueTags id.toStr).getD JSVal.undefined).truthy then
      Except.ok (setProp id.toStr tag uniqueTags)
    else Except.ok uniqueTags

/-- Whether the comparator `(a, b) => new Date(b.updated_at) - new Date(a.updated_at)` of
line 943 does not ask for `b` before `a`: its value is negative, zero, or `NaN` (which
`sort` reads as zero). -/
def recentFirst (parse : String → Option Int) (a b : JSVal) : Bool :=
  match NewScenes.dateOf parse (optGet b "updated_at"),
        NewScenes.dateOf parse (optGet a "updated_at") with
  | some tb, some ta => decide (tb - ta ≤ 0)
  | _, _ => true

/-- `tags.sort(comparator)`, line 943.  The sort is stable; for a consistent comparator
(every date valid) the result is the one list every stable sort produces.  With invalid
dates the order is implementation-defined, and this is one admissible order. -/
def sortTags (parse : String → Option Int) (tags : List JSVal) : List JSVal :=
  tags.insertionSort (fun a b => recentFirst parse a b = true)

/-- What `fetchRecentTags` shows. -/
inductive RecentTags where
  | shown (sortedTags : List JSVal)
  | unexpected
  | failed

/-- `fetchRecentTags()`, lines 895-990, as a function of what `graphqlRequest` gave:
`shown sortedTags` with the list of line 942 when the answer has the expected structure,
`unexpected` when it has not (line 970), `failed` when anything inside the `try` threw. -/
def fetchRecentTags (parse : String → Option Int) (response : Except JSError JSVal) :
    RecentTags :=
  match response with
  | Except.error _ => RecentTags.failed
  | Except.ok response =>
    let data := optGet response "data"
    let findPerformers := optGet data "findPerformers"
    if response.truthy && data.truthy && findPerformers.truthy then
      match optGet findPerformers "performers" with
      | JSVal.arr performers =>
        match flatMapTags performers with
        | Except.error _ => RecentTags.failed
        | Except.ok tags =>
          match foldlE addUniqueTag [] tags with
          | Except.error _ => RecentTags.failed
          | Except.ok uniqueTags =>
            RecentTags.shown ((sortTags parse (objValues uniqueTags)).take 10)
      | _ => RecentTags.unexpected
    else RecentTags.unexpected

end RightClick

/-! ## Definitions used to state the properties -/

/-- The scene record with the given title and nothing else. -/
def titled (t : String) : List (String × JSVal) := [("title", str t)]

/-- One step of the recency filter on well-formed scenes. -/
def keepGroup (parse : String → Option Int) (cutoff : Int)
    (acc : List (String × List JSVal)) (group : String × List JSVal) :
    List (String × List JSVal) :=
  if (group.2.filter (NewScenes.releasedAfter parse cutoff)).length > 0
  then setProp group.1 (group.2.filter (NewScenes.releasedAfter parse cutoff)) acc
  else acc

/-- A scene record released at the time value `t` (a number in `release_date`). -/
def sceneAt (title : String) (t : Int) : JSVal :=
  obj [("title", str title), ("release_date", num t)]

/-- ASCII lower-casing of a string. -/
def lowerCase (s : String) : String := String.mk (s.toList.map Char.toLower)

/-- A provider record as the host's configuration lists it. -/
def provider (endpoint apiKey name : String) : JSVal :=
  obj [("endpoint", str endpoint), ("api_key", str apiKey), ("name", str name)]

/-- The body of a successful answer to the `Configuration` query. -/
def registryBody (boxes : List JSVal) : List (String × JSVal) :=
  [("data", obj [("configuration", obj [("general", obj [("stashBoxes", arr boxes)])])])]

/-- The `config` object as the module creates it (no stored API key, default window). -/
def startConfig : NewScenes.Config :=
  { localEndpoint := "http://localhost:9999/graphql", stashBoxes := [], apiKey := JSVal.null,
    defaultDateRange := JSNumber.finite 7 }

/-- The endpoints of the providers stored by a call of `getAllStashBoxes` that returned. -/
def storedEndpoints (r : Except JSError NewScenes.Config) : List String :=
  match r with
  | Except.ok c => c.stashBoxes.map (fun box => (optGet box "endpoint").toStr)
  | Except.error _ => []

/-- The value `m[k1][k2]` of an object of objects, `none` when `m[k1]` or the inner
property does not exist. -/
def getOwn2 (m : ObjMap) (k1 k2 : String) : Option JSVal :=
  (getOwn m k1).bind (fun inner => getOwn inner k2)

/-- An element of `stash_ids` as the schema gives it: a record whose `endpoint` is a
string. -/
def isStashId (v : JSVal) : Bool :=
  match v with
  | JSVal.obj props =>
    match lookup props "endpoint" with
    | JSVal.str _ => true
    | _ => false
  | _ => false

/-- The (endpoint, external id) pair an element of `stash_ids` carries. -/
def pairOf (idObj : JSVal) : String × JSVal :=
  ((optGet idObj "endpoint").toStr, optGet idObj "stash_id")

/-- The external id of the last pair of `pairs` whose endpoint is `e`. -/
def lastFor (e : String) (pairs : List (String × JSVal)) : Option JSVal :=
  ((pairs.filter (fun p => p.1 == e)).getLast?).map Prod.snd

/-- The pairs the local system returned for the performer `pid`: the `stash_ids` of the
sub-queries asked for `pid`, in query order (`stashIdsOf a` is the sequence returned
under the alias `a`). -/
def returnedPairs (performerIds : List String) (stashIdsOf : String → List JSVal)
    (pid : String) : List (String × JSVal) :=
  (((NewScenes.aliasesOf "performer" performerIds.length).zip performerIds).filter
    (fun en => en.2 == pid)).flatMap (fun en => (stashIdsOf en.1).map pairOf)

/-- What `addStashId` does with the pair of a well-formed element. -/
def addPair (pid : String) (m : ObjMap) (p : String × JSVal) : ObjMap :=
  if p.1 = NewScenes.disallowedEndpoint then m else setProp2 pid p.1 p.2 m

/-- What `addPerformer` does with the well-formed answer to one sub-query. -/
def addEntry (stashIdsOf : String → List JSVal) (m : ObjMap) (en : String × String) : ObjMap :=
  ((stashIdsOf en.1).map pairOf).foldl (addPair en.2) m

/-- One element of `stash_ids`. -/
def stashId (endpoint id : String) : JSVal :=
  obj [("endpoint", str endpoint), ("stash_id", str id)]

/-- A local system that answers every query with the given `data`. -/
def localNet (data : List (String × JSVal)) : Net :=
  fun _ => FetchOutcome.body (obj [("data", obj data)])

/-- The returned map with every external id rendered as a string. -/
def renderMap (r : Except JSError ObjMap) : List (String × List (String × String)) :=
  match r with
  | Except.ok m => m.map (fun en => (en.1, en.2.map (fun q => (q.1, q.2.toStr))))
  | Except.error _ => []

/-- Whether the remote fetcher sends a request for a provider record: its credential is
truthy and some performer of the identity map has a truthy id under its endpoint. -/
def eligible (m : ObjMap) (box : JSVal) : Bool :=
  (optGet box "api_key").truthy && !(NewScenes.collectStashIds m (optGet box "endpoint")).isEmpty

/-- The batched request the remote fetcher sends for a provider record. -/
def sceneRequest (m : ObjMap) (box : JSVal) : Request :=
  NewScenes.requestOf (optGet box "endpoint").toStr
    (Query.findPerformers Selection.scenes
      ((NewScenes.aliasesOf "stash"
          (NewScenes.collectStashIds m (optGet box "endpoint")).length).zip
        ((NewScenes.collectStashIds m (optGet box "endpoint")).map JSVal.toStr)))
    (optGet box "api_key")

/-- The truthy values the entities of an identity map hold under the endpoint `e`, one
per entity holding one, in the enumeration order of the map. -/
def idsHeld (m : ObjMap) (e : String) : List JSVal :=
  (m.map (fun en => lookup en.2 e)).filter JSVal.truthy

/-- The endpoint of a provider record as the string used for requests and as key. -/
def endpointOf (box : JSVal) : String := (optGet box "endpoint").toStr

/-- The sub-queries `(alias, id)` the remote fetcher asks a provider record, in order. -/
def subQueries (m : ObjMap) (box : JSVal) : List (String × JSVal) :=
  (NewScenes.aliasesOf "stash"
      (NewScenes.collectStashIds m (optGet box "endpoint")).length).zip
    (NewScenes.collectStashIds m (optGet box "endpoint"))

/-- What `performGraphQLQuery` returns for the batched request of a provider record:
the data of the answer, or `null` when the request failed. -/
def answerOf (net : Net) (m : ObjMap) (box : JSVal) : JSVal :=
  NewScenes.responseData (net (sceneRequest m box))

/-- The value stored for the sub-query `al` of an answer: `result?.[al]?.scenes || []`. -/
def scenesUnder (result : JSVal) (al : String) : JSVal :=
  orElse (optGet (optGet result al) "scenes") (JSVal.arr [])

/-- Whether a provider record is queried and its batched request succeeds. -/
def succeeds (net : Net) (m : ObjMap) (box : JSVal) : Bool :=
  eligible m box && (answerOf net m box).truthy

/-- One iteration of the provider loop on a provider record. -/
def boxStep (net : Net) (m : ObjMap) (acc : ObjMap) (box : JSVal) : ObjMap :=
  if succeeds net m box then
    (subQueries m box).foldl (NewScenes.storeScenes (answerOf net m box) (optGet box "endpoint"))
      acc
  else acc

/-- The value stored by the last sub-query of `subs` asked for the id `x`. -/
def lastScenes (result : JSVal) (x : String) (subs : List (String × JSVal)) : Option JSVal :=
  ((subs.filter (fun sq => sq.2.toStr == x)).getLast?).map (fun sq => scenesUnder result sq.1)

/-- A provider's answer to a batched scenes query: `data` of a body without errors. -/
def scenesNet (answers : List (String × List (String × JSVal))) : Net :=
  fun req =>
    match getOwn answers req.endpoint with
    | some data => FetchOutcome.body (obj [("data", obj data)])
    | none => FetchOutcome.networkError

/-- The part `{ scenes: [...] }` of an answer under one alias. -/
def scenesField (scenes : List JSVal) : JSVal := obj [("scenes", arr scenes)]

/-- The servers of a run: the local system answers every query with `localData`, a
provider answers with its entry of `answers` and is unreachable when it has none. -/
def worldNet (localData : List (String × JSVal))
    (answers : List (String × List (String × JSVal))) : Net :=
  fun req =>
    if req.endpoint = "http://localhost:9999/graphql" then
      FetchOutcome.body (obj [("data", obj localData)])
    else
      match getOwn answers req.endpoint with
      | some data => FetchOutcome.body (obj [("data", obj data)])
      | none => FetchOutcome.networkError

/-- The `config` after a registry load that found StashDB with a credential. -/
def stashdbConfig : NewScenes.Config :=
  { startConfig with stashBoxes := [provider "https://stashdb.org/graphql" "k1" "StashDB"] }

/-- A scene record whose release date is a text, as the providers send it. -/
def sceneDated (title date : String) : JSVal :=
  obj [("title", str title), ("release_date", str date)]

/-- A `Date.parse` that reads the listed texts as the listed time values and nothing else
(a date without a time, such as 2024-03-09, denotes midnight UTC of that day). -/
def parseKnown (known : List (String × Int)) : String → Option Int :=
  fun text => getOwn known text

/-- A host whose local time is UTC. -/
def utcZone : NewScenes.TimeZone :=
  { offsetAtUtc := fun _ => 0, offsetAtLocal := fun _ => 0 }

/-- A host whose local time is always `offset` milliseconds ahead of UTC. -/
def fixedZone (offset : Int) : NewScenes.TimeZone :=
  { offsetAtUtc := fun _ => offset, offsetAtLocal := fun _ => offset }

/-- New York in 2024: UTC-4 from 10 March 07:00 UTC (03:00 on the local clock) to
3 November 06:00 UTC (02:00 on the local clock), UTC-5 otherwise. -/
def newYork2024 : NewScenes.TimeZone :=
  { offsetAtUtc := fun t =>
      if 1710054000000 ≤ t ∧ t < 1730613600000 then -14400000 else -18000000,
    offsetAtLocal := fun tl =>
      if 1710039600000 ≤ tl ∧ tl < 1730599200000 then -14400000 else -18000000 }

/-- Whether a result is a thrown exception. -/
def raised {α : Type} (r : Except JSError α) : Bool :=
  match r with
  | Except.error _ => true
  | Except.ok _ => false

/-- Whether a value is a primitive: not an array and not an object. -/
def isPrimitive : JSVal → Bool
  | JSVal.arr _ => false
  | JSVal.obj _ => false
  | _ => true

/-- The host of an `https` URL: what stands between the scheme and the next slash. -/
def hostOf (url : String) : String :=
  String.mk ((url.toList.drop "https://".toList.length).takeWhile (fun c => c != '/'))

/-- The answer of the local system to `FindPerformer` for a performer with the given
`stash_ids`. -/
def performerResponse (stash_ids : List JSVal) : JSVal :=
  obj [("data", obj [("findPerformer", obj [("stash_ids", arr stash_ids)])])]

/-- The answer of the local system to the query for a performer's tags, for a performer
whose tags have the given ids, in order. -/
def tagsResponse (ids : List JSVal) : JSVal :=
  obj [("data", obj [("findPerformer",
    obj [("tags", arr (ids.map (fun id => obj [("id", id)])))])])]

/-- The elements of a list in order, each at its first occurrence only. -/
def firstOccurrences : List String → List String
  | [] => []
  | x :: xs => x :: (firstOccurrences xs).filter (fun y => y != x)

/-- A provider that holds the scenes `all` of the performer and serves them in pages of
25: page `p` holds the scenes of positions 25(p-1)+1 to min(25p, c), and every answer
reports the total `c`. -/
def pagedServer (all : List JSVal) (page : Nat) : Option RightClick.QueryScenes :=
  some { scenes := (all.drop (25 * (page - 1))).take 25, count := all.length }

/-- A tag as the recent-tags query returns it, read with the host's `Date.parse`: a record
whose `id` is a string and whose `updated_at` is a valid date. -/
def isTag (parse : String → Option Int) (tag : JSVal) : Bool :=
  tag.isObject
    && (match optGet tag "id" with
        | JSVal.str _ => true
        | _ => false)
    && (NewScenes.dateOf parse (optGet tag "updated_at")).isSome

/-- The time value of a tag's `updated_at` (0 when the date is invalid). -/
def updatedAt (parse : String → Option Int) (tag : JSVal) : Int :=
  (NewScenes.dateOf parse (optGet tag "updated_at")).getD 0

/-- The answer of the local system to the recent-tags query for performers with the
given tag lists. -/
def performersResponse (tagLists : List (List JSVal)) : JSVal :=
  obj [("data", obj [("findPerformers",
    obj [("performers", arr (tagLists.map (fun tags => obj [("tags", arr tags)])))])])]

/-- A tag record with a numeric time stamp. -/
def tagRecord (id : String) (updated_at : Int) : JSVal :=
  obj [("id", str id), ("updated_at", num updated_at)]

/-- The iteration of the driver's loop for one performer `p` who holds the external id
`x` at the provider `e`, started in the iteration of index `i` with the state `st`, when
the index holds `scenes` for that id. -/
def loopOnPerformer (parse : String → Option Int) (zone : NewScenes.TimeZone)
    (clock : Nat → Int) (config : NewScenes.Config) (i : Nat) (p e x : String)
    (scenes : List JSVal) (st : NewScenes.DriverState) :
    NewScenes.DriverState × Except JSError Unit :=
  NewScenes.processLoop parse zone clock config [(p, [(e, str x)])] [(e, [(x, arr scenes)])]
    i [p] st

/-- What that iteration leaves when `kept` are the scenes that survive the recency filter:
the performer is marked as processed, and gets an icon with the surviving scenes when
there is one. -/
def afterPerformer (st : NewScenes.DriverState) (p e x : String) (kept : List JSVal) :
    NewScenes.DriverState × Except JSError Unit :=
  ({ processedPerformers := NewScenes.addProcessed st.processedPerformers p,
     icons :=
      if kept.isEmpty then st.icons
      else st.icons ++ [{ performerId := p, stashMap := [(e, str x)],
                          filteredStashScenesMap := [(e, kept)] }] },
   Except.ok ())

/-! ## Lemmas on the JavaScript primitives -/

theorem sameValueZero_eq {a b : JSVal} (h : sameValueZero a b = true) : a = b := by
  cases a <;> cases b <;> simp_all [sameValueZero]

theorem sameValueZero_str (a b : String) : sameValueZero (str a) (str b) = decide (a = b) := by
  by_cases h : a = b <;> simp [sameValueZero, h]

theorem setHas_append (s t : List JSVal) (x : JSVal) :
    setHas (s ++ t) x = (setHas s x || setHas t x) := by
  simp [setHas]

theorem setHas_setAdd (s : List JSVal) (x t : JSVal) :
    setHas (setAdd s x) t = (setHas s t || sameValueZero x t) := by
  unfold setAdd
  split
  · next hx =>
    cases hxt : sameValueZero x t
    · simp
    · have := sameValueZero_eq hxt
      subst this
      simp [hx]
  · simp [setHas_append, setHas]

theorem setHas_foldl (xs s : List JSVal) (t : JSVal) :
    setHas (xs.foldl setAdd s) t = (setHas s t || xs.any (fun y => sameValueZero y t)) := by
  induction xs generalizing s with
  | nil => simp
  | cons x xs ih => simp [ih, setHas_setAdd, Bool.or_assoc]

theorem setHas_newSet (xs : List JSVal) (t : JSVal) :
    setHas (newSet xs) t = xs.any (fun y => sameValueZero y t) := by
  rw [newSet, setHas_foldl]
  simp [setHas]

theorem mapE_obj_getProp (key : String) (rs : List (List (String × JSVal))) :
    mapE (fun scene => getProp scene key) (rs.map JSVal.obj)
      = Except.ok (rs.map (fun r => lookup r key)) := by
  induction rs with
  | nil => rfl
  | cons r rs ih =>
    simp only [List.map_cons, mapE, ih]
    rfl

theorem filterE_obj_title (p : JSVal → Bool) (rs : List (List (String × JSVal))) :
    filterE (fun scene =>
        match getProp scene "title" with
        | Except.error e => Except.error e
        | Except.ok t => Except.ok (p t)) (rs.map JSVal.obj)
      = Except.ok ((rs.filter (fun r => p (lookup r "title"))).map JSVal.obj) := by
  induction rs with
  | nil => rfl
  | cons r rs ih =>
    simp only [List.map_cons, filterE, ih, List.filter_cons]
    cases h : p (lookup r "title") <;> simp [getProp, h]

/-! ## Lemmas on loops that may throw -/

theorem filterE_ok {α : Type} (p : α → Except JSError Bool) (q : α → Bool) (xs : List α)
    (h : ∀ x ∈ xs, p x = Except.ok (q x)) : filterE p xs = Except.ok (xs.filter q) := by
  induction xs with
  | nil => rfl
  | cons x xs ih =>
    have hx := h x (List.mem_cons_self _ _)
    have hxs := ih (fun y hy => h y (List.mem_cons_of_mem _ hy))
    simp only [filterE, hx, hxs, List.filter_cons]

theorem foldlE_ok {σ α : Type} (f : σ → α → Except JSError σ) (g : σ → α → σ)
    (xs : List α) (h : ∀ s, ∀ x ∈ xs, f s x = Except.ok (g s x)) (s : σ) :
    foldlE f s xs = Except.ok (xs.foldl g s) := by
  induction xs generalizing s with
  | nil => rfl
  | cons x xs ih =>
    have hx := h s x (List.mem_cons_self _ _)
    simp only [foldlE, hx, List.foldl_cons]
    exact ih (fun s y hy => h s y (List.mem_cons_of_mem _ hy)) _

/-! ## Lemmas on program-built objects -/

theorem hasOwn_cons {α : Type} (k2 : String) (v2 : α) (o : List (String × α)) (k : String) :
    hasOwn ((k2, v2) :: o) k = (k2 == k || hasOwn o k) := by
  simp [hasOwn]

theorem getOwn_eq_none {α : Type} (o : List (String × α)) (k : String) :
    getOwn o k = none ↔ hasOwn o k = false := by
  induction o with
  | nil => simp [getOwn, hasOwn]
  | cons p o ih =>
    obtain ⟨k2, v2⟩ := p
    by_cases h : k2 = k
    · simp [getOwn, hasOwn_cons, h]
    · simp [getOwn, hasOwn_cons, h, ih]

theorem hasOwn_iff_mem_keys {α : Type} (o : List (String × α)) (k : String) :
    hasOwn o k = true ↔ k ∈ o.map Prod.fst := by
  induction o with
  | nil => simp [hasOwn]
  | cons p o ih =>
    obtain ⟨k2, v2⟩ := p
    simp only [hasOwn_cons, Bool.or_eq_true, ih, List.map_cons, List.mem_cons, beq_iff_eq]
    constructor
    · rintro (h | h)
      · exact Or.inl h.symm
      · exact Or.inr h
    · rintro (h | h)
      · exact Or.inl h.symm
      · exact Or.inr h

theorem getOwn_insertKey {α : Type} (k : String) (v : α) (o : List (String × α)) (key : String)
    (h : hasOwn o k = false) :
    getOwn (insertKey k v o) key = if k = key then some v else getOwn o key := by
  induction o with
  | nil => simp [insertKey, getOwn]
  | cons p o ih =>
    obtain ⟨k2, v2⟩ := p
    simp only [hasOwn_cons, Bool.or_eq_false_iff, beq_eq_false_iff_ne, ne_eq] at h
    simp only [insertKey]
    split
    · simp [getOwn]
    · simp only [getOwn, ih h.2]
      by_cases h2 : k2 = key
      · have : ¬ k = key := fun hk => h.1 (h2.trans hk.symm)
        simp [h2, this]
      · simp [h2]

theorem getOwn_replace {α : Type} (k : String) (v : α) (o : List (String × α)) (key : String) :
    getOwn (o.map (fun p => if p.1 = k then (p.1, v) else p)) key
      = if k = key then (getOwn o k).map (fun _ => v) else getOwn o key := by
  induction o with
  | nil => simp [getOwn]
  | cons p o ih =>
    obtain ⟨k2, v2⟩ := p
    show getOwn ((if k2 = k then (k2, v) else (k2, v2)) :: _) key = _
    by_cases h2 : k2 = k
    · rw [if_pos h2]
      by_cases h3 : k = key
      · subst h2; subst h3; simp [getOwn]
      · have h4 : ¬ k2 = key := fun h => h3 (h2.symm.trans h)
        simp [getOwn, h3, h4, ih]
    · rw [if_neg h2]
      by_cases h3 : k = key
      · subst h3
        simp [getOwn, h2, ih]
      · simp [getOwn, h2, h3, ih]

theorem getOwn_setProp {α : Type} (k : String) (v : α) (o : List (String × α)) (key : String) :
    getOwn (setProp k v o) key = if k = key then some v else getOwn o key := by
  unfold setProp
  split
  · next h =>
    rw [getOwn_replace]
    cases hg : getOwn o k with
    | none => rw [(getOwn_eq_none o k).1 hg] at h; simp at h
    | some w => simp
  · next h => exact getOwn_insertKey k v o key (by simpa using h)

/-! ## Missing-records filter -/

/-- C1: compareScenes(local, remote) is the sub-sequence of remote, in remote order, of
the records whose title equals (SameValueZero, which on strings is exact, case-sensitive
equality) no local title; nothing is de-duplicated.  With local titles [A, B] and remote
titles [A, C] the result is [C]; a local title a does not match a remote title A; a
missing title occurring twice remotely is kept twice. -/
theorem C1_compareScenes_missing :
    (∀ loc rem : List (List (String × JSVal)),
      RightClick.compareScenes (loc.map JSVal.obj) (rem.map JSVal.obj)
        = Except.ok ((rem.filter (fun r =>
            !(loc.any (fun l => sameValueZero (lookup l "title") (lookup r "title"))))).map
              JSVal.obj))
    ∧ (∀ a b : String, sameValueZero (str a) (str b) = true ↔ a = b)
    ∧ RightClick.compareScenes [obj (titled "A"), obj (titled "B")]
          [obj (titled "A"), obj (titled "C")] = Except.ok [obj (titled "C")]
    ∧ RightClick.compareScenes [obj (titled "a")] [obj (titled "A")]
          = Except.ok [obj (titled "A")]
    ∧ RightClick.compareScenes [obj (titled "A")]
          [obj (titled "C"), obj (titled "A"), obj (titled "C")]
          = Except.ok [obj (titled "C"), obj (titled "C")] := by
  refine ⟨?_, ?_, rfl, rfl, rfl⟩
  · intro loc rem
    simp only [RightClick.compareScenes, mapE_obj_getProp]
    rw [filterE_obj_title (fun t => !(setHas (newSet (loc.map (fun r => lookup r "title"))) t))]
    congr 2
    apply List.filter_congr
    intro r _
    rw [setHas_newSet]
    congr 1
    induction loc with
    | nil => rfl
    | cons l loc ih => simp [ih]
  · intro a b
    simp [sameValueZero_str]

/-! ## Recency filter -/

theorem getProp_of_isObject (v : JSVal) (key : String) (h : v.isObject = true) :
    getProp v key = Except.ok (optGet v key) := by
  cases v <;> simp_all [JSVal.isObject, getProp, optGet]

theorem isRecent_of_isObject (parse : String → Option Int) (cutoff : Int) (s : JSVal)
    (h : s.isObject = true) :
    NewScenes.isRecent parse (some cutoff) s
      = Except.ok (NewScenes.releasedAfter parse cutoff s) := by
  simp [NewScenes.isRecent, getProp_of_isObject s _ h, NewScenes.releasedAfter]

theorem filterByDate_ok (parse : String → Option Int) (cutoff : Int)
    (groups : List (String × List JSVal))
    (hrec : ∀ g ∈ groups, ∀ s ∈ g.2, s.isObject = true) :
    NewScenes.filterByDate parse (some cutoff) groups
      = Except.ok (groups.foldl (keepGroup parse cutoff) []) := by
  unfold NewScenes.filterByDate
  apply foldlE_ok
  intro acc g hg
  have := filterE_ok (NewScenes.isRecent parse (some cutoff)) (NewScenes.releasedAfter parse cutoff)
    g.2 (fun s hs => isRecent_of_isObject parse cutoff s (hrec g hg s hs))
  simp only [this, keepGroup]

theorem getOwn_foldl_keepGroup (parse : String → Option Int) (cutoff : Int)
    (groups : List (String × List JSVal)) (hkeys : (groups.map Prod.fst).Nodup)
    (acc : List (String × List JSVal)) (e : String) :
    getOwn (groups.foldl (keepGroup parse cutoff) acc) e =
      match getOwn groups e with
      | some scenes =>
        if (scenes.filter (NewScenes.releasedAfter parse cutoff)).isEmpty then getOwn acc e
        else some (scenes.filter (NewScenes.releasedAfter parse cutoff))
      | none => getOwn acc e := by
  induction groups generalizing acc with
  | nil => simp [getOwn]
  | cons g groups ih =>
    obtain ⟨k, scenes⟩ := g
    simp only [List.map_cons, List.nodup_cons] at hkeys
    rw [List.foldl_cons, ih hkeys.2]
    by_cases hk : k = e
    · subst hk
      have hnone : getOwn groups k = none := by
        rw [getOwn_eq_none]
        cases hh : hasOwn groups k
        · rfl
        · exact absurd ((hasOwn_iff_mem_keys groups k).1 hh) hkeys.1
      simp only [hnone, getOwn, if_true, keepGroup]
      by_cases hf : scenes.filter (NewScenes.releasedAfter parse cutoff) = []
      · simp [hf]
      · have hne : (scenes.filter (NewScenes.releasedAfter parse cutoff)).isEmpty = false := by
          simpa [List.isEmpty_iff] using hf
        have hpos : (scenes.filter (NewScenes.releasedAfter parse cutoff)).length > 0 :=
          List.length_pos.2 hf
        simp only [hne, hpos, getOwn_setProp, if_true]
        simp
    · have hacc : getOwn (keepGroup parse cutoff acc (k, scenes)) e = getOwn acc e := by
        unfold keepGroup
        split
        · simp [getOwn_setProp, hk]
        · rfl
      simp only [getOwn, hk, if_false, hacc]

theorem releasedAfter_iff (parse : String → Option Int) (cutoff : Int) (s : JSVal) :
    NewScenes.releasedAfter parse cutoff s = true
      ↔ ∃ t, NewScenes.dateOf parse (optGet s "release_date") = some t ∧ cutoff < t := by
  unfold NewScenes.releasedAfter
  cases h : NewScenes.dateOf parse (optGet s "release_date") with
  | none => simp [NewScenes.dateGt]
  | some t => simp [NewScenes.dateGt]

/-- C2: for a cutoff that is a valid instant and scenes grouped under distinct provider
endpoints, the recency filter returns, for each endpoint, the scenes of that endpoint
whose release date is strictly after the cutoff, in their original order, and has no
entry for an endpoint none of whose scenes survives (or that had no group); a scene
survives exactly when its release date is a valid instant t with cutoff < t, so one dated
at the cutoff is dropped. -/
theorem C2_recency_filter_groups (parse : String → Option Int) (cutoff : Int)
    (groups : List (String × List JSVal))
    (hkeys : (groups.map Prod.fst).Nodup)
    (hrec : ∀ g ∈ groups, ∀ s ∈ g.2, s.isObject = true) :
    ∃ res, NewScenes.filterByDate parse (some cutoff) groups = Except.ok res
      ∧ (∀ e, getOwn res e =
          match getOwn groups e with
          | some scenes =>
            if (scenes.filter (NewScenes.releasedAfter parse cutoff)).isEmpty then none
            else some (scenes.filter (NewScenes.releasedAfter parse cutoff))
          | none => none)
      ∧ (∀ s, NewScenes.releasedAfter parse cutoff s = true
          ↔ ∃ t, NewScenes.dateOf parse (optGet s "release_date") = some t ∧ cutoff < t)
      ∧ (∀ s, NewScenes.dateOf parse (optGet s "release_date") = some cutoff
          → NewScenes.releasedAfter parse cutoff s = false) := by
  refine ⟨_, filterByDate_ok parse cutoff groups hrec, ?_, releasedAfter_iff parse cutoff, ?_⟩
  · intro e
    rw [getOwn_foldl_keepGroup parse cutoff groups hkeys]
    simp [getOwn]
  · intro s hs
    simp [NewScenes.releasedAfter, hs, NewScenes.dateGt]

/-- C2 at two provider groups and the cutoff 10: the hypotheses hold and the theorem
applies. -/
theorem C2_recency_filter_groups_witness :
    (([("https://stashdb.org/graphql", [sceneAt "a" 5, sceneAt "b" 10, sceneAt "c" 11]),
        ("https://fansdb.cc/graphql", [sceneAt "d" 3])] :
          List (String × List JSVal)).map Prod.fst).Nodup
    ∧ ∃ res, NewScenes.filterByDate (fun _ => none) (some 10)
          [("https://stashdb.org/graphql", [sceneAt "a" 5, sceneAt "b" 10, sceneAt "c" 11]),
           ("https://fansdb.cc/graphql", [sceneAt "d" 3])] = Except.ok res
        ∧ getOwn res "https://stashdb.org/graphql" = some [sceneAt "c" 11]
        ∧ getOwn res "https://fansdb.cc/graphql" = none := by
  refine ⟨by decide, ?_⟩
  obtain ⟨res, h1, h2, -, -⟩ := C2_recency_filter_groups (fun _ => none) 10
    [("https://stashdb.org/graphql", [sceneAt "a" 5, sceneAt "b" 10, sceneAt "c" 11]),
     ("https://fansdb.cc/graphql", [sceneAt "d" 3])] (by decide) (by decide)
  refine ⟨res, h1, ?_, ?_⟩
  · rw [h2]; rfl
  · rw [h2]; rfl

/-! ## Recency window -/

theorem cutoffDate_eq (zone : NewScenes.TimeZone) (now days : Int)
    (hz : zone.offsetAtLocal (now + zone.offsetAtUtc now - days * NewScenes.msPerDay)
      = zone.offsetAtUtc now)
    (h : -8640000000000000 ≤ now - days * NewScenes.msPerDay
      ∧ now - days * NewScenes.msPerDay ≤ 8640000000000000) :
    NewScenes.cutoffDate zone now (JSNumber.finite days)
      = some (now - days * NewScenes.msPerDay) := by
  have he : now + zone.offsetAtUtc now - days * NewScenes.msPerDay - zone.offsetAtUtc now
      = now - days * NewScenes.msPerDay := by ring
  simp only [NewScenes.cutoffDate, hz, he, NewScenes.timeClip, h, and_self, if_true]

theorem filterByDate_single (parse : String → Option Int) (cutoff : Int) (e : String)
    (scenes : List JSVal) (hrec : ∀ s ∈ scenes, s.isObject = true) :
    NewScenes.filterByDate parse (some cutoff) [(e, scenes)]
      = Except.ok (if (scenes.filter (NewScenes.releasedAfter parse cutoff)).isEmpty then []
          else [(e, scenes.filter (NewScenes.releasedAfter parse cutoff))]) := by
  rw [filterByDate_ok parse cutoff [(e, scenes)] (by simpa using hrec)]
  simp only [List.foldl_cons, List.foldl_nil, keepGroup]
  cases hf : scenes.filter (NewScenes.releasedAfter parse cutoff) with
  | nil => simp
  | cons a l => simp [setProp, hasOwn, insertKey]

theorem aggregateScenes_single (e x : String) (scenes : List JSVal) :
    NewScenes.aggregateScenes [(e, [(x, arr scenes)])] (objValues [(e, str x)])
      = Except.ok [(e, scenes)] := by
  simp [NewScenes.aggregateScenes, foldlE, NewScenes.aggregateEntry, objValues,
    sameValueZero, hasOwn, setProp, insertKey, getOwn, NewScenes.spreadOf]

theorem loopOnPerformer_eq (parse : String → Option Int) (zone : NewScenes.TimeZone)
    (clock : Nat → Int) (config : NewScenes.Config) (i : Nat) (p e x : String)
    (scenes : List JSVal) (st : NewScenes.DriverState) (cutoff : Int)
    (hcut : NewScenes.cutoffDate zone (clock i) config.defaultDateRange = some cutoff)
    (hrec : ∀ s ∈ scenes, s.isObject = true) :
    loopOnPerformer parse zone clock config i p e x scenes st
      = afterPerformer st p e x (scenes.filter (NewScenes.releasedAfter parse cutoff)) := by
  unfold loopOnPerformer afterPerformer
  rw [NewScenes.processLoop]
  have hget : getOwn [(p, [(e, str x)])] p = some [(e, str x)] := by simp [getOwn]
  simp only [hget]
  have hlen : ¬ (objValues [(e, str x)]).length = 0 := by simp [objValues]
  rw [if_neg hlen, aggregateScenes_single]
  simp only [hcut]
  rw [filterByDate_single parse cutoff e scenes hrec]
  cases hf : scenes.filter (NewScenes.releasedAfter parse cutoff) with
  | nil => simp [NewScenes.processLoop]
  | cons a l => simp [NewScenes.processLoop]

/-- C3 fails on the code where a day is not 24 hours before the same time of day, and
where the release dates are dates without a time.  In New York on 15 March 2024 at 19:30
(daylight time, five days after the clocks changed) the cutoff for a window of 7 days is
8 March 19:30 standard time, one hour later than now minus 7 times 24 hours, and of the
scenes dated 2024-03-15, 2024-03-09 and 2024-03-07 only the first survives.  In a zone
always 5 hours behind UTC, on 15 January 2024 at 19:30, the scene dated 2024-01-09 is
dropped as well: its release instant, midnight UTC, is 30 minutes before the cutoff. -/
theorem C3_calendar_day_counterexample :
    NewScenes.cutoffDate newYork2024 1710545400000 (JSNumber.finite 7)
      = some (1710545400000 - 7 * 86400000 + 3600000)
    ∧ (NewScenes.processPerformerCards
        (worldNet
          [("performer0", obj [("stash_ids", arr [stashId "https://stashdb.org/graphql" "x"])])]
          [("https://stashdb.org/graphql",
            [("stash0", scenesField [sceneDated "today" "2024-03-15",
              sceneDated "six" "2024-03-09", sceneDated "eight" "2024-03-07"])])])
        (parseKnown [("2024-03-15", 1710460800000), ("2024-03-09", 1709942400000),
          ("2024-03-07", 1709769600000)])
        newYork2024 (fun _ => 1710545400000) stashdbConfig
        [some "12"] []).icons.map (fun icon => icon.filteredStashScenesMap)
      = [[("https://stashdb.org/graphql", [sceneDated "today" "2024-03-15"])]]
    ∧ NewScenes.cutoffDate (fixedZone (-18000000)) 1705365000000 (JSNumber.finite 7)
      = some (1705365000000 - 7 * 86400000)
    ∧ (NewScenes.processPerformerCards
        (worldNet
          [("performer0", obj [("stash_ids", arr [stashId "https://stashdb.org/graphql" "x"])])]
          [("https://stashdb.org/graphql",
            [("stash0", scenesField [sceneDated "today" "2024-01-15",
              sceneDated "six" "2024-01-09", sceneDated "eight" "2024-01-07"])])])
        (parseKnown [("2024-01-15", 1705276800000), ("2024-01-09", 1704758400000),
          ("2024-01-07", 1704585600000)])
        (fixedZone (-18000000)) (fun _ => 1705365000000) stashdbConfig
        [some "12"] []).icons.map (fun icon => icon.filteredStashScenesMap)
      = [[("https://stashdb.org/graphql", [sceneDated "today" "2024-01-15"])]] := by
  refine ⟨by decide, rfl, by decide, rfl⟩

/-- C3, amended: the cutoff of the recency filter is the instant at which the local clock
showed the present time of day N calendar days ago (the local time now, less N times 24
hours, read with the offset in force at that local time), N being the window
config.defaultDateRange; it is the current instant minus N times 24 hours whenever the
zone's offset from UTC at that earlier local time is the present offset, and a scene
survives exactly when its release instant is strictly later than the cutoff.  Under that
condition on the offset for N = 7 and N = 0: with the window 7 and the scenes of a
performer released at most 24 hours before now, 6 times 24 hours before that and 8 times
24 hours before that, the iteration of the driver's loop for the performer hands exactly
the first two to the icon; with the window 0 it hands on exactly the scenes released
strictly after now, and adds no icon when there is none. -/
theorem C3_recency_window (parse : String → Option Int) (zone : NewScenes.TimeZone)
    (clock : Nat → Int) (config : NewScenes.Config) (i : Nat) (p e x : String)
    (st : NewScenes.DriverState) (d : Int) (s0 s6 s8 : JSVal)
    (hnow : 0 ≤ clock i ∧ clock i ≤ 8640000000000000)
    (hz7 : zone.offsetAtLocal (clock i + zone.offsetAtUtc (clock i) - 7 * NewScenes.msPerDay)
      = zone.offsetAtUtc (clock i))
    (hz0 : zone.offsetAtLocal (clock i + zone.offsetAtUtc (clock i))
      = zone.offsetAtUtc (clock i))
    (hd : 0 ≤ d ∧ d < NewScenes.msPerDay)
    (h0 : s0.isObject = true
      ∧ NewScenes.dateOf parse (optGet s0 "release_date") = some (clock i - d))
    (h6 : s6.isObject = true
      ∧ NewScenes.dateOf parse (optGet s6 "release_date")
          = some (clock i - d - 6 * NewScenes.msPerDay))
    (h8 : s8.isObject = true
      ∧ NewScenes.dateOf parse (optGet s8 "release_date")
          = some (clock i - d - 8 * NewScenes.msPerDay)) :
    (∀ n : Int, NewScenes.cutoffDate zone (clock i) (JSNumber.finite n)
        = NewScenes.timeClip
            ((clock i + zone.offsetAtUtc (clock i) - n * NewScenes.msPerDay)
              - zone.offsetAtLocal
                  (clock i + zone.offsetAtUtc (clock i) - n * NewScenes.msPerDay)))
    ∧ (∀ n : Int,
        zone.offsetAtLocal (clock i + zone.offsetAtUtc (clock i) - n * NewScenes.msPerDay)
          = zone.offsetAtUtc (clock i)
        → -8640000000000000 ≤ clock i - n * NewScenes.msPerDay
        → clock i - n * NewScenes.msPerDay ≤ 8640000000000000
        → NewScenes.cutoffDate zone (clock i) (JSNumber.finite n)
            = some (clock i - n * NewScenes.msPerDay))
    ∧ (∀ (n cutoff : Int) (scenes : List JSVal),
        NewScenes.cutoffDate zone (clock i) (JSNumber.finite n) = some cutoff →
        (∀ s ∈ scenes, s.isObject = true) →
        loopOnPerformer parse zone clock { config with defaultDateRange := JSNumber.finite n }
            i p e x scenes st
          = afterPerformer st p e x (scenes.filter (NewScenes.releasedAfter parse cutoff)))
    ∧ loopOnPerformer parse zone clock { config with defaultDateRange := JSNumber.finite 7 }
          i p e x [s0, s6, s8] st
        = afterPerformer st p e x [s0, s6]
    ∧ (∀ scenes : List JSVal, (∀ s ∈ scenes, s.isObject = true) →
        loopOnPerformer parse zone clock { config with defaultDateRange := JSNumber.finite 0 }
            i p e x scenes st
          = afterPerformer st p e x (scenes.filter (NewScenes.releasedAfter parse (clock i))))
    ∧ (∀ (cutoff : Int) (s : JSVal), NewScenes.releasedAfter parse cutoff s = true
        ↔ ∃ t, NewScenes.dateOf parse (optGet s "release_date") = some t ∧ cutoff < t) := by
  have hday : NewScenes.msPerDay = 86400000 := rfl
  have hd1 : d < 86400000 := hd.2
  have hd0 : 0 ≤ d := hd.1
  have hc0 : NewScenes.cutoffDate zone (clock i) (JSNumber.finite 0) = some (clock i) := by
    have := cutoffDate_eq zone (clock i) 0 (by simpa using hz0) (by constructor <;> omega)
    simpa using this
  have hc7 : NewScenes.cutoffDate zone (clock i) (JSNumber.finite 7)
      = some (clock i - 7 * NewScenes.msPerDay) :=
    cutoffDate_eq zone (clock i) 7 hz7 (by rw [hday]; constructor <;> omega)
  refine ⟨fun n => rfl, fun n hz h1 h2 => cutoffDate_eq zone (clock i) n hz ⟨h1, h2⟩,
    ?_, ?_, ?_, fun cutoff s => releasedAfter_iff parse cutoff s⟩
  · intro n cutoff scenes hcut hrec
    exact loopOnPerformer_eq parse zone clock _ i p e x scenes st cutoff hcut hrec
  · rw [loopOnPerformer_eq parse zone clock _ i p e x [s0, s6, s8] st _ hc7
      (by intro s hs; simp at hs; rcases hs with h | h | h <;> simp [h, h0.1, h6.1, h8.1])]
    have r0 : NewScenes.releasedAfter parse (clock i - 7 * NewScenes.msPerDay) s0 = true := by
      rw [releasedAfter_iff]; exact ⟨_, h0.2, by rw [hday]; omega⟩
    have r6 : NewScenes.releasedAfter parse (clock i - 7 * NewScenes.msPerDay) s6 = true := by
      rw [releasedAfter_iff]; exact ⟨_, h6.2, by rw [hday]; omega⟩
    have r8 : NewScenes.releasedAfter parse (clock i - 7 * NewScenes.msPerDay) s8 = false := by
      cases hr : NewScenes.releasedAfter parse (clock i - 7 * NewScenes.msPerDay) s8
      · rfl
      · rw [releasedAfter_iff] at hr
        obtain ⟨t, ht, hlt⟩ := hr
        rw [h8.2] at ht
        injection ht with ht
        rw [hday] at ht hlt
        omega
    simp [List.filter_cons, r0, r6, r8]
  · intro scenes hrec
    exact loopOnPerformer_eq parse zone clock _ i p e x scenes st (clock i) hc0 hrec

/-- C3 in New York on 15 January 2024 at 19:30, in the third iteration of a run: scenes
released one hour ago, 6 days before that and 8 days before that. -/
theorem C3_recency_window_witness :
    loopOnPerformer (fun _ => none) newYork2024 (fun k => 1705365000000 + k)
        { startConfig with defaultDateRange := JSNumber.finite 7 } 2 "12"
        "https://stashdb.org/graphql" "x"
        [sceneAt "today" 1705361400002, sceneAt "six" 1704843000002,
         sceneAt "eight" 1704670200002]
        { processedPerformers := ["3"], icons := [] }
      = afterPerformer { processedPerformers := ["3"], icons := [] } "12"
          "https://stashdb.org/graphql" "x"
          [sceneAt "today" 1705361400002, sceneAt "six" 1704843000002] :=
  (C3_recency_window (fun _ => none) newYork2024 (fun k => 1705365000000 + k) startConfig 2
    "12" "https://stashdb.org/graphql" "x" { processedPerformers := ["3"], icons := [] }
    3600000 (sceneAt "today" 1705361400002) (sceneAt "six" 1704843000002)
    (sceneAt "eight" 1704670200002)
    (by decide) (by decide) (by decide) (by decide) (by decide) (by decide)
    (by decide)).2.2.2.1

/-! ## Provider registry -/

theorem optGet_of_getProp {v x : JSVal} {key : String} (h : getProp v key = Except.ok x) :
    optGet v key = x := by
  cases v <;> simp_all [getProp, optGet]

theorem filterE_mem {α : Type} (p : α → Except JSError Bool) (xs ys : List α)
    (h : filterE p xs = Except.ok ys) : ∀ y ∈ ys, y ∈ xs ∧ p y = Except.ok true := by
  induction xs generalizing ys with
  | nil =>
    simp only [filterE, Except.ok.injEq] at h
    subst h
    simp
  | cons x xs ih =>
    simp only [filterE] at h
    cases hp : p x with
    | error e => simp [hp] at h
    | ok b =>
      cases hf : filterE p xs with
      | error e => simp [hp, hf] at h
      | ok zs =>
        simp only [hp, hf, Except.ok.injEq] at h
        subst h
        intro y hy
        cases b with
        | false =>
          have := ih zs hf y (by simpa using hy)
          exact ⟨List.mem_cons_of_mem _ this.1, this.2⟩
        | true =>
          simp only [if_true, List.mem_cons] at hy
          rcases hy with rfl | hy
          · exact ⟨List.mem_cons_self _ _, hp⟩
          · have := ih zs hf y hy
            exact ⟨List.mem_cons_of_mem _ this.1, this.2⟩

/-- C4 as stated fails: a registry that lists ThePornDB with another letter casing has it
stored. -/
theorem C4_casing_counterexample :
    storedEndpoints (NewScenes.getAllStashBoxes
        (fun _ => FetchOutcome.body (obj (registryBody
          [provider "https://stashdb.org/graphql" "k1" "StashDB",
           provider "https://ThePornDB.net/graphql" "k2" "TPDB"])))
        startConfig).result
      = ["https://stashdb.org/graphql", "https://ThePornDB.net/graphql"]
    ∧ lowerCase "https://ThePornDB.net/graphql" = NewScenes.disallowedEndpoint := by
  constructor
  · rfl
  · decide

/-- C4 (amended): whatever the local system answers, when getAllStashBoxes returns, no
stored provider has an endpoint strictly equal to https://theporndb.net/graphql, wherever
such a provider stood in the response. -/
theorem C4_exact_endpoint_excluded (net : Net) (config c : NewScenes.Config)
    (h : (NewScenes.getAllStashBoxes net { config with stashBoxes := [] }).result
      = Except.ok c) :
    ∀ box ∈ c.stashBoxes,
      strictEqStr (optGet box "endpoint") NewScenes.disallowedEndpoint = false := by
  unfold NewScenes.getAllStashBoxes at h
  simp only at h
  split at h
  · injection h with h
    subst h
    simp
  · split at h
    · next boxes =>
      split at h
      · exact absurd h (by simp)
      · next filtered hf =>
        injection h with h
        subst h
        intro box hbox
        have hp := (filterE_mem _ _ filtered hf box hbox).2
        cases hg : getProp box "endpoint" with
        | error e => simp [hg] at hp
        | ok ep =>
          simp only [hg, Except.ok.injEq, Bool.not_eq_true'] at hp
          rw [optGet_of_getProp hg]
          exact hp
    · exact absurd h (by simp)

/-- C4 (amended) on a registry that lists ThePornDB between two other providers. -/
theorem C4_exact_endpoint_excluded_witness :
    (NewScenes.getAllStashBoxes
        (fun _ => FetchOutcome.body (obj (registryBody
          [provider "https://stashdb.org/graphql" "k1" "StashDB",
           provider "https://theporndb.net/graphql" "k2" "TPDB",
           provider "https://fansdb.cc/graphql" "k3" "FansDB"])))
        { startConfig with stashBoxes := [] }).result
      = Except.ok { startConfig with stashBoxes :=
          [provider "https://stashdb.org/graphql" "k1" "StashDB",
           provider "https://fansdb.cc/graphql" "k3" "FansDB"] }
    ∧ strictEqStr (optGet (provider "https://fansdb.cc/graphql" "k3" "FansDB") "endpoint")
        NewScenes.disallowedEndpoint = false :=
  ⟨rfl, C4_exact_endpoint_excluded
    (fun _ => FetchOutcome.body (obj (registryBody
      [provider "https://stashdb.org/graphql" "k1" "StashDB",
       provider "https://theporndb.net/graphql" "k2" "TPDB",
       provider "https://fansdb.cc/graphql" "k3" "FansDB"])))
    startConfig
    { startConfig with stashBoxes :=
        [provider "https://stashdb.org/graphql" "k1" "StashDB",
         provider "https://fansdb.cc/graphql" "k3" "FansDB"] }
    rfl
    (provider "https://fansdb.cc/graphql" "k3" "FansDB")
    (List.mem_cons_of_mem _ (List.mem_cons_self _ _))⟩

theorem truthy_of_optGet_truthy {v : JSVal} {key : String}
    (h : (optGet v key).truthy = true) : v.truthy = true := by
  cases v <;> simp_all [optGet, JSVal.truthy]

theorem responseData_ok (ps : List (String × JSVal))
    (herr : (lookup ps "errors").truthy = false) (hdata : (lookup ps "data").truthy = true) :
    NewScenes.responseData (FetchOutcome.body (obj ps)) = lookup ps "data" := by
  simp [NewScenes.responseData, getProp, herr, optGet, orElse, hdata]

/-- C5: on a successful registry response (a body without errors whose
data.configuration.general.stashBoxes is the sequence boxes of provider records),
getAllStashBoxes sends one request and stores exactly the providers of boxes whose
endpoint is not strictly equal to the disallowed constant, in the order of boxes, each
kept provider being the record of the response itself; the rest of the configuration is
unchanged. -/
theorem C5_registry_is_filtered_config (net : Net) (config : NewScenes.Config)
    (ps : List (String × JSVal)) (boxes : List JSVal)
    (hresp : net (NewScenes.requestOf config.localEndpoint Query.configuration config.apiKey)
      = FetchOutcome.body (obj ps))
    (herr : (lookup ps "errors").truthy = false)
    (hboxes : optGet (optGet (optGet (lookup ps "data") "configuration") "general")
      "stashBoxes" = JSVal.arr boxes)
    (hrec : ∀ b ∈ boxes, b.isObject = true) :
    (NewScenes.getAllStashBoxes net config).requests
        = [NewScenes.requestOf config.localEndpoint Query.configuration config.apiKey]
    ∧ ∃ c, (NewScenes.getAllStashBoxes net config).result = Except.ok c
      ∧ c.stashBoxes = boxes.filter (fun b =>
          !(strictEqStr (optGet b "endpoint") NewScenes.disallowedEndpoint))
      ∧ c.stashBoxes.Sublist boxes
      ∧ (∀ b ∈ boxes, ∀ endpoint, optGet b "endpoint" = str endpoint →
          (b ∈ c.stashBoxes ↔ endpoint ≠ NewScenes.disallowedEndpoint))
      ∧ c.localEndpoint = config.localEndpoint ∧ c.apiKey = config.apiKey
      ∧ c.defaultDateRange = config.defaultDateRange := by
  have hdata : (lookup ps "data").truthy = true :=
    truthy_of_optGet_truthy (truthy_of_optGet_truthy (truthy_of_optGet_truthy
      (by rw [hboxes]; rfl)))
  have hres : (NewScenes.performGraphQLQuery net config.localEndpoint Query.configuration
      config.apiKey).result = lookup ps "data" := by
    simp [NewScenes.performGraphQLQuery, hresp, responseData_ok ps herr hdata]
  have hfilter := filterE_ok
    (fun box =>
      match getProp box "endpoint" with
      | Except.error e => Except.error e
      | Except.ok endpoint =>
        Except.ok (!(strictEqStr endpoint NewScenes.disallowedEndpoint)))
    (fun b => !(strictEqStr (optGet b "endpoint") NewScenes.disallowedEndpoint)) boxes
    (fun b hb => by simp [getProp_of_isObject b _ (hrec b hb)])
  refine ⟨rfl, ?_⟩
  refine ⟨{ config with stashBoxes := boxes.filter (fun b =>
      !(strictEqStr (optGet b "endpoint") NewScenes.disallowedEndpoint)) }, ?_, rfl,
      List.filter_sublist _, ?_, rfl, rfl, rfl⟩
  · unfold NewScenes.getAllStashBoxes
    simp only [hres, hboxes, JSVal.truthy, hfilter]
    rfl
  · intro b hb endpoint he
    simp only [List.mem_filter, hb, true_and, he, strictEqStr]
    simp

/-- C5 on a registry of three providers, ThePornDB in the middle. -/
theorem C5_registry_is_filtered_config_witness :
    ∃ c, (NewScenes.getAllStashBoxes
        (fun _ => FetchOutcome.body (obj (registryBody
          [provider "https://stashdb.org/graphql" "k1" "StashDB",
           provider "https://theporndb.net/graphql" "k2" "TPDB",
           provider "https://fansdb.cc/graphql" "k3" "FansDB"]))) startConfig).result
        = Except.ok c
      ∧ c.stashBoxes = [provider "https://stashdb.org/graphql" "k1" "StashDB",
                        provider "https://fansdb.cc/graphql" "k3" "FansDB"] := by
  obtain ⟨c, h1, h2, -⟩ := (C5_registry_is_filtered_config
    (fun _ => FetchOutcome.body (obj (registryBody
      [provider "https://stashdb.org/graphql" "k1" "StashDB",
       provider "https://theporndb.net/graphql" "k2" "TPDB",
       provider "https://fansdb.cc/graphql" "k3" "FansDB"]))) startConfig
    (registryBody
      [provider "https://stashdb.org/graphql" "k1" "StashDB",
       provider "https://theporndb.net/graphql" "k2" "TPDB",
       provider "https://fansdb.cc/graphql" "k3" "FansDB"])
    [provider "https://stashdb.org/graphql" "k1" "StashDB",
     provider "https://theporndb.net/graphql" "k2" "TPDB",
     provider "https://fansdb.cc/graphql" "k3" "FansDB"]
    rfl rfl rfl (by decide)).2
  exact ⟨c, h1, by rw [h2]; rfl⟩

/-! ## Identity resolver -/

theorem getOwn2_setProp2 (k1 k2 : String) (v : JSVal) (m : ObjMap) (a b : String) :
    getOwn2 (setProp2 k1 k2 v m) a b
      = if k1 = a ∧ k2 = b then some v else getOwn2 m a b := by
  unfold setProp2
  by_cases hm : hasOwn m k1 = true
  · simp only [hm, if_true]
    cases hg : getOwn m k1 with
    | none => rw [(getOwn_eq_none m k1).1 hg] at hm; simp at hm
    | some inner =>
      simp only [getOwn2, getOwn_setProp]
      by_cases ha : k1 = a
      · subst ha
        by_cases hb : k2 = b <;> simp [hg, getOwn_setProp, hb]
      · simp [ha]
  · have hm2 : hasOwn m k1 = false := by simpa using hm
    have hnone : getOwn m k1 = none := (getOwn_eq_none m k1).2 hm2
    simp only [hm2, Bool.false_eq_true, if_false, getOwn_setProp, if_true, getOwn2]
    by_cases ha : k1 = a
    · subst ha
      by_cases hb : k2 = b <;> simp [hnone, getOwn_setProp, hb, getOwn]
    · simp [ha]

theorem getOwn2_addPair (q : String) (m : ObjMap) (p : String × JSVal) (pid e : String) :
    getOwn2 (addPair q m p) pid e
      = if q = pid ∧ p.1 = e ∧ e ≠ NewScenes.disallowedEndpoint then some p.2
        else getOwn2 m pid e := by
  unfold addPair
  by_cases hd : p.1 = NewScenes.disallowedEndpoint
  · simp only [hd, if_true]
    by_cases he : NewScenes.disallowedEndpoint = e
    · simp [he]
    · simp [he]
  · simp only [hd, if_false, getOwn2_setProp2]
    by_cases hq : q = pid
    · by_cases he : p.1 = e
      · have : e ≠ NewScenes.disallowedEndpoint := fun h => hd (he.trans h)
        simp [hq, he, this]
      · simp [hq, he]
    · simp [hq]

theorem lastFor_nil (e : String) : lastFor e [] = none := rfl

theorem lastFor_append (e : String) (l1 l2 : List (String × JSVal)) :
    lastFor e (l1 ++ l2) = (lastFor e l2).or (lastFor e l1) := by
  unfold lastFor
  rw [List.filter_append, List.getLast?_append]
  cases (List.filter (fun p => p.1 == e) l2).getLast? <;> simp

theorem lastFor_single (e : String) (p : String × JSVal) :
    lastFor e [p] = if p.1 = e then some p.2 else none := by
  unfold lastFor
  by_cases h : p.1 = e <;> simp [List.filter_cons, h]

theorem option_or_assoc {α : Type} (a b c : Option α) : (a.or b).or c = a.or (b.or c) := by
  cases a <;> simp

theorem getOwn2_foldl_addPair (q : String) (pairs : List (String × JSVal)) (m : ObjMap)
    (pid e : String) :
    getOwn2 (pairs.foldl (addPair q) m) pid e
      = if q = pid ∧ e ≠ NewScenes.disallowedEndpoint
        then (lastFor e pairs).or (getOwn2 m pid e) else getOwn2 m pid e := by
  induction pairs generalizing m with
  | nil => simp [lastFor_nil]
  | cons p ps ih =>
    rw [List.foldl_cons, ih, getOwn2_addPair]
    have happ : lastFor e (p :: ps) = (lastFor e ps).or (lastFor e [p]) :=
      lastFor_append e [p] ps
    by_cases hc : q = pid ∧ e ≠ NewScenes.disallowedEndpoint
    · simp only [hc, and_self, if_true, ne_eq, not_false_eq_true, and_true, true_and, happ,
        option_or_assoc, lastFor_single]
      by_cases he : p.1 = e <;> simp [he]
    · simp only [hc, if_false]
      have : ¬ (q = pid ∧ p.1 = e ∧ e ≠ NewScenes.disallowedEndpoint) :=
        fun h => hc ⟨h.1, h.2.2⟩
      simp [this]

theorem getOwn2_foldl_addEntry (f : String → List JSVal) (entries : List (String × String))
    (m : ObjMap) (pid e : String) :
    getOwn2 (entries.foldl (addEntry f) m) pid e
      = if e = NewScenes.disallowedEndpoint then getOwn2 m pid e
        else (lastFor e ((entries.filter (fun en => en.2 == pid)).flatMap
          (fun en => (f en.1).map pairOf))).or (getOwn2 m pid e) := by
  induction entries generalizing m with
  | nil => simp [lastFor_nil]
  | cons en rest ih =>
    rw [List.foldl_cons, ih]
    unfold addEntry
    rw [getOwn2_foldl_addPair]
    by_cases hd : e = NewScenes.disallowedEndpoint
    · simp [hd]
    · by_cases hp : en.2 = pid
      · simp [hd, hp, List.filter_cons, lastFor_append, option_or_assoc]
      · simp [hd, hp, List.filter_cons]

theorem addStashId_ok (pid : String) (m : ObjMap) (o : JSVal) (h : isStashId o = true) :
    NewScenes.addStashId pid m o = Except.ok (addPair pid m (pairOf o)) := by
  cases o with
  | obj props =>
    simp only [isStashId] at h
    cases he : lookup props "endpoint" with
    | str ep =>
      by_cases hd : ep = NewScenes.disallowedEndpoint
      · simp [NewScenes.addStashId, getProp, he, strictEqStr, addPair, pairOf, optGet,
          JSVal.toStr, hd]
      · simp [NewScenes.addStashId, getProp, he, strictEqStr, addPair, pairOf, optGet,
          JSVal.toStr, hd]
    | _ => simp [he] at h
  | _ => simp [isStashId] at h

theorem addPerformer_ok (res : JSVal) (f : String → List JSVal) (m : ObjMap)
    (en : String × String)
    (hids : orElse (optGet (optGet res en.1) "stash_ids") (JSVal.arr []) = JSVal.arr (f en.1))
    (hwf : ∀ o ∈ f en.1, isStashId o = true) :
    NewScenes.addPerformer res m en = Except.ok (addEntry f m en) := by
  unfold NewScenes.addPerformer
  rw [hids]
  simp only
  rw [foldlE_ok (NewScenes.addStashId en.2) (fun s o => addPair en.2 s (pairOf o)) (f en.1)
    (fun s o ho => addStashId_ok en.2 s o (hwf o ho))]
  simp [addEntry, List.foldl_map]

theorem getPerformerStashIDs_ok (net : Net) (config : NewScenes.Config)
    (performerIds : List String) (stashIdsOf : String → List JSVal)
    (hne : performerIds ≠ [])
    (htruthy : (NewScenes.performGraphQLQuery net config.localEndpoint
        (Query.findPerformers Selection.stashIds
          ((NewScenes.aliasesOf "performer" performerIds.length).zip performerIds))
        config.apiKey).result.truthy = true)
    (hids : ∀ a ∈ NewScenes.aliasesOf "performer" performerIds.length,
      orElse (optGet (optGet (NewScenes.performGraphQLQuery net config.localEndpoint
        (Query.findPerformers Selection.stashIds
          ((NewScenes.aliasesOf "performer" performerIds.length).zip performerIds))
        config.apiKey).result a) "stash_ids") (JSVal.arr []) = JSVal.arr (stashIdsOf a))
    (hwf : ∀ a ∈ NewScenes.aliasesOf "performer" performerIds.length,
      ∀ o ∈ stashIdsOf a, isStashId o = true) :
    (NewScenes.getPerformerStashIDs net config performerIds).result
      = Except.ok (((NewScenes.aliasesOf "performer" performerIds.length).zip
          performerIds).foldl (addEntry stashIdsOf) []) := by
  have hlen : ¬ performerIds.length = 0 := by
    intro h
    exact hne (List.length_eq_zero.1 h)
  unfold NewScenes.getPerformerStashIDs
  simp only [hlen, if_false, htruthy, Bool.not_true, Bool.false_eq_true]
  apply foldlE_ok
  intro s en hen
  have ha : en.1 ∈ NewScenes.aliasesOf "performer" performerIds.length :=
    (List.of_mem_zip (a := en.1) (b := en.2) hen).1
  exact addPerformer_ok _ stashIdsOf s en (hids en.1 ha) (hwf en.1 ha)

/-- C6 as stated fails: a performer for whom the local system returns two external ids
under the same endpoint keeps only the last of them in the map. -/
theorem C6_same_endpoint_counterexample :
    renderMap (NewScenes.getPerformerStashIDs
        (localNet [("performer0", obj [("stash_ids",
          arr [stashId "https://stashdb.org/graphql" "old-id",
               stashId "https://stashdb.org/graphql" "new-id"])])])
        startConfig ["12"]).result
      = [("12", [("https://stashdb.org/graphql", "new-id")])] := by
  rfl

/-- C6 (amended): for a non-empty list of local ids and a successful response whose
sub-query answers are sequences of (endpoint, external id) records, getPerformerStashIDs
sends one request and returns a map in which, for every local id and every endpoint other
than the disallowed one, the entry under that id and endpoint is the external id of the
last pair with that endpoint among the pairs returned for that id (none when there is no
such pair, in particular for an id that was not asked); under the disallowed endpoint
there is no entry. -/
theorem C6_last_pair_per_endpoint (net : Net) (config : NewScenes.Config)
    (performerIds : List String) (stashIdsOf : String → List JSVal)
    (hne : performerIds ≠ [])
    (htruthy : (NewScenes.performGraphQLQuery net config.localEndpoint
        (Query.findPerformers Selection.stashIds
          ((NewScenes.aliasesOf "performer" performerIds.length).zip performerIds))
        config.apiKey).result.truthy = true)
    (hids : ∀ a ∈ NewScenes.aliasesOf "performer" performerIds.length,
      orElse (optGet (optGet (NewScenes.performGraphQLQuery net config.localEndpoint
        (Query.findPerformers Selection.stashIds
          ((NewScenes.aliasesOf "performer" performerIds.length).zip performerIds))
        config.apiKey).result a) "stash_ids") (JSVal.arr []) = JSVal.arr (stashIdsOf a))
    (hwf : ∀ a ∈ NewScenes.aliasesOf "performer" performerIds.length,
      ∀ o ∈ stashIdsOf a, isStashId o = true) :
    (NewScenes.getPerformerStashIDs net config performerIds).requests.length = 1
    ∧ ∃ m, (NewScenes.getPerformerStashIDs net config performerIds).result = Except.ok m
      ∧ (∀ pid e, getOwn2 m pid e =
          if e = NewScenes.disallowedEndpoint then none
          else lastFor e (returnedPairs performerIds stashIdsOf pid))
      ∧ (∀ pid, getOwn2 m pid NewScenes.disallowedEndpoint = none) := by
  have hlen : ¬ performerIds.length = 0 := by
    intro h
    exact hne (List.length_eq_zero.1 h)
  have hmain : ∀ pid e, getOwn2 (((NewScenes.aliasesOf "performer" performerIds.length).zip
      performerIds).foldl (addEntry stashIdsOf) []) pid e =
        if e = NewScenes.disallowedEndpoint then none
        else lastFor e (returnedPairs performerIds stashIdsOf pid) := by
    intro pid e
    rw [getOwn2_foldl_addEntry]
    simp [getOwn2, getOwn, returnedPairs, Option.or_none]
  refine ⟨?_, _, getPerformerStashIDs_ok net config performerIds stashIdsOf hne htruthy hids hwf,
    hmain, fun pid => ?_⟩
  · unfold NewScenes.getPerformerStashIDs
    simp only [hlen, if_false]
    split <;> rfl
  · rw [hmain]
    simp

/-- C6 (amended) on two performers: the first has two StashDB ids and a ThePornDB id,
the second a FansDB id. -/
theorem C6_last_pair_per_endpoint_witness :
    ∃ m, (NewScenes.getPerformerStashIDs
        (localNet [("performer0", obj [("stash_ids",
            arr [stashId "https://stashdb.org/graphql" "a",
                 stashId "https://theporndb.net/graphql" "t",
                 stashId "https://stashdb.org/graphql" "b"])]),
          ("performer1", obj [("stash_ids", arr [stashId "https://fansdb.cc/graphql" "f"])])])
        startConfig ["12", "7"]).result = Except.ok m
      ∧ getOwn2 m "12" "https://stashdb.org/graphql" = some (str "b")
      ∧ getOwn2 m "12" "https://theporndb.net/graphql" = none
      ∧ getOwn2 m "7" "https://fansdb.cc/graphql" = some (str "f") := by
  have hal : NewScenes.aliasesOf "performer" 2 = ["performer0", "performer1"] := by decide
  obtain ⟨m, h1, h2, -⟩ := (C6_last_pair_per_endpoint
    (localNet [("performer0", obj [("stash_ids",
        arr [stashId "https://stashdb.org/graphql" "a",
             stashId "https://theporndb.net/graphql" "t",
             stashId "https://stashdb.org/graphql" "b"])]),
      ("performer1", obj [("stash_ids", arr [stashId "https://fansdb.cc/graphql" "f"])])])
    startConfig ["12", "7"]
    (fun a =>
      if a = "performer0" then
        [stashId "https://stashdb.org/graphql" "a",
         stashId "https://theporndb.net/graphql" "t",
         stashId "https://stashdb.org/graphql" "b"]
      else if a = "performer1" then [stashId "https://fansdb.cc/graphql" "f"]
      else [])
    (by decide) rfl
    (by
      intro a ha
      rw [show ["12", "7"].length = 2 from rfl, hal] at ha
      simp only [List.mem_cons, List.mem_singleton, List.not_mem_nil, or_false] at ha
      rcases ha with rfl | rfl <;> rfl)
    (by
      intro a ha
      rw [show ["12", "7"].length = 2 from rfl, hal] at ha
      simp only [List.mem_cons, List.mem_singleton, List.not_mem_nil, or_false] at ha
      rcases ha with rfl | rfl <;> decide)).2
  refine ⟨m, h1, ?_, ?_, ?_⟩
  · rw [h2]; rfl
  · rw [h2]; rfl
  · rw [h2]; rfl

/-- C7: called with the empty list of local ids, getPerformerStashIDs returns the empty
map and its trace of requests is empty, whatever the servers would answer. -/
theorem C7_empty_ids_no_request (net : Net) (config : NewScenes.Config) :
    (NewScenes.getPerformerStashIDs net config []).result = Except.ok []
    ∧ (NewScenes.getPerformerStashIDs net config []).requests = [] := by
  constructor <;> rfl

/-! ## Total resolution failure -/

theorem responseData_failed (outcome : FetchOutcome)
    (hfail : outcome = FetchOutcome.networkError ∨ outcome = FetchOutcome.invalidBody
      ∨ (∃ b, outcome = FetchOutcome.body b ∧ (optGet b "errors").truthy = true)
      ∨ (∃ b, outcome = FetchOutcome.body b ∧ (optGet b "data").truthy = false)) :
    NewScenes.responseData outcome = JSVal.null := by
  rcases hfail with h | h | ⟨b, h, he⟩ | ⟨b, h, hd⟩
  · subst h; rfl
  · subst h; rfl
  · subst h
    cases b <;> simp_all [NewScenes.responseData, getProp, optGet, JSVal.truthy]
  · subst h
    cases b with
    | obj props =>
      simp only [NewScenes.responseData, getProp, optGet] at *
      split
      · rfl
      · simp [orElse, hd]
    | _ => simp [NewScenes.responseData, getProp, optGet, orElse, JSVal.truthy]

/-- C8: for a non-empty list of local ids, when the one batched request to the local
system fails (fetch rejects, the body does not parse, the body carries truthy errors, or
it has no truthy data), getPerformerStashIDs returns the empty map (no exception) after
that single request; and a run of the driver that collected these ids ends normally with
that request as its only request (none to a provider), adds no icon and leaves the guard
set as it was. -/
theorem C8_resolution_failure (net : Net) (parse : String → Option Int)
    (zone : NewScenes.TimeZone) (clock : Nat → Int)
    (config : NewScenes.Config) (cards : List (Option String)) (processed : List String)
    (performerIds : List String)
    (hne : performerIds ≠ [])
    (hcards : NewScenes.collectPerformerIds cards processed = performerIds)
    (hfail :
      net (NewScenes.requestOf config.localEndpoint
          (Query.findPerformers Selection.stashIds
            ((NewScenes.aliasesOf "performer" performerIds.length).zip performerIds))
          config.apiKey) = FetchOutcome.networkError
      ∨ net (NewScenes.requestOf config.localEndpoint
          (Query.findPerformers Selection.stashIds
            ((NewScenes.aliasesOf "performer" performerIds.length).zip performerIds))
          config.apiKey) = FetchOutcome.invalidBody
      ∨ (∃ b, net (NewScenes.requestOf config.localEndpoint
          (Query.findPerformers Selection.stashIds
            ((NewScenes.aliasesOf "performer" performerIds.length).zip performerIds))
          config.apiKey) = FetchOutcome.body b ∧ (optGet b "errors").truthy = true)
      ∨ (∃ b, net (NewScenes.requestOf config.localEndpoint
          (Query.findPerformers Selection.stashIds
            ((NewScenes.aliasesOf "performer" performerIds.length).zip performerIds))
          config.apiKey) = FetchOutcome.body b ∧ (optGet b "data").truthy = false)) :
    (NewScenes.getPerformerStashIDs net config performerIds).result = Except.ok []
    ∧ (NewScenes.getPerformerStashIDs net config performerIds).requests
        = [NewScenes.requestOf config.localEndpoint
            (Query.findPerformers Selection.stashIds
              ((NewScenes.aliasesOf "performer" performerIds.length).zip performerIds))
            config.apiKey]
    ∧ (NewScenes.processPerformerCards net parse zone clock config cards processed).result
        = Except.ok ()
    ∧ (NewScenes.processPerformerCards net parse zone clock config cards processed).requests
        = [NewScenes.requestOf config.localEndpoint
            (Query.findPerformers Selection.stashIds
              ((NewScenes.aliasesOf "performer" performerIds.length).zip performerIds))
            config.apiKey]
    ∧ (NewScenes.processPerformerCards net parse zone clock config cards
        processed).icons.length = 0
    ∧ (NewScenes.processPerformerCards net parse zone clock config cards
        processed).processedPerformers
        = processed := by
  have hlen : ¬ performerIds.length = 0 := fun h => hne (List.length_eq_zero.1 h)
  have hnull := responseData_failed _ hfail
  have hget : NewScenes.getPerformerStashIDs net config performerIds
      = { requests := [NewScenes.requestOf config.localEndpoint
            (Query.findPerformers Selection.stashIds
              ((NewScenes.aliasesOf "performer" performerIds.length).zip performerIds))
            config.apiKey],
          result := Except.ok [] } := by
    unfold NewScenes.getPerformerStashIDs
    simp only [hlen, if_false, NewScenes.performGraphQLQuery, hnull]
    rfl
  have hcl : ¬ cards.length = 0 := by
    intro h
    have : cards = [] := List.length_eq_zero.1 h
    subst this
    exact hne (by rw [← hcards]; rfl)
  have hrun : NewScenes.processPerformerCards net parse zone clock config cards processed
      = { requests := [NewScenes.requestOf config.localEndpoint
            (Query.findPerformers Selection.stashIds
              ((NewScenes.aliasesOf "performer" performerIds.length).zip performerIds))
            config.apiKey],
          result := Except.ok (), processedPerformers := processed, icons := [] } := by
    unfold NewScenes.processPerformerCards
    simp only [hcl, if_false, hcards, hlen, hget]
    rfl
  rw [hget, hrun]
  exact ⟨rfl, rfl, rfl, rfl, rfl, rfl⟩

/-- C8 on one performer card when the local system answers with an errors array. -/
theorem C8_resolution_failure_witness :
    (NewScenes.processPerformerCards
        (fun _ => FetchOutcome.body (obj [("errors", arr [str "boom"]),
          ("data", obj [("performer0", JSVal.null)])]))
        (fun _ => none) utcZone (fun _ => 0) startConfig [some "12"] []).result = Except.ok ()
    ∧ (NewScenes.processPerformerCards
        (fun _ => FetchOutcome.body (obj [("errors", arr [str "boom"]),
          ("data", obj [("performer0", JSVal.null)])]))
        (fun _ => none) utcZone (fun _ => 0) startConfig [some "12"] []).requests.length = 1 := by
  have h := C8_resolution_failure
    (fun _ => FetchOutcome.body (obj [("errors", arr [str "boom"]),
      ("data", obj [("performer0", JSVal.null)])]))
    (fun _ => none) utcZone (fun _ => 0) startConfig [some "12"] [] ["12"] (by decide) (by decide)
    (Or.inr (Or.inr (Or.inl ⟨_, rfl, rfl⟩)))
  exact ⟨h.2.2.1, by rw [h.2.2.2.1]; rfl⟩

/-! ## Remote fetcher: the requests -/

theorem fetchBoxes_requests (net : Net) (m : ObjMap) (boxes : List JSVal)
    (hrec : ∀ b ∈ boxes, b.isObject = true) (acc : ObjMap) :
    (NewScenes.fetchBoxes net m boxes acc).requests
      = (boxes.filter (eligible m)).map (sceneRequest m) := by
  induction boxes generalizing acc with
  | nil => rfl
  | cons box rest ih =>
    have hb := hrec box (List.mem_cons_self _ _)
    have hrest : ∀ b ∈ rest, b.isObject = true :=
      fun b h => hrec b (List.mem_cons_of_mem _ h)
    unfold NewScenes.fetchBoxes
    simp only [getProp_of_isObject box _ hb]
    by_cases hk : (optGet box "api_key").truthy = true
    · by_cases hids : (NewScenes.collectStashIds m (optGet box "endpoint")).length = 0
      · have he : eligible m box = false := by
          simp [eligible, hk, List.length_eq_zero.1 hids]
        simp only [hk, Bool.not_true, Bool.false_eq_true, if_false, hids, if_true,
          List.filter_cons, he]
        exact ih hrest acc
      · have hne : (NewScenes.collectStashIds m (optGet box "endpoint")).isEmpty = false := by
          cases hc : NewScenes.collectStashIds m (optGet box "endpoint") with
          | nil => simp [hc] at hids
          | cons a l => rfl
        have he : eligible m box = true := by simp [eligible, hk, hne]
        simp only [hk, Bool.not_true, Bool.false_eq_true, if_false, hids,
          List.filter_cons, he, if_true, List.map_cons, NewScenes.performGraphQLQuery,
          List.singleton_append, ih hrest]
        rfl
    · have hk2 : (optGet box "api_key").truthy = false := by simpa using hk
      have he : eligible m box = false := by simp [eligible, hk2]
      simp only [hk2, Bool.not_false, if_true, List.filter_cons, he, Bool.false_eq_true,
        if_false]
      exact ih hrest acc

theorem fetchBoxes_returns (net : Net) (m : ObjMap) (boxes : List JSVal)
    (hrec : ∀ b ∈ boxes, b.isObject = true) (acc : ObjMap) :
    ∃ r, (NewScenes.fetchBoxes net m boxes acc).result = Except.ok r := by
  induction boxes generalizing acc with
  | nil => exact ⟨acc, rfl⟩
  | cons box rest ih =>
    have hb := hrec box (List.mem_cons_self _ _)
    have hrest : ∀ b ∈ rest, b.isObject = true :=
      fun b h => hrec b (List.mem_cons_of_mem _ h)
    unfold NewScenes.fetchBoxes
    simp only [getProp_of_isObject box _ hb]
    split
    · exact ih hrest acc
    · split
      · exact ih hrest acc
      · exact ih hrest _

/-- C9: for N >= 1 local ids, getPerformerStashIDs issues exactly one request, whose
query has one aliased sub-query per local id; for a registry of P provider records,
getNewReleasesForStashIDs returns normally and issues, in registry order, exactly one
request for each provider whose credential is present and for which the identity map
holds some id, and none for any other provider, so at most P requests whatever N is. -/
theorem C9_batching_bound (net : Net) (config : NewScenes.Config)
    (performerIds : List String) (m : ObjMap)
    (hne : performerIds ≠ [])
    (hrec : ∀ b ∈ config.stashBoxes, b.isObject = true) :
    (NewScenes.getPerformerStashIDs net config performerIds).requests
        = [NewScenes.requestOf config.localEndpoint
            (Query.findPerformers Selection.stashIds
              ((NewScenes.aliasesOf "performer" performerIds.length).zip performerIds))
            config.apiKey]
    ∧ ((NewScenes.aliasesOf "performer" performerIds.length).zip performerIds).length
        = performerIds.length
    ∧ (((NewScenes.aliasesOf "performer" performerIds.length).zip performerIds).map Prod.snd)
        = performerIds
    ∧ (∃ r, (NewScenes.getNewReleasesForStashIDs net config m).result = Except.ok r)
    ∧ (NewScenes.getNewReleasesForStashIDs net config m).requests
        = (config.stashBoxes.filter (eligible m)).map (sceneRequest m)
    ∧ (NewScenes.getNewReleasesForStashIDs net config m).requests.length
        ≤ config.stashBoxes.length := by
  have hlen : ¬ performerIds.length = 0 := fun h => hne (List.length_eq_zero.1 h)
  have hal : (NewScenes.aliasesOf "performer" performerIds.length).length
      = performerIds.length := by simp [NewScenes.aliasesOf]
  have hreq := fetchBoxes_requests net m config.stashBoxes hrec []
  refine ⟨?_, ?_, ?_, fetchBoxes_returns net m config.stashBoxes hrec [], hreq, ?_⟩
  · unfold NewScenes.getPerformerStashIDs
    simp only [hlen, if_false]
    split <;> rfl
  · simp [List.length_zip, hal]
  · exact List.map_snd_zip _ _ (by rw [hal])
  · unfold NewScenes.getNewReleasesForStashIDs
    rw [hreq, List.length_map]
    exact List.length_filter_le _ _

/-- C9 on two performers and a registry of three providers, one without credential and
one for which no performer has an id: one request each way. -/
theorem C9_batching_bound_witness :
    (NewScenes.getPerformerStashIDs (fun _ => FetchOutcome.networkError)
        { startConfig with stashBoxes :=
            [provider "https://stashdb.org/graphql" "k1" "StashDB",
             provider "https://fansdb.cc/graphql" "" "FansDB",
             provider "https://pmvstash.org/graphql" "k3" "PMVStash"] }
        ["12", "7"]).requests.length = 1
    ∧ (NewScenes.getNewReleasesForStashIDs (fun _ => FetchOutcome.networkError)
        { startConfig with stashBoxes :=
            [provider "https://stashdb.org/graphql" "k1" "StashDB",
             provider "https://fansdb.cc/graphql" "" "FansDB",
             provider "https://pmvstash.org/graphql" "k3" "PMVStash"] }
        [("7", [("https://stashdb.org/graphql", str "a"),
                ("https://fansdb.cc/graphql", str "f")]),
         ("12", [("https://stashdb.org/graphql", str "b")])]).requests.map
          (fun r => r.endpoint) = ["https://stashdb.org/graphql"] := by
  have h := C9_batching_bound (fun _ => FetchOutcome.networkError)
    { startConfig with stashBoxes :=
        [provider "https://stashdb.org/graphql" "k1" "StashDB",
         provider "https://fansdb.cc/graphql" "" "FansDB",
         provider "https://pmvstash.org/graphql" "k3" "PMVStash"] }
    ["12", "7"]
    [("7", [("https://stashdb.org/graphql", str "a"),
            ("https://fansdb.cc/graphql", str "f")]),
     ("12", [("https://stashdb.org/graphql", str "b")])]
    (by decide) (by decide)
  refine ⟨by rw [h.1]; rfl, ?_⟩
  rw [h.2.2.2.2.1]
  decide

/-! ## Remote fetcher: the ids queried -/

theorem collectStashIds_eq (m : ObjMap) (endpoint : JSVal) :
    NewScenes.collectStashIds m endpoint = idsHeld m endpoint.toStr := by
  unfold NewScenes.collectStashIds idsHeld objValues
  induction m with
  | nil => rfl
  | cons en rest ih =>
    simp only [List.map_cons, List.filterMap_cons, List.filter_cons]
    cases h : (lookup en.2 endpoint.toStr).truthy
    · simpa [h] using ih
    · simpa [h] using ih

theorem count_idsHeld (m : ObjMap) (e x : String) :
    ((idsHeld m e).map JSVal.toStr).count x
      = (m.filter (fun en =>
          (lookup en.2 e).truthy && (lookup en.2 e).toStr == x)).length := by
  unfold idsHeld
  induction m with
  | nil => rfl
  | cons en rest ih =>
    simp only [List.map_cons, List.filter_cons]
    cases h : (lookup en.2 e).truthy
    · simpa [h] using ih
    · by_cases hx : (lookup en.2 e).toStr = x
      · simp [h, hx, List.count_cons, ih]
      · simp [h, hx, List.count_cons, ih]

/-- C10 as stated fails: two local performers that hold the same external id under a
provider make the batched query ask for that id twice. -/
theorem C10_duplicate_id_counterexample :
    (NewScenes.getNewReleasesForStashIDs (fun _ => FetchOutcome.networkError)
        { startConfig with stashBoxes := [provider "https://stashdb.org/graphql" "k1" "StashDB"] }
        [("7", [("https://stashdb.org/graphql", str "same-id")]),
         ("12", [("https://stashdb.org/graphql", str "same-id")])]).requests
      = [{ endpoint := "https://stashdb.org/graphql",
           query := Query.findPerformers Selection.scenes
             [("stash0", "same-id"), ("stash1", "same-id")],
           apiKey := some "k1" }] := by
  decide

/-- C10 (amended): for every identity map and every registry of provider records,
getNewReleasesForStashIDs sends requests exactly to the providers that have a present
credential and for which some entity holds a truthy external id under the provider's
endpoint (a provider with a credential and no such id is skipped); the ids sub-queried at
such a provider are the ids held under its endpoint, in the enumeration order of the map,
one sub-query per entity holding one, so an id is asked as many times as there are
entities holding it. -/
theorem C10_subqueries_per_holder (net : Net) (config : NewScenes.Config) (m : ObjMap)
    (hrec : ∀ b ∈ config.stashBoxes, b.isObject = true) :
    (NewScenes.getNewReleasesForStashIDs net config m).requests
        = (config.stashBoxes.filter (fun b =>
            (optGet b "api_key").truthy
              && !(idsHeld m (optGet b "endpoint").toStr).isEmpty)).map
          (fun b => NewScenes.requestOf (optGet b "endpoint").toStr
            (Query.findPerformers Selection.scenes
              ((NewScenes.aliasesOf "stash"
                  (idsHeld m (optGet b "endpoint").toStr).length).zip
                ((idsHeld m (optGet b "endpoint").toStr).map JSVal.toStr)))
            (optGet b "api_key"))
    ∧ (∀ e x, ((idsHeld m e).map JSVal.toStr).count x
        = (m.filter (fun en =>
            (lookup en.2 e).truthy && (lookup en.2 e).toStr == x)).length)
    ∧ (∀ e v, v ∈ idsHeld m e ↔ v.truthy = true ∧ ∃ en ∈ m, lookup en.2 e = v) := by
  refine ⟨?_, count_idsHeld m, ?_⟩
  · unfold NewScenes.getNewReleasesForStashIDs
    rw [fetchBoxes_requests net m config.stashBoxes hrec []]
    have h1 : eligible m = fun b =>
        (optGet b "api_key").truthy && !(idsHeld m (optGet b "endpoint").toStr).isEmpty := by
      funext b
      simp [eligible, collectStashIds_eq]
    have h2 : sceneRequest m = fun b => NewScenes.requestOf (optGet b "endpoint").toStr
        (Query.findPerformers Selection.scenes
          ((NewScenes.aliasesOf "stash" (idsHeld m (optGet b "endpoint").toStr).length).zip
            ((idsHeld m (optGet b "endpoint").toStr).map JSVal.toStr)))
        (optGet b "api_key") := by
      funext b
      simp [sceneRequest, collectStashIds_eq]
    rw [h1, h2]
  · intro e v
    unfold idsHeld
    simp only [List.mem_filter, List.mem_map]
    constructor
    · rintro ⟨⟨en, hen, rfl⟩, ht⟩
      exact ⟨ht, en, hen, rfl⟩
    · rintro ⟨ht, en, hen, rfl⟩
      exact ⟨⟨en, hen, rfl⟩, ht⟩

/-- C10 (amended) on three performers, two of which hold the same StashDB id, and a
FansDB provider for which nobody holds an id. -/
theorem C10_subqueries_per_holder_witness :
    (NewScenes.getNewReleasesForStashIDs (fun _ => FetchOutcome.networkError)
        { startConfig with stashBoxes :=
            [provider "https://fansdb.cc/graphql" "k3" "FansDB",
             provider "https://stashdb.org/graphql" "k1" "StashDB"] }
        [("3", [("https://stashdb.org/graphql", str "u")]),
         ("7", [("https://stashdb.org/graphql", str "v")]),
         ("12", [("https://stashdb.org/graphql", str "u")])]).requests
      = [{ endpoint := "https://stashdb.org/graphql",
           query := Query.findPerformers Selection.scenes
             [("stash0", "u"), ("stash1", "v"), ("stash2", "u")],
           apiKey := some "k1" }] := by
  rw [(C10_subqueries_per_holder (fun _ => FetchOutcome.networkError)
    { startConfig with stashBoxes :=
        [provider "https://fansdb.cc/graphql" "k3" "FansDB",
         provider "https://stashdb.org/graphql" "k1" "StashDB"] }
    [("3", [("https://stashdb.org/graphql", str "u")]),
     ("7", [("https://stashdb.org/graphql", str "v")]),
     ("12", [("https://stashdb.org/graphql", str "u")])]
    (by decide)).1]
  decide

/-! ## Remote fetcher: the index -/

theorem fetchBoxes_result (net : Net) (m : ObjMap) (boxes : List JSVal)
    (hrec : ∀ b ∈ boxes, b.isObject = true) (acc : ObjMap) :
    (NewScenes.fetchBoxes net m boxes acc).result
      = Except.ok (boxes.foldl (boxStep net m) acc) := by
  induction boxes generalizing acc with
  | nil => rfl
  | cons box rest ih =>
    have hb := hrec box (List.mem_cons_self _ _)
    have hrest : ∀ b ∈ rest, b.isObject = true :=
      fun b h => hrec b (List.mem_cons_of_mem _ h)
    unfold NewScenes.fetchBoxes
    simp only [getProp_of_isObject box _ hb, List.foldl_cons]
    by_cases hk : (optGet box "api_key").truthy = true
    · by_cases hids : (NewScenes.collectStashIds m (optGet box "endpoint")).length = 0
      · have he : eligible m box = false := by
          simp [eligible, hk, List.length_eq_zero.1 hids]
        have hs : boxStep net m acc box = acc := by simp [boxStep, succeeds, he]
        simp only [hk, Bool.not_true, Bool.false_eq_true, if_false, hids, if_true, hs]
        exact ih hrest acc
      · have hne : (NewScenes.collectStashIds m (optGet box "endpoint")).isEmpty = false := by
          cases hc : NewScenes.collectStashIds m (optGet box "endpoint") with
          | nil => simp [hc] at hids
          | cons a l => rfl
        have he : eligible m box = true := by simp [eligible, hk, hne]
        simp only [hk, Bool.not_true, Bool.false_eq_true, if_false, hids]
        rw [ih hrest]
        congr 2
        unfold boxStep succeeds
        simp only [he, Bool.true_and]
        cases ht : (answerOf net m box).truthy
        · have : (NewScenes.performGraphQLQuery net (optGet box "endpoint").toStr
              (Query.findPerformers Selection.scenes
                ((NewScenes.aliasesOf "stash"
                    (NewScenes.collectStashIds m (optGet box "endpoint")).length).zip
                  ((NewScenes.collectStashIds m (optGet box "endpoint")).map JSVal.toStr)))
              (optGet box "api_key")).result.truthy = false := ht
          simp [this]
        · have : (NewScenes.performGraphQLQuery net (optGet box "endpoint").toStr
              (Query.findPerformers Selection.scenes
                ((NewScenes.aliasesOf "stash"
                    (NewScenes.collectStashIds m (optGet box "endpoint")).length).zip
                  ((NewScenes.collectStashIds m (optGet box "endpoint")).map JSVal.toStr)))
              (optGet box "api_key")).result.truthy = true := ht
          simp only [this, Bool.not_true, Bool.false_eq_true, if_false, if_true]
          rfl
    · have hk2 : (optGet box "api_key").truthy = false := by simpa using hk
      have he : eligible m box = false := by simp [eligible, hk2]
      have hs : boxStep net m acc box = acc := by simp [boxStep, succeeds, he]
      simp only [hk2, Bool.not_false, if_true, hs]
      exact ih hrest acc

theorem getOwn_setProp2 (k1 k2 : String) (v : JSVal) (m : ObjMap) (key : String) :
    getOwn (setProp2 k1 k2 v m) key
      = if k1 = key then some (setProp k2 v ((getOwn m k1).getD [])) else getOwn m key := by
  unfold setProp2
  by_cases hm : hasOwn m k1 = true
  · simp only [hm, if_true]
    cases hg : getOwn m k1 with
    | none => rw [(getOwn_eq_none m k1).1 hg] at hm; simp at hm
    | some inner => simp [getOwn_setProp]
  · have hm2 : hasOwn m k1 = false := by simpa using hm
    have hnone : getOwn m k1 = none := (getOwn_eq_none m k1).2 hm2
    simp only [hm2, Bool.false_eq_true, if_false, getOwn_setProp, if_true, hnone,
      Option.getD_none]
    by_cases hk : k1 = key <;> simp [hk]

theorem getOwn_foldl_storeScenes_ne (r ep : JSVal) (subs : List (String × JSVal))
    (acc : ObjMap) (e : String) (h : ep.toStr ≠ e) :
    getOwn (subs.foldl (NewScenes.storeScenes r ep) acc) e = getOwn acc e := by
  induction subs generalizing acc with
  | nil => rfl
  | cons sq rest ih =>
    rw [List.foldl_cons, ih]
    simp [NewScenes.storeScenes, getOwn_setProp2, h]

theorem getOwn_foldl_storeScenes_isSome (r ep : JSVal) (subs : List (String × JSVal))
    (acc : ObjMap) (h : subs ≠ [] ∨ (getOwn acc ep.toStr).isSome = true) :
    (getOwn (subs.foldl (NewScenes.storeScenes r ep) acc) ep.toStr).isSome = true := by
  induction subs generalizing acc with
  | nil =>
    rcases h with h | h
    · exact absurd rfl h
    · exact h
  | cons sq rest ih =>
    rw [List.foldl_cons]
    apply ih
    right
    simp [NewScenes.storeScenes, getOwn_setProp2]

theorem getOwn2_foldl_storeScenes (r ep : JSVal) (subs : List (String × JSVal))
    (acc : ObjMap) (e x : String) :
    getOwn2 (subs.foldl (NewScenes.storeScenes r ep) acc) e x
      = if ep.toStr = e then (lastScenes r x subs).or (getOwn2 acc e x)
        else getOwn2 acc e x := by
  induction subs generalizing acc with
  | nil => simp [lastScenes]
  | cons sq rest ih =>
    rw [List.foldl_cons, ih]
    by_cases he : ep.toStr = e
    · have happ : lastScenes r x (sq :: rest)
          = (lastScenes r x rest).or (lastScenes r x [sq]) := by
        unfold lastScenes
        rw [show sq :: rest = [sq] ++ rest from rfl, List.filter_append, List.getLast?_append]
        cases (List.filter (fun sq => sq.2.toStr == x) rest).getLast? <;> simp
      have hone : lastScenes r x [sq]
          = if sq.2.toStr = x then some (scenesUnder r sq.1) else none := by
        unfold lastScenes
        by_cases h : sq.2.toStr = x <;> simp [List.filter_cons, h]
      simp only [he, if_true, happ, hone, option_or_assoc, NewScenes.storeScenes,
        getOwn2_setProp2, true_and]
      by_cases h : sq.2.toStr = x <;> simp [h, scenesUnder]
    · simp only [he, if_false, NewScenes.storeScenes, getOwn2_setProp2, false_and]

theorem getOwn_boxStep_ne (net : Net) (m acc : ObjMap) (box : JSVal) (e : String)
    (h : succeeds net m box = true → endpointOf box ≠ e) :
    getOwn (boxStep net m acc box) e = getOwn acc e := by
  unfold boxStep
  split
  · next hs => exact getOwn_foldl_storeScenes_ne _ _ _ _ _ (h hs)
  · rfl

theorem getOwn_foldl_boxStep_ne (net : Net) (m : ObjMap) (boxes : List JSVal) (acc : ObjMap)
    (e : String) (h : ∀ b ∈ boxes, succeeds net m b = true → endpointOf b ≠ e) :
    getOwn (boxes.foldl (boxStep net m) acc) e = getOwn acc e := by
  induction boxes generalizing acc with
  | nil => rfl
  | cons b rest ih =>
    rw [List.foldl_cons, ih _ (fun b2 hb2 => h b2 (List.mem_cons_of_mem _ hb2))]
    exact getOwn_boxStep_ne net m acc b e (h b (List.mem_cons_self _ _))

theorem getOwn2_of_getOwn_eq {m1 m2 : ObjMap} {e : String} (h : getOwn m1 e = getOwn m2 e)
    (x : String) : getOwn2 m1 e x = getOwn2 m2 e x := by
  simp [getOwn2, h]

theorem subQueries_ne_nil (m : ObjMap) (box : JSVal) (h : eligible m box = true) :
    subQueries m box ≠ [] := by
  unfold eligible at h
  simp only [Bool.and_eq_true, Bool.not_eq_true', List.isEmpty_eq_false] at h
  unfold subQueries
  cases hc : NewScenes.collectStashIds m (optGet box "endpoint") with
  | nil => exact absurd hc h.2
  | cons a l => simp [NewScenes.aliasesOf, List.range_succ_eq_map]

theorem split_of_nodup_endpoints (boxes : List JSVal) (b : JSVal)
    (hd : (boxes.map endpointOf).Nodup) (hb : b ∈ boxes) :
    ∃ l1 l2, boxes = l1 ++ b :: l2
      ∧ (∀ b2 ∈ l1, endpointOf b2 ≠ endpointOf b) ∧ (∀ b2 ∈ l2, endpointOf b2 ≠ endpointOf b) := by
  obtain ⟨l1, l2, rfl⟩ := List.append_of_mem hb
  refine ⟨l1, l2, rfl, ?_, ?_⟩
  · intro b2 hb2 heq
    rw [List.map_append, List.map_cons, List.nodup_append] at hd
    exact hd.2.2 (List.mem_map_of_mem endpointOf hb2)
      (by rw [heq]; exact List.mem_cons_self _ _)
  · intro b2 hb2 heq
    rw [List.map_append, List.map_cons, List.nodup_append, List.nodup_cons] at hd
    exact hd.2.1.1 (by rw [← heq]; exact List.mem_map_of_mem endpointOf hb2)

theorem boxStep_pos (net : Net) (m acc : ObjMap) (b : JSVal) (hs : succeeds net m b = true) :
    boxStep net m acc b
      = (subQueries m b).foldl
          (NewScenes.storeScenes (answerOf net m b) (optGet b "endpoint")) acc := by
  simp [boxStep, hs]

theorem boxStep_neg (net : Net) (m acc : ObjMap) (b : JSVal) (hs : succeeds net m b = false) :
    boxStep net m acc b = acc := by
  simp [boxStep, hs]

theorem index_entry_of_box (net : Net) (m : ObjMap) (boxes : List JSVal) (b : JSVal)
    (hd : (boxes.map endpointOf).Nodup) (hb : b ∈ boxes) :
    (∀ x, getOwn2 (boxes.foldl (boxStep net m) []) (endpointOf b) x
        = if succeeds net m b = true then lastScenes (answerOf net m b) x (subQueries m b)
          else none)
    ∧ (getOwn (boxes.foldl (boxStep net m) []) (endpointOf b)).isSome = succeeds net m b := by
  obtain ⟨l1, l2, rfl, h1, h2⟩ := split_of_nodup_endpoints boxes b hd hb
  have hpre : getOwn (l1.foldl (boxStep net m) []) (endpointOf b) = none := by
    rw [getOwn_foldl_boxStep_ne net m l1 [] _ (fun b2 hb2 _ => h1 b2 hb2)]
    rfl
  have hpre2 : ∀ x, getOwn2 (l1.foldl (boxStep net m) []) (endpointOf b) x = none := by
    intro x
    simp [getOwn2, hpre]
  have hpost : getOwn ((l1 ++ b :: l2).foldl (boxStep net m) []) (endpointOf b)
      = getOwn (boxStep net m (l1.foldl (boxStep net m) []) b) (endpointOf b) := by
    rw [List.foldl_append, List.foldl_cons,
      getOwn_foldl_boxStep_ne net m l2 _ _ (fun b2 hb2 _ => h2 b2 hb2)]
  constructor
  · intro x
    rw [getOwn2_of_getOwn_eq hpost x]
    by_cases hs : succeeds net m b = true
    · rw [boxStep_pos net m _ b hs, getOwn2_foldl_storeScenes, hpre2 x]
      simp [endpointOf, hs]
    · have hs2 : succeeds net m b = false := by simpa using hs
      rw [boxStep_neg net m _ b hs2, hpre2 x]
      simp [hs2]
  · rw [hpost]
    by_cases hs : succeeds net m b = true
    · rw [boxStep_pos net m _ b hs, hs]
      have hel : eligible m b = true := by
        unfold succeeds at hs
        simp only [Bool.and_eq_true] at hs
        exact hs.1
      exact getOwn_foldl_storeScenes_isSome _ _ _ _ (Or.inl (subQueries_ne_nil m b hel))
    · have hs2 : succeeds net m b = false := by simpa using hs
      rw [boxStep_neg net m _ b hs2, hpre, hs2]
      rfl

theorem succeeds_imp_credential (net : Net) (m : ObjMap) (b : JSVal)
    (h : succeeds net m b = true) : (optGet b "api_key").truthy = true := by
  unfold succeeds eligible at h
  simp only [Bool.and_eq_true] at h
  exact h.1.1

/-- C11: when every provider record of the registry with the endpoint e has an absent
credential (api_key missing, null or empty, hence falsy), getNewReleasesForStashIDs sends
no request to e, with or without Apikey header, and the index it returns has no entry
for e, whatever the identity map and the servers are. -/
theorem C11_absent_credential_skipped (net : Net) (config : NewScenes.Config) (m : ObjMap)
    (e : String)
    (hrec : ∀ b ∈ config.stashBoxes, b.isObject = true)
    (habsent : ∀ b ∈ config.stashBoxes, endpointOf b = e → (optGet b "api_key").truthy = false) :
    (∀ r ∈ (NewScenes.getNewReleasesForStashIDs net config m).requests, r.endpoint ≠ e)
    ∧ (∃ idx, (NewScenes.getNewReleasesForStashIDs net config m).result = Except.ok idx
        ∧ getOwn idx e = none)
    ∧ JSVal.null.truthy = false ∧ JSVal.undefined.truthy = false
    ∧ (JSVal.str "").truthy = false := by
  refine ⟨?_, ⟨_, fetchBoxes_result net m config.stashBoxes hrec [], ?_⟩, rfl, rfl, rfl⟩
  · intro r hr
    unfold NewScenes.getNewReleasesForStashIDs at hr
    rw [fetchBoxes_requests net m config.stashBoxes hrec [], List.mem_map] at hr
    obtain ⟨b, hb, rfl⟩ := hr
    rw [List.mem_filter] at hb
    intro he
    have h1 := habsent b hb.1 he
    have h2 : (optGet b "api_key").truthy = true := by
      have := hb.2
      unfold eligible at this
      simp only [Bool.and_eq_true] at this
      exact this.1
    rw [h1] at h2
    exact absurd h2 (by simp)
  · rw [getOwn_foldl_boxStep_ne net m config.stashBoxes [] e]
    · rfl
    · intro b hb hs he
      have h1 := habsent b hb he
      rw [succeeds_imp_credential net m b hs] at h1
      exact absurd h1 (by simp)

/-- C11 on a registry whose FansDB record has an empty credential, with a performer that
has a FansDB id. -/
theorem C11_absent_credential_skipped_witness :
    ((NewScenes.getNewReleasesForStashIDs
        (scenesNet [("https://fansdb.cc/graphql", [("stash0", scenesField [sceneAt "s" 5])])])
        { startConfig with stashBoxes := [provider "https://fansdb.cc/graphql" "" "FansDB"] }
        [("7", [("https://fansdb.cc/graphql", str "f")])]).requests.map
          (fun r => r.endpoint)) = []
    ∧ ∃ idx, (NewScenes.getNewReleasesForStashIDs
        (scenesNet [("https://fansdb.cc/graphql", [("stash0", scenesField [sceneAt "s" 5])])])
        { startConfig with stashBoxes := [provider "https://fansdb.cc/graphql" "" "FansDB"] }
        [("7", [("https://fansdb.cc/graphql", str "f")])]).result = Except.ok idx
      ∧ getOwn idx "https://fansdb.cc/graphql" = none :=
  ⟨by decide,
    (C11_absent_credential_skipped
      (scenesNet [("https://fansdb.cc/graphql", [("stash0", scenesField [sceneAt "s" 5])])])
      { startConfig with stashBoxes := [provider "https://fansdb.cc/graphql" "" "FansDB"] }
      [("7", [("https://fansdb.cc/graphql", str "f")])]
      "https://fansdb.cc/graphql" (by decide) (by decide)).2.1⟩

/-- C12: in a registry of provider records with pairwise distinct endpoints that contains
A and B (A anywhere: before or after B), when the batched request of A fails and that of
B succeeds, getNewReleasesForStashIDs returns normally an index that has no entry for
the endpoint of A, has an entry for the endpoint of B holding, under each id queried at
B, the scenes B returned for it, and is the very index returned when A is removed from
the registry. -/
theorem C12_provider_isolation (net : Net) (config : NewScenes.Config) (m : ObjMap)
    (pre post : List JSVal) (A B : JSVal)
    (hreg : config.stashBoxes = pre ++ A :: post)
    (hrec : ∀ b ∈ config.stashBoxes, b.isObject = true)
    (hdistinct : (config.stashBoxes.map endpointOf).Nodup)
    (hB : B ∈ pre ++ post)
    (hAfail : (answerOf net m A).truthy = false)
    (hBok : succeeds net m B = true) :
    ∃ idx, (NewScenes.getNewReleasesForStashIDs net config m).result = Except.ok idx
      ∧ getOwn idx (endpointOf A) = none
      ∧ (getOwn idx (endpointOf B)).isSome = true
      ∧ (∀ x, getOwn2 idx (endpointOf B) x
          = lastScenes (answerOf net m B) x (subQueries m B))
      ∧ (NewScenes.getNewReleasesForStashIDs net { config with stashBoxes := pre ++ post }
          m).result = Except.ok idx := by
  have hAs : succeeds net m A = false := by simp [succeeds, hAfail]
  have hfold : config.stashBoxes.foldl (boxStep net m) []
      = (pre ++ post).foldl (boxStep net m) [] := by
    rw [hreg, List.foldl_append, List.foldl_cons, boxStep_neg net m _ A hAs,
      List.foldl_append]
  have hBmem : B ∈ config.stashBoxes := by
    rw [hreg]
    rcases List.mem_append.1 hB with h | h
    · exact List.mem_append_left _ h
    · exact List.mem_append_right _ (List.mem_cons_of_mem _ h)
  have hrec2 : ∀ b ∈ pre ++ post, b.isObject = true := by
    intro b hb
    apply hrec b
    rw [hreg]
    rcases List.mem_append.1 hb with h | h
    · exact List.mem_append_left _ h
    · exact List.mem_append_right _ (List.mem_cons_of_mem _ h)
  have hentry := index_entry_of_box net m config.stashBoxes B hdistinct hBmem
  refine ⟨_, fetchBoxes_result net m config.stashBoxes hrec [], ?_, ?_, ?_, ?_⟩
  · apply getOwn_foldl_boxStep_ne
    intro b _ hs
    intro heq
    have hAmem : A ∈ config.stashBoxes := by
      rw [hreg]; exact List.mem_append_right _ (List.mem_cons_self _ _)
    have := (index_entry_of_box net m config.stashBoxes A hdistinct hAmem).2
    rw [hAs] at this
    have hb2 := (index_entry_of_box net m config.stashBoxes b hdistinct ‹b ∈ config.stashBoxes›).2
    rw [hs, heq, this] at hb2
    exact absurd hb2 (by simp)
  · rw [hentry.2, hBok]
  · intro x
    rw [hentry.1 x]
    simp [hBok]
  · unfold NewScenes.getNewReleasesForStashIDs
    simp only
    rw [fetchBoxes_result net m (pre ++ post) hrec2 [], hfold]

/-- C12 on the registry [A, B] where the server of A is unreachable. -/
theorem C12_provider_isolation_witness :
    ∃ idx, (NewScenes.getNewReleasesForStashIDs
        (scenesNet [("https://fansdb.cc/graphql", [("stash0", scenesField [sceneAt "s" 5])])])
        { startConfig with stashBoxes :=
            [provider "https://stashdb.org/graphql" "k1" "StashDB",
             provider "https://fansdb.cc/graphql" "k3" "FansDB"] }
        [("7", [("https://stashdb.org/graphql", str "a"),
                ("https://fansdb.cc/graphql", str "f")])]).result = Except.ok idx
      ∧ getOwn idx "https://stashdb.org/graphql" = none
      ∧ getOwn2 idx "https://fansdb.cc/graphql" "f" = some (arr [sceneAt "s" 5]) := by
  obtain ⟨idx, h1, h2, -, h4, -⟩ := C12_provider_isolation
    (scenesNet [("https://fansdb.cc/graphql", [("stash0", scenesField [sceneAt "s" 5])])])
    { startConfig with stashBoxes :=
        [provider "https://stashdb.org/graphql" "k1" "StashDB",
         provider "https://fansdb.cc/graphql" "k3" "FansDB"] }
    [("7", [("https://stashdb.org/graphql", str "a"),
            ("https://fansdb.cc/graphql", str "f")])]
    [] [provider "https://fansdb.cc/graphql" "k3" "FansDB"]
    (provider "https://stashdb.org/graphql" "k1" "StashDB")
    (provider "https://fansdb.cc/graphql" "k3" "FansDB")
    rfl (by decide) (by decide) (List.mem_cons_self _ _) (by decide) (by decide)
  exact ⟨idx, h1, h2, (h4 "f").trans rfl⟩

theorem lastScenes_none (r : JSVal) (x : String) (subs : List (String × JSVal))
    (h : ∀ sq ∈ subs, sq.2.toStr ≠ x) : lastScenes r x subs = none := by
  unfold lastScenes
  have : subs.filter (fun sq => sq.2.toStr == x) = [] := by
    rw [List.filter_eq_nil_iff]
    intro sq hsq
    simpa using h sq hsq
  simp [this]

theorem lastScenes_last (r : JSVal) (x al : String) (idv : JSVal)
    (pre post : List (String × JSVal)) (hx : idv.toStr = x)
    (h : ∀ sq ∈ post, sq.2.toStr ≠ x) :
    lastScenes r x (pre ++ (al, idv) :: post) = some (scenesUnder r al) := by
  unfold lastScenes
  have hpost : post.filter (fun sq => sq.2.toStr == x) = [] := by
    rw [List.filter_eq_nil_iff]
    intro sq hsq
    simpa using h sq hsq
  rw [List.filter_append, List.filter_cons]
  simp [hx, hpost]

/-- C13: for a registry of provider records with pairwise distinct endpoints, the index
returned by getNewReleasesForStashIDs maps, for every provider whose batched request
succeeded, its endpoint and then every id queried at it to the value the answer holds
under `scenes` for the sub-query of that id (the last such sub-query when the id was
asked more than once), as it was returned, and to the empty sequence when the answer has
no truthy `scenes` there; it has no entry under an id that was not queried and none for
an endpoint that is not the endpoint of a provider that succeeded. -/
theorem C13_index_contents (net : Net) (config : NewScenes.Config) (m : ObjMap)
    (hrec : ∀ b ∈ config.stashBoxes, b.isObject = true)
    (hdistinct : (config.stashBoxes.map endpointOf).Nodup) :
    ∃ idx, (NewScenes.getNewReleasesForStashIDs net config m).result = Except.ok idx
      ∧ (∀ b ∈ config.stashBoxes, succeeds net m b = true →
          ∀ x, getOwn2 idx (endpointOf b) x
            = lastScenes (answerOf net m b) x (subQueries m b))
      ∧ (∀ e, (∀ b ∈ config.stashBoxes, succeeds net m b = true → endpointOf b ≠ e) →
          getOwn idx e = none)
      ∧ (∀ r x subs, (∀ sq ∈ subs, sq.2.toStr ≠ x) → lastScenes r x subs = none)
      ∧ (∀ r x al idv pre post, idv.toStr = x → (∀ sq ∈ post, sq.2.toStr ≠ x) →
          lastScenes r x (pre ++ (al, idv) :: post) = some (scenesUnder r al))
      ∧ (∀ r al, scenesUnder r al
          = if (optGet (optGet r al) "scenes").truthy then optGet (optGet r al) "scenes"
            else JSVal.arr []) := by
  refine ⟨_, fetchBoxes_result net m config.stashBoxes hrec [], ?_, ?_, lastScenes_none,
    ?_, ?_⟩
  · intro b hb hs x
    rw [(index_entry_of_box net m config.stashBoxes b hdistinct hb).1 x]
    simp [hs]
  · intro e he
    rw [getOwn_foldl_boxStep_ne net m config.stashBoxes [] e he]
    rfl
  · intro r x al idv pre post hx h
    exact lastScenes_last r x al idv pre post hx h
  · intro r al
    rfl

/-- C13 on one provider asked for two ids, whose answer has scenes for the first only. -/
theorem C13_index_contents_witness :
    ∃ idx, (NewScenes.getNewReleasesForStashIDs
        (scenesNet [("https://stashdb.org/graphql",
          [("stash0", scenesField [sceneAt "new" 9, sceneAt "old" 2]),
           ("stash1", JSVal.null)])])
        { startConfig with stashBoxes :=
            [provider "https://stashdb.org/graphql" "k1" "StashDB"] }
        [("7", [("https://stashdb.org/graphql", str "a")]),
         ("12", [("https://stashdb.org/graphql", str "b")])]).result = Except.ok idx
      ∧ getOwn2 idx "https://stashdb.org/graphql" "a"
          = some (arr [sceneAt "new" 9, sceneAt "old" 2])
      ∧ getOwn2 idx "https://stashdb.org/graphql" "b" = some (arr [])
      ∧ getOwn2 idx "https://stashdb.org/graphql" "c" = none := by
  obtain ⟨idx, h1, h2, -⟩ := C13_index_contents
    (scenesNet [("https://stashdb.org/graphql",
      [("stash0", scenesField [sceneAt "new" 9, sceneAt "old" 2]),
       ("stash1", JSVal.null)])])
    { startConfig with stashBoxes := [provider "https://stashdb.org/graphql" "k1" "StashDB"] }
    [("7", [("https://stashdb.org/graphql", str "a")]),
     ("12", [("https://stashdb.org/graphql", str "b")])]
    (by decide) (by decide)
  have h := h2 (provider "https://stashdb.org/graphql" "k1" "StashDB")
    (List.mem_cons_self _ _) (by decide)
  exact ⟨idx, h1, (h "a").trans rfl, (h "b").trans rfl, (h "c").trans rfl⟩

/-! ## Re-entrancy guard -/

/-- C14 fails on the code: a performer card whose performer has no external id (the local
system returns an empty stash_ids) is never added to the guard set, because the run
returns at the empty-stashIds check (and, in a mixed page, such a performer is skipped by
`continue` before `processedPerformers.add`).  Run twice without clearing the guard, the
second run sends the identity request again. -/
theorem C14_unlinked_performer_requeried :
    (NewScenes.processPerformerCards
        (localNet [("performer0", obj [("stash_ids", arr [])])])
        (fun _ => none) utcZone (fun _ => 0) startConfig [some "12"] []).result = Except.ok ()
    ∧ (NewScenes.processPerformerCards
        (localNet [("performer0", obj [("stash_ids", arr [])])])
        (fun _ => none) utcZone (fun _ => 0) startConfig [some "12"] []).processedPerformers = []
    ∧ (NewScenes.processPerformerCards
        (localNet [("performer0", obj [("stash_ids", arr [])])])
        (fun _ => none) utcZone (fun _ => 0) startConfig [some "12"]
        (NewScenes.processPerformerCards
          (localNet [("performer0", obj [("stash_ids", arr [])])])
          (fun _ => none) utcZone (fun _ => 0) startConfig [some "12"] []).processedPerformers).requests
      = [{ endpoint := "http://localhost:9999/graphql",
           query := Query.findPerformers Selection.stashIds [("performer0", "12")],
           apiKey := none }] := by
  refine ⟨rfl, rfl, ?_⟩
  decide

theorem foldlE_invariant {σ α : Type} (P : σ → Prop) (f : σ → α → Except JSError σ)
    (xs : List α)
    (hstep : ∀ s x s2, x ∈ xs → P s → f s x = Except.ok s2 → P s2) :
    ∀ s s2, P s → foldlE f s xs = Except.ok s2 → P s2 := by
  induction xs with
  | nil =>
    intro s s2 hs h
    simp only [foldlE, Except.ok.injEq] at h
    subst h
    exact hs
  | cons x xs ih =>
    intro s s2 hs h
    simp only [foldlE] at h
    cases hf : f s x with
    | error e => simp [hf] at h
    | ok s1 =>
      simp only [hf] at h
      exact ih (fun s x s2 hx => hstep s x s2 (List.mem_cons_of_mem _ hx)) s1 s2
        (hstep s x s1 (List.mem_cons_self _ _) hs hf) h

theorem keys_addStashId (pid : String) (ids : List String) (hpid : pid ∈ ids)
    (m m2 : ObjMap) (o : JSVal)
    (hm : ∀ id, (getOwn m id).isSome = true → id ∈ ids)
    (h : NewScenes.addStashId pid m o = Except.ok m2) :
    ∀ id, (getOwn m2 id).isSome = true → id ∈ ids := by
  unfold NewScenes.addStashId at h
  cases hg : getProp o "endpoint" with
  | error e => simp [hg] at h
  | ok ep =>
    simp only [hg] at h
    by_cases hd : strictEqStr ep NewScenes.disallowedEndpoint = true
    · simp only [hd, if_true, Except.ok.injEq] at h
      subst h
      exact hm
    · simp only [hd, Bool.false_eq_true, if_false] at h
      cases hs : getProp o "stash_id" with
      | error e => simp [hs] at h
      | ok sid =>
        simp only [hs, Except.ok.injEq] at h
        subst h
        intro id hid
        rw [getOwn_setProp2] at hid
        by_cases hk : pid = id
        · exact hk ▸ hpid
        · simp only [hk, if_false] at hid
          exact hm id hid

theorem keys_getPerformerStashIDs (net : Net) (config : NewScenes.Config)
    (ids : List String) (m : ObjMap)
    (h : (NewScenes.getPerformerStashIDs net config ids).result = Except.ok m) :
    ∀ id, (getOwn m id).isSome = true → id ∈ ids := by
  unfold NewScenes.getPerformerStashIDs at h
  split at h
  · simp only [Except.ok.injEq] at h
    subst h
    intro id hid
    simp [getOwn] at hid
  · simp only at h
    split at h
    · simp only [Except.ok.injEq] at h
      subst h
      intro id hid
      simp [getOwn] at hid
    · simp only at h
      refine foldlE_invariant (fun m => ∀ id, (getOwn m id).isSome = true → id ∈ ids) _ _ ?_
        [] m (by intro id hid; simp [getOwn] at hid) h
      intro s en s2 hen hs hstep
      have hpid : en.2 ∈ ids := (List.of_mem_zip (a := en.1) (b := en.2) hen).2
      unfold NewScenes.addPerformer at hstep
      split at hstep
      · exact foldlE_invariant (fun m => ∀ id, (getOwn m id).isSome = true → id ∈ ids) _ _
          (fun s o s2 _ hs h => keys_addStashId en.2 ids hpid s s2 o hs h) s s2 hs hstep
      · simp at hstep

theorem fetchBoxes_requests_scenes (net : Net) (m : ObjMap) (boxes : List JSVal) (acc : ObjMap) :
    ∀ r ∈ (NewScenes.fetchBoxes net m boxes acc).requests,
      ∃ subs, r.query = Query.findPerformers Selection.scenes subs := by
  induction boxes generalizing acc with
  | nil => intro r hr; simp [NewScenes.fetchBoxes] at hr
  | cons box rest ih =>
    intro r hr
    unfold NewScenes.fetchBoxes at hr
    split at hr
    · split at hr
      · exact ih acc r hr
      · simp only at hr
        split at hr
        · exact ih acc r hr
        · simp only [NewScenes.performGraphQLQuery, List.singleton_append,
            List.mem_cons] at hr
          rcases hr with rfl | hr
          · exact ⟨_, rfl⟩
          · exact ih _ r hr
    · simp at hr

theorem getPerformerStashIDs_requests (net : Net) (config : NewScenes.Config)
    (ids : List String) :
    ∀ r ∈ (NewScenes.getPerformerStashIDs net config ids).requests,
      r = NewScenes.requestOf config.localEndpoint
        (Query.findPerformers Selection.stashIds
          ((NewScenes.aliasesOf "performer" ids.length).zip ids)) config.apiKey := by
  intro r hr
  unfold NewScenes.getPerformerStashIDs at hr
  split at hr
  · simp at hr
  · simp only at hr
    split at hr <;> simpa [NewScenes.performGraphQLQuery] using hr

theorem processPerformerCards_requests (net : Net) (parse : String → Option Int)
    (zone : NewScenes.TimeZone) (clock : Nat → Int) (config : NewScenes.Config)
    (cards : List (Option String))
    (processed : List String) :
    ∀ r ∈ (NewScenes.processPerformerCards net parse zone clock config cards processed).requests,
      r = NewScenes.requestOf config.localEndpoint
          (Query.findPerformers Selection.stashIds
            ((NewScenes.aliasesOf "performer"
              (NewScenes.collectPerformerIds cards processed).length).zip
              (NewScenes.collectPerformerIds cards processed))) config.apiKey
      ∨ ∃ subs, r.query = Query.findPerformers Selection.scenes subs := by
  intro r hr
  unfold NewScenes.processPerformerCards at hr
  split at hr
  · simp at hr
  · simp only at hr
    split at hr
    · simp at hr
    · split at hr
      · exact Or.inl (getPerformerStashIDs_requests net config _ r hr)
      · split at hr
        · exact Or.inl (getPerformerStashIDs_requests net config _ r hr)
        · have hmem : r ∈ (NewScenes.getPerformerStashIDs net config
                (NewScenes.collectPerformerIds cards processed)).requests
              ∨ r ∈ (NewScenes.getNewReleasesForStashIDs net config ‹ObjMap›).requests := by
            split at hr <;> simpa using hr
          rcases hmem with h | h
          · exact Or.inl (getPerformerStashIDs_requests net config _ r h)
          · exact Or.inr (fetchBoxes_requests_scenes net _ _ _ r h)

theorem collectPerformerIds_not_processed (cards : List (Option String))
    (processed : List String) :
    ∀ id ∈ NewScenes.collectPerformerIds cards processed, id ∉ processed := by
  intro id hid
  unfold NewScenes.collectPerformerIds at hid
  rw [List.mem_filterMap] at hid
  obtain ⟨card, _, hc⟩ := hid
  cases card with
  | none => simp at hc
  | some pid =>
    simp only at hc
    split at hc
    · next hcond =>
      simp only [Option.some.injEq] at hc
      subst hc
      simp only [Bool.and_eq_true, Bool.not_eq_true', List.contains_eq_any_beq,
        List.any_eq_false, beq_iff_eq] at hcond
      intro hmem
      exact hcond.2 pid hmem rfl
    · simp at hc

/-- C15: in every run of the driver the ids it collects contain no id of the guard set;
the only identity request of the run asks exactly for the collected ids; every local id
that is a key of the identity map handed to the remote fetcher is a collected id, hence
not in the guard set; and the navigation listener leaves the guard set empty whenever
the new path starts with /performers. -/
theorem C15_guard_excludes_processed (net : Net) (parse : String → Option Int)
    (zone : NewScenes.TimeZone) (clock : Nat → Int) (config : NewScenes.Config)
    (cards : List (Option String))
    (processed : List String) :
    (∀ id ∈ NewScenes.collectPerformerIds cards processed, id ∉ processed)
    ∧ (∀ r ∈ (NewScenes.processPerformerCards net parse zone clock config cards
          processed).requests,
        ∀ subs, r.query = Query.findPerformers Selection.stashIds subs →
          subs.map Prod.snd = NewScenes.collectPerformerIds cards processed
          ∧ ∀ sq ∈ subs, sq.2 ∉ processed)
    ∧ (∀ m, (NewScenes.getPerformerStashIDs net config
          (NewScenes.collectPerformerIds cards processed)).result = Except.ok m →
        ∀ id, (getOwn m id).isSome = true →
          id ∈ NewScenes.collectPerformerIds cards processed ∧ id ∉ processed)
    ∧ (∀ path guard, "/performers".toList.isPrefixOf path.toList = true →
        NewScenes.onLocationChange path guard = []) := by
  have hnot := collectPerformerIds_not_processed cards processed
  have hzip : ((NewScenes.aliasesOf "performer"
      (NewScenes.collectPerformerIds cards processed).length).zip
      (NewScenes.collectPerformerIds cards processed)).map Prod.snd
      = NewScenes.collectPerformerIds cards processed :=
    List.map_snd_zip _ _ (by simp [NewScenes.aliasesOf])
  refine ⟨hnot, ?_, ?_, ?_⟩
  · intro r hr subs hq
    rcases processPerformerCards_requests net parse zone clock config cards processed r hr with h | h
    · subst h
      simp only [NewScenes.requestOf, Query.findPerformers.injEq, true_and] at hq
      subst hq
      refine ⟨hzip, ?_⟩
      intro sq hsq
      apply hnot
      rw [← hzip]
      exact List.mem_map_of_mem Prod.snd hsq
    · obtain ⟨subs2, h2⟩ := h
      rw [h2] at hq
      simp at hq
  · intro m hm id hid
    have := keys_getPerformerStashIDs net config _ m hm id hid
    exact ⟨this, hnot id this⟩
  · intro path guard hp
    unfold NewScenes.onLocationChange
    rw [if_pos hp]

/-! ## Malformed data -/

/-- C16 fails on the code: nothing catches the TypeError of reading a property of null or
of calling forEach / spreading a value that is not a sequence.  getPerformerStashIDs
raises on a stash_ids that holds null and on one that is a string; the driver raises in
its aggregation step on a scenes field that is an object, and in its filter step on a
scenes sequence that holds null. -/
theorem C16_malformed_data_raises :
    raised (NewScenes.getPerformerStashIDs
        (localNet [("performer0", obj [("stash_ids", arr [JSVal.null])])])
        startConfig ["12"]).result = true
    ∧ raised (NewScenes.getPerformerStashIDs
        (localNet [("performer0", obj [("stash_ids", str "oops")])])
        startConfig ["12"]).result = true
    ∧ raised (NewScenes.processPerformerCards
        (worldNet [("performer0", obj [("stash_ids", arr [stashId "https://stashdb.org/graphql" "a"])])]
          [("https://stashdb.org/graphql", [("stash0", obj [("scenes", sceneAt "s" 5)])])])
        (fun _ => none) utcZone (fun _ => 0) stashdbConfig [some "12"] []).result = true
    ∧ raised (NewScenes.processPerformerCards
        (worldNet [("performer0", obj [("stash_ids", arr [stashId "https://stashdb.org/graphql" "a"])])]
          [("https://stashdb.org/graphql", [("stash0", scenesField [JSVal.null])])])
        (fun _ => none) utcZone (fun _ => 0) stashdbConfig [some "12"] []).result = true := by
  decide

/-- C18 fails on the code: a stashBoxes field that is present but is an object, or a
sequence that holds null, makes getAllStashBoxes raise a TypeError (at `.filter` or at
`box.endpoint`) instead of leaving the registry empty. -/
theorem C18_malformed_registry_raises :
    raised (NewScenes.getAllStashBoxes
        (fun _ => FetchOutcome.body (obj
          [("data", obj [("configuration", obj [("general",
            obj [("stashBoxes", provider "https://stashdb.org/graphql" "k1" "StashDB")])])])]))
        startConfig).result = true
    ∧ raised (NewScenes.getAllStashBoxes
        (fun _ => FetchOutcome.body (obj (registryBody [JSVal.null])))
        startConfig).result = true := by
  decide

/-- C17 as stated fails: in the popout a batch that is not a sequence but an object is not
skipped, it is rendered as one record.  (The popout is called with the filtered map,
whose values are sequences of scenes, so each scene record is met where a sequence of
scenes is expected.) -/
theorem C17_object_batch_counterexample :
    NewScenes.createScenePreviewPopout
        [("https://stashdb.org/graphql", arr [sceneAt "s" 5])]
      = Except.ok [("https://stashdb.org/graphql", sceneAt "s" 5)]
    ∧ NewScenes.popoutBatch (sceneAt "s" 5) = [sceneAt "s" 5] := by
  constructor <;> rfl

theorem createScenePreviewPopout_arrays (groups : List (String × List JSVal))
    (cards : List (String × JSVal)) :
    foldlE (fun cards (group : String × JSVal) =>
        match NewScenes.entryValues group.2 with
        | Except.error e => Except.error e
        | Except.ok values =>
          Except.ok (cards ++ values.flatMap (fun scenes =>
            (NewScenes.popoutBatch scenes).map (fun scene => (group.1, scene)))))
        cards (groups.map (fun g => (g.1, JSVal.arr g.2)))
      = Except.ok (cards ++ groups.flatMap (fun g => g.2.flatMap (fun scenes =>
          (NewScenes.popoutBatch scenes).map (fun scene => (g.1, scene))))) := by
  induction groups generalizing cards with
  | nil => simp [foldlE]
  | cons g rest ih =>
    simp only [List.map_cons, foldlE]
    rw [show NewScenes.entryValues (JSVal.arr g.2) = Except.ok g.2 from rfl]
    simp only [ih, List.flatMap_cons, List.append_assoc]

/-- C17 (amended): createScenePreviewPopout, called on a map from endpoints to sequences
(as the driver calls it), raises no exception and renders, group after group and batch
after batch, exactly the records that each batch yields: a batch that is a sequence
yields its elements that are objects (null and primitive elements are skipped one by
one), a batch that is an object yields that object as a single record, and a batch that
is null or a primitive yields nothing; so a skipped record or batch never removes a
record of another batch. -/
theorem C17_popout_skips_defensively :
    (∀ groups : List (String × List JSVal),
      NewScenes.createScenePreviewPopout (groups.map (fun g => (g.1, JSVal.arr g.2)))
        = Except.ok (groups.flatMap (fun g => g.2.flatMap (fun scenes =>
            (NewScenes.popoutBatch scenes).map (fun scene => (g.1, scene))))))
    ∧ (∀ items, NewScenes.popoutBatch (JSVal.arr items)
        = items.filter NewScenes.isObjectLike)
    ∧ (∀ props, NewScenes.popoutBatch (JSVal.obj props) = [JSVal.obj props])
    ∧ (∀ v, NewScenes.isObjectLike v = false → NewScenes.popoutBatch v = [])
    ∧ NewScenes.isObjectLike JSVal.null = false
    ∧ (∀ s, NewScenes.isObjectLike (JSVal.str s) = false)
    ∧ (∀ n, NewScenes.isObjectLike (JSVal.num n) = false)
    ∧ (∀ (e : String) (before after : List JSVal) (bad : JSVal),
        NewScenes.isObjectLike bad = false →
        NewScenes.createScenePreviewPopout [(e, JSVal.arr (before ++ bad :: after))]
          = NewScenes.createScenePreviewPopout [(e, JSVal.arr (before ++ after))]) := by
  have hmain : ∀ groups : List (String × List JSVal),
      NewScenes.createScenePreviewPopout (groups.map (fun g => (g.1, JSVal.arr g.2)))
        = Except.ok (groups.flatMap (fun g => g.2.flatMap (fun scenes =>
            (NewScenes.popoutBatch scenes).map (fun scene => (g.1, scene))))) := by
    intro groups
    unfold NewScenes.createScenePreviewPopout
    rw [createScenePreviewPopout_arrays groups []]
    simp
  have hskip : ∀ v, NewScenes.isObjectLike v = false → NewScenes.popoutBatch v = [] := by
    intro v hv
    cases v <;> simp_all [NewScenes.isObjectLike, NewScenes.popoutBatch]
  refine ⟨hmain, fun _ => rfl, fun _ => rfl, hskip, rfl, fun _ => rfl, fun _ => rfl, ?_⟩
  intro e before after bad hbad
  have h1 := hmain [(e, before ++ bad :: after)]
  have h2 := hmain [(e, before ++ after)]
  simp only [List.map_cons, List.map_nil] at h1 h2
  rw [h1, h2]
  simp [List.flatMap_append, hskip bad hbad]

/-! ## Recency preference -/

theorem digitChar_toNat (k : Nat) (hk : k < 10) : (Nat.digitChar k).toNat = 48 + k := by
  interval_cases k <;> rfl

theorem digitsValue_append (l : List Char) (c : Char) :
    NewScenes.digitsValue (l ++ [c]) = 10 * NewScenes.digitsValue l + (c.toNat - 48) := by
  simp [NewScenes.digitsValue, List.foldl_append]

theorem toDigitsCore_spec (n : Nat) :
    ∀ fuel, n < fuel → ∀ ds, ∃ l, Nat.toDigitsCore 10 fuel n ds = l ++ ds ∧ l ≠ []
      ∧ (∀ c ∈ l, NewScenes.isDecimalDigit c = true) ∧ NewScenes.digitsValue l = n := by
  induction n using Nat.strong_induction_on with
  | _ n ih =>
    intro fuel hfuel ds
    cases fuel with
    | zero => omega
    | succ f =>
      have hmod : n % 10 < 10 := Nat.mod_lt _ (by decide)
      have hd := digitChar_toNat (n % 10) hmod
      have hdig : NewScenes.isDecimalDigit (Nat.digitChar (n % 10)) = true := by
        simp only [NewScenes.isDecimalDigit, hd, decide_eq_true_eq]
        omega
      simp only [Nat.toDigitsCore]
      by_cases h0 : n / 10 = 0
      · simp only [h0, if_true]
        refine ⟨[Nat.digitChar (n % 10)], rfl, by simp, ?_, ?_⟩
        · intro c hc
          simp only [List.mem_singleton] at hc
          subst hc
          exact hdig
        · simp only [NewScenes.digitsValue, List.foldl_cons, List.foldl_nil, hd]
          omega
      · simp only [h0, if_false]
        have hlt : n / 10 < n := by omega
        obtain ⟨l, hl, _, hall, hval⟩ := ih (n / 10) hlt f (by omega)
          (Nat.digitChar (n % 10) :: ds)
        refine ⟨l ++ [Nat.digitChar (n % 10)], by rw [hl]; simp, by simp, ?_, ?_⟩
        · intro c hc
          rcases List.mem_append.1 hc with h | h
          · exact hall c h
          · simp only [List.mem_singleton] at h
            subst h
            exact hdig
        · rw [digitsValue_append, hval, hd]
          omega

theorem toDigits_spec (n : Nat) :
    Nat.toDigits 10 n ≠ [] ∧ (∀ c ∈ Nat.toDigits 10 n, NewScenes.isDecimalDigit c = true)
      ∧ NewScenes.digitsValue (Nat.toDigits 10 n) = n := by
  obtain ⟨l, hl, hne, hall, hval⟩ := toDigitsCore_spec n (n + 1) (by omega) []
  have : Nat.toDigits 10 n = l := by
    simp only [Nat.toDigits, hl, List.append_nil]
  rw [this]
  exact ⟨hne, hall, hval⟩

theorem not_whitespace_of_digit (c : Char) (h : NewScenes.isDecimalDigit c = true) :
    NewScenes.isJSWhitespace c = false ∧ c.toNat ≠ 45 ∧ c.toNat ≠ 43 := by
  simp only [NewScenes.isDecimalDigit, decide_eq_true_eq] at h
  refine ⟨?_, by omega, by omega⟩
  simp only [NewScenes.isJSWhitespace, decide_eq_false_iff_not]
  omega

theorem takeWhile_all {α : Type} (p : α → Bool) (l : List α) (h : ∀ x ∈ l, p x = true) :
    l.takeWhile p = l := by
  induction l with
  | nil => rfl
  | cons x l ih =>
    simp only [List.takeWhile_cons, h x (List.mem_cons_self _ _), if_true]
    rw [ih (fun y hy => h y (List.mem_cons_of_mem _ hy))]

theorem takeWhile_append_stop {α : Type} (p : α → Bool) (l rest : List α)
    (h : ∀ x ∈ l, p x = true) (hstop : ∀ c, rest.head? = some c → p c = false) :
    (l ++ rest).takeWhile p = l := by
  induction l with
  | nil =>
    cases rest with
    | nil => rfl
    | cons c rest => simp [List.takeWhile_cons, hstop c rfl]
  | cons x l ih =>
    simp only [List.cons_append, List.takeWhile_cons, h x (List.mem_cons_self _ _), if_true]
    rw [ih (fun y hy => h y (List.mem_cons_of_mem _ hy))]

theorem parseInt10_digits (ds rest : List Char) (hne : ds ≠ [])
    (hall : ∀ c ∈ ds, NewScenes.isDecimalDigit c = true)
    (hstop : ∀ c, rest.head? = some c → NewScenes.isDecimalDigit c = false) :
    NewScenes.parseInt10 (String.mk (ds ++ rest))
      = roundToDouble (NewScenes.digitsValue ds : Int)
    ∧ NewScenes.parseInt10 (String.mk ('-' :: (ds ++ rest)))
      = roundToDouble (-(NewScenes.digitsValue ds : Int)) := by
  cases ds with
  | nil => exact absurd rfl hne
  | cons c tl =>
    have hc := not_whitespace_of_digit c (hall c (List.mem_cons_self _ _))
    have htake := takeWhile_append_stop NewScenes.isDecimalDigit (c :: tl) rest hall hstop
    have hminus : NewScenes.isJSWhitespace '-' = false := by decide
    have htake2 : List.takeWhile NewScenes.isDecimalDigit (c :: (tl ++ rest)) = c :: tl :=
      htake
    constructor
    · simp only [NewScenes.parseInt10, String.toList, List.cons_append, List.dropWhile_cons,
        hc.1]
      simp only [Bool.false_eq_true, if_false, hc.2.1, hc.2.2, or_self, decide_False, htake2]
      simp
    · simp only [NewScenes.parseInt10, String.toList, List.dropWhile_cons, hminus]
      simp only [Bool.false_eq_true, if_false, htake]
      simp only [show ('-' : Char).toNat = 45 from rfl, true_or, if_true, htake,
        decide_True]
      simp

theorem parseInt10_toString (n : Int) : NewScenes.parseInt10 (toString n) = roundToDouble n := by
  cases n with
  | ofNat m =>
    obtain ⟨hne, hall, hval⟩ := toDigits_spec m
    have h := (parseInt10_digits (Nat.toDigits 10 m) [] hne hall (by simp)).1
    rw [hval, List.append_nil] at h
    exact h
  | negSucc m =>
    obtain ⟨hne, hall, hval⟩ := toDigits_spec (m + 1)
    have h := (parseInt10_digits (Nat.toDigits 10 (m + 1)) [] hne hall (by simp)).2
    rw [hval, List.append_nil] at h
    have hs : toString (Int.negSucc m) = String.mk ('-' :: Nat.toDigits 10 (m + 1)) := rfl
    rw [hs, h]
    rfl

theorem roundToDouble_safe (n : Int) (h : n.natAbs ≤ 2 ^ 53) :
    roundToDouble n = JSNumber.finite n := by
  simp only [roundToDouble, h, if_true]

theorem roundToDouble_ne_nan (n : Int) : roundToDouble n ≠ JSNumber.nan := by
  unfold roundToDouble
  simp only
  split
  · simp
  · split <;> split <;> simp

theorem toString_int_ne_empty (n : Int) : toString n ≠ "" := by
  intro h
  have := parseInt10_toString n
  rw [h] at this
  have hnone : NewScenes.parseInt10 "" = JSNumber.nan := by decide
  rw [hnone] at this
  exact roundToDouble_ne_nan n this.symm

theorem parseInt10_no_digit (c : Char) (rest : List Char)
    (hd : NewScenes.isDecimalDigit c = false) (hw : NewScenes.isJSWhitespace c = false)
    (hm : c.toNat ≠ 45) (hp : c.toNat ≠ 43) :
    NewScenes.parseInt10 (String.mk (c :: rest)) = JSNumber.nan := by
  simp [NewScenes.parseInt10, String.toList, List.dropWhile_cons, hw, hm, hp,
    List.takeWhile_cons, hd]

theorem saveDateRange_accepted (input : String) (st : NewScenes.Settings) (n : Int)
    (hp : NewScenes.parseInt10 input = JSNumber.finite n) (hn : 1 ≤ n) :
    NewScenes.saveDateRange input st
      = { storedDateRange := some (numberToString (JSNumber.finite n)),
          config := { st.config with defaultDateRange := JSNumber.finite n },
          processedPerformers := [] } := by
  have hnot : ¬ n < 1 := by omega
  simp [NewScenes.saveDateRange, hp, NewScenes.refusedRange, hnot]

/-- C19 fails on the code for a stored preference that is not the decimal rendering of an
integer the engine holds exactly.  A stored text abc gives the window NaN.  A value of
10^21 typed into the settings modal is accepted and stored as the text 1e+21, which a
reload reads as 1.  A typed 9007199254740993 is saved and used as 9007199254740992. -/
theorem C19_stored_text_counterexample :
    NewScenes.initialDateRange (some "abc") = JSNumber.nan
    ∧ NewScenes.parseInt10 "1000000000000000000000" = JSNumber.finite 1000000000000000000000
    ∧ (NewScenes.saveDateRange "1000000000000000000000"
        { storedDateRange := none, config := startConfig,
          processedPerformers := [] }).storedDateRange = some "1e+21"
    ∧ NewScenes.initialDateRange (some "1e+21") = JSNumber.finite 1
    ∧ (NewScenes.saveDateRange "9007199254740993"
        { storedDateRange := none, config := startConfig,
          processedPerformers := [] }).config.defaultDateRange
      = JSNumber.finite 9007199254740992
    ∧ (NewScenes.saveDateRange "9007199254740993"
        { storedDateRange := none, config := startConfig,
          processedPerformers := [] }).storedDateRange = some "9007199254740992" := by
  decide

/-- C19, amended: the recency window config.defaultDateRange is 7 when no preference or
the empty text is stored, and otherwise parseInt(stored, 10) of the stored text: the
integer n when the text is the decimal rendering of n and n is at most 2^53 in magnitude;
the Number nearest to the integer written by the leading digits when the text starts with
digits; NaN when the text starts with a character that is neither white space, a sign nor
a digit.  A text the Save handler accepts as a finite number n >= 1 puts n into
config.defaultDateRange, clears the guard set and stores String(n); the next iteration of
the driver's loop filters with the cutoff computed from n; and when n is at most 2^53 the
stored text is the decimal rendering of n, which a reload reads back as n.  A text that
parses to NaN, to minus infinity or to a number below 1 changes nothing. -/
theorem C19_recency_window_preference :
    NewScenes.initialDateRange none = JSNumber.finite 7
    ∧ NewScenes.initialDateRange (some "") = JSNumber.finite 7
    ∧ (∀ s : String, s ≠ "" → NewScenes.initialDateRange (some s) = NewScenes.parseInt10 s)
    ∧ (∀ n : Int, n.natAbs ≤ 2 ^ 53 →
        NewScenes.initialDateRange (some (toString n)) = JSNumber.finite n)
    ∧ (∀ ds rest : List Char, ds ≠ [] → (∀ c ∈ ds, NewScenes.isDecimalDigit c = true) →
        (∀ c, rest.head? = some c → NewScenes.isDecimalDigit c = false) →
        NewScenes.parseInt10 (String.mk (ds ++ rest))
          = roundToDouble (NewScenes.digitsValue ds : Int))
    ∧ (∀ (c : Char) (rest : List Char), NewScenes.isDecimalDigit c = false →
        NewScenes.isJSWhitespace c = false → c.toNat ≠ 45 → c.toNat ≠ 43 →
        NewScenes.parseInt10 (String.mk (c :: rest)) = JSNumber.nan)
    ∧ (∀ (input : String) (st : NewScenes.Settings) (n : Int),
        NewScenes.parseInt10 input = JSNumber.finite n → 1 ≤ n →
          (NewScenes.saveDateRange input st).config.defaultDateRange = JSNumber.finite n
          ∧ (NewScenes.saveDateRange input st).processedPerformers = []
          ∧ (NewScenes.saveDateRange input st).storedDateRange
              = some (numberToString (JSNumber.finite n))
          ∧ (n ≤ 2 ^ 53 →
              (NewScenes.saveDateRange input st).storedDateRange = some (toString n)
              ∧ NewScenes.initialDateRange (NewScenes.saveDateRange input st).storedDateRange
                  = JSNumber.finite n)
          ∧ (∀ (parse : String → Option Int) (zone : NewScenes.TimeZone) (clock : Nat → Int)
              (i : Nat) (p e x : String) (scenes : List JSVal) (st2 : NewScenes.DriverState)
              (cutoff : Int),
              NewScenes.cutoffDate zone (clock i) (JSNumber.finite n) = some cutoff →
              (∀ s ∈ scenes, s.isObject = true) →
              loopOnPerformer parse zone clock (NewScenes.saveDateRange input st).config
                  i p e x scenes st2
                = afterPerformer st2 p e x
                    (scenes.filter (NewScenes.releasedAfter parse cutoff))))
    ∧ (∀ (input : String) (st : NewScenes.Settings),
        (NewScenes.parseInt10 input = JSNumber.nan
          ∨ NewScenes.parseInt10 input = JSNumber.infinite true
          ∨ ∃ n, NewScenes.parseInt10 input = JSNumber.finite n ∧ n < 1) →
          NewScenes.saveDateRange input st = st)
    ∧ NewScenes.saveDateRange "14"
        { storedDateRange := none, config := startConfig, processedPerformers := ["3"] }
      = { storedDateRange := some "14",
          config := { startConfig with defaultDateRange := JSNumber.finite 14 },
          processedPerformers := [] } := by
  have hload : ∀ n : Int, n.natAbs ≤ 2 ^ 53 →
      NewScenes.initialDateRange (some (toString n)) = JSNumber.finite n := by
    intro n hn
    simp only [NewScenes.initialDateRange, ne_eq, toString_int_ne_empty n, not_false_eq_true,
      if_true, parseInt10_toString, roundToDouble_safe n hn]
  refine ⟨rfl, rfl, ?_, hload, ?_, parseInt10_no_digit, ?_, ?_, ?_⟩
  · intro s hs
    simp only [NewScenes.initialDateRange, ne_eq, hs, not_false_eq_true, if_true]
  · intro ds rest hne hall hstop
    exact (parseInt10_digits ds rest hne hall hstop).1
  · intro input st n hp hn
    rw [saveDateRange_accepted input st n hp hn]
    refine ⟨?_, ?_, ?_, ?_, ?_⟩
    · rfl
    · rfl
    · rfl
    · intro hle
      have hsafe : n.natAbs ≤ 2 ^ 53 := by omega
      have hstr : numberToString (JSNumber.finite n) = toString n := by
        simp only [numberToString, hsafe, if_true]
      rw [hstr]
      exact ⟨rfl, hload n hsafe⟩
    · intro parse zone clock i p e x scenes st2 cutoff hcut hrec
      exact loopOnPerformer_eq parse zone clock _ i p e x scenes st2 cutoff hcut hrec
  · intro input st h
    rcases h with h | h | ⟨n, h, hn⟩
    · simp [NewScenes.saveDateRange, h, NewScenes.refusedRange]
    · simp [NewScenes.saveDateRange, h, NewScenes.refusedRange]
    · simp [NewScenes.saveDateRange, h, NewScenes.refusedRange, hn]
  · rfl

/-! ## Purity of the two filters -/

theorem readArray_newArray_old (store : ArrayStore) (items : List JSVal) (ref : Nat)
    (h : ref < store.length) :
    readArray (newArray store items).1 ref = readArray store ref := by
  unfold readArray newArray
  simp only
  induction store generalizing ref with
  | nil => simp at h
  | cons a rest ih =>
    cases ref with
    | zero => rfl
    | succ k =>
      simp only [List.cons_append, List.getD_cons_succ]
      exact ih k (by simpa using h)

theorem readArray_newArray_new (store : ArrayStore) (items : List JSVal) :
    readArray (newArray store items).1 (newArray store items).2 = items := by
  unfold readArray newArray
  simp only
  induction store with
  | nil => rfl
  | cons a rest ih => simp

theorem length_newArray (store : ArrayStore) (items : List JSVal) :
    (newArray store items).1.length = store.length + 1 := by
  simp [newArray]

theorem mapE_ok {α β : Type} (f : α → Except JSError β) (g : α → β) (xs : List α)
    (h : ∀ x ∈ xs, f x = Except.ok (g x)) : mapE f xs = Except.ok (xs.map g) := by
  induction xs with
  | nil => rfl
  | cons x xs ih =>
    simp only [mapE, h x (List.mem_cons_self _ _),
      ih (fun y hy => h y (List.mem_cons_of_mem _ hy)), List.map_cons]

theorem compareScenes_records (loc rem : List JSVal)
    (hl : ∀ s ∈ loc, s.isObject = true) (hr : ∀ s ∈ rem, s.isObject = true) :
    RightClick.compareScenes loc rem
      = Except.ok (rem.filter (fun s =>
          !(setHas (newSet (loc.map (fun s => optGet s "title"))) (optGet s "title")))) := by
  unfold RightClick.compareScenes
  rw [mapE_ok _ (fun s => optGet s "title") loc (fun s hs => getProp_of_isObject s _ (hl s hs)),
    mapE_ok _ (fun s => optGet s "title") rem (fun s hs => getProp_of_isObject s _ (hr s hs))]
  simp only
  exact filterE_ok _ _ rem (fun s hs => by simp only [getProp_of_isObject s _ (hr s hs)])

theorem compareScenesOnStore_records (store : ArrayStore) (l r : Nat)
    (hrb : r < store.length)
    (hl : ∀ s ∈ readArray store l, s.isObject = true)
    (hr : ∀ s ∈ readArray store r, s.isObject = true) :
    RightClick.compareScenesOnStore store l r
      = Except.ok (store ++ [(readArray store l).map (fun s => optGet s "title"),
            (readArray store r).map (fun s => optGet s "title"),
            (readArray store r).filter (fun s =>
              !(setHas (newSet ((readArray store l).map (fun s => optGet s "title")))
                (optGet s "title")))],
          store.length + 2) := by
  unfold RightClick.compareScenesOnStore
  rw [mapE_ok _ (fun s => optGet s "title") _ (fun s hs => getProp_of_isObject s _ (hl s hs))]
  simp only
  rw [readArray_newArray_old store _ r hrb,
    mapE_ok _ (fun s => optGet s "title") _ (fun s hs => getProp_of_isObject s _ (hr s hs))]
  simp only
  rw [readArray_newArray_old _ _ r (by rw [length_newArray]; omega),
    readArray_newArray_old store _ r hrb,
    filterE_ok _ (fun s => !(setHas (newSet ((readArray store l).map
      (fun s => optGet s "title"))) (optGet s "title"))) _
      (fun s hs => by simp only [getProp_of_isObject s _ (hr s hs)])]
  simp [newArray]

theorem readArray_append_old (store extra : ArrayStore) (ref : Nat) (h : ref < store.length) :
    readArray (store ++ extra) ref = readArray store ref := by
  unfold readArray
  induction store generalizing ref with
  | nil => simp at h
  | cons a rest ih =>
    cases ref with
    | zero => rfl
    | succ k =>
      simp only [List.cons_append, List.getD_cons_succ]
      exact ih k (by simpa using h)

theorem readArray_append_new (store extra : ArrayStore) (k : Nat) :
    readArray (store ++ extra) (store.length + k) = readArray extra k := by
  unfold readArray
  induction store with
  | nil => simp
  | cons a rest ih =>
    simp only [List.cons_append, List.length_cons]
    rw [show rest.length + 1 + k = (rest.length + k) + 1 by omega, List.getD_cons_succ]
    exact ih

theorem hasOwn_mapValues {α β : Type} (f : α → β) (o : List (String × α)) (k : String) :
    hasOwn (o.map (fun g => (g.1, f g.2))) k = hasOwn o k := by
  induction o with
  | nil => rfl
  | cons p o ih =>
    obtain ⟨k2, v2⟩ := p
    simp only [List.map_cons, hasOwn_cons, ih]

theorem insertKey_mapValues {α β : Type} (f : α → β) (k : String) (v : α)
    (o : List (String × α)) :
    (insertKey k v o).map (fun g => (g.1, f g.2))
      = insertKey k (f v) (o.map (fun g => (g.1, f g.2))) := by
  induction o with
  | nil => rfl
  | cons p o ih =>
    obtain ⟨k2, v2⟩ := p
    simp only [insertKey, List.map_cons]
    split
    · rfl
    · simp only [List.map_cons, ih]

theorem setProp_mapValues {α β : Type} (f : α → β) (k : String) (v : α)
    (o : List (String × α)) :
    (setProp k v o).map (fun g => (g.1, f g.2))
      = setProp k (f v) (o.map (fun g => (g.1, f g.2))) := by
  unfold setProp
  rw [hasOwn_mapValues]
  split
  · simp only [List.map_map]
    apply List.map_congr_left
    intro p _
    simp only [Function.comp]
    split <;> rfl
  · exact insertKey_mapValues f k v o

theorem mem_insertKey {α : Type} (k : String) (v : α) (o : List (String × α))
    (a : String × α) (h : a ∈ insertKey k v o) : a = (k, v) ∨ a ∈ o := by
  induction o with
  | nil => simpa [insertKey] using h
  | cons p o ih =>
    obtain ⟨k2, v2⟩ := p
    simp only [insertKey] at h
    split at h
    · simpa using h
    · simp only [List.mem_cons] at h ⊢
      rcases h with h | h
      · exact Or.inr (Or.inl h)
      · rcases ih h with h2 | h2
        · exact Or.inl h2
        · exact Or.inr (Or.inr h2)

theorem snd_mem_setProp {α : Type} (k : String) (v : α) (o : List (String × α))
    (a : String × α) (h : a ∈ setProp k v o) : a.2 = v ∨ a ∈ o := by
  unfold setProp at h
  split at h
  · rw [List.mem_map] at h
    obtain ⟨p, hp, rfl⟩ := h
    split
    · exact Or.inl rfl
    · exact Or.inr hp
  · rcases mem_insertKey k v o a h with h2 | h2
    · exact Or.inl (by rw [h2])
    · exact Or.inr h2

theorem contentsOf_congr (s1 s2 : ArrayStore) (o : List (String × Nat))
    (h : ∀ a ∈ o, readArray s2 a.2 = readArray s1 a.2) :
    contentsOf s2 o = contentsOf s1 o := by
  unfold contentsOf
  apply List.map_congr_left
  intro a ha
  rw [h a ha]

theorem filterByDateOnStore_fold (parse : String → Option Int) (cutoff : Int)
    (groups : List (String × Nat)) :
    ∀ (st : ArrayStore) (acc : List (String × Nat)),
      (∀ g ∈ groups, g.2 < st.length) →
      (∀ g ∈ groups, ∀ s ∈ readArray st g.2, s.isObject = true) →
      (∀ a ∈ acc, a.2 < st.length) →
      ∃ st2 out,
        foldlE (fun (st : ArrayStore × List (String × Nat)) (group : String × Nat) =>
          match filterE (NewScenes.isRecent parse (some cutoff)) (readArray st.1 group.2) with
          | Except.error e => Except.error e
          | Except.ok filteredScenes =>
            Except.ok ((newArray st.1 filteredScenes).1,
              if filteredScenes.length > 0
              then setProp group.1 (newArray st.1 filteredScenes).2 st.2
              else st.2)) (st, acc) groups = Except.ok (st2, out)
        ∧ st.length ≤ st2.length
        ∧ (∀ ref, ref < st.length → readArray st2 ref = readArray st ref)
        ∧ contentsOf st2 out
            = (contentsOf st groups).foldl (keepGroup parse cutoff) (contentsOf st acc) := by
  induction groups with
  | nil =>
    intro st acc _ _ _
    exact ⟨st, acc, rfl, Nat.le_refl _, fun _ _ => rfl, rfl⟩
  | cons g rest ih =>
    intro st acc hb hrec hacc
    have hg := hb g (List.mem_cons_self _ _)
    have hfilter := filterE_ok (NewScenes.isRecent parse (some cutoff))
      (NewScenes.releasedAfter parse cutoff) (readArray st g.2)
      (fun s hs => isRecent_of_isObject parse cutoff s (hrec g (List.mem_cons_self _ _) s hs))
    have hold : ∀ ref, ref < st.length →
        readArray (newArray st ((readArray st g.2).filter
          (NewScenes.releasedAfter parse cutoff))).1 ref = readArray st ref :=
      fun ref h => readArray_newArray_old st _ ref h
    have hlen := length_newArray st ((readArray st g.2).filter
      (NewScenes.releasedAfter parse cutoff))
    obtain ⟨st2, out, hrun, hle, hkeep, hcont⟩ := ih
      (newArray st ((readArray st g.2).filter (NewScenes.releasedAfter parse cutoff))).1
      (if ((readArray st g.2).filter (NewScenes.releasedAfter parse cutoff)).length > 0
        then setProp g.1 (newArray st ((readArray st g.2).filter
          (NewScenes.releasedAfter parse cutoff))).2 acc
        else acc)
      (fun g2 hg2 => by rw [hlen]; exact Nat.lt_succ_of_lt (hb g2 (List.mem_cons_of_mem _ hg2)))
      (fun g2 hg2 s hs => by
        rw [hold g2.2 (hb g2 (List.mem_cons_of_mem _ hg2))] at hs
        exact hrec g2 (List.mem_cons_of_mem _ hg2) s hs)
      (fun a ha => by
        rw [hlen]
        split at ha
        · rcases snd_mem_setProp _ _ _ a ha with h | h
          · rw [h]; exact Nat.lt_succ_self _
          · exact Nat.lt_succ_of_lt (hacc a h)
        · exact Nat.lt_succ_of_lt (hacc a ha))
    refine ⟨st2, out, ?_, ?_, ?_, ?_⟩
    · simp only [foldlE, hfilter]
      exact hrun
    · rw [hlen] at hle
      omega
    · intro ref href
      rw [hkeep ref (by rw [hlen]; omega), hold ref href]
    · rw [hcont]
      have hrest : contentsOf (newArray st ((readArray st g.2).filter
          (NewScenes.releasedAfter parse cutoff))).1 rest = contentsOf st rest :=
        contentsOf_congr _ _ rest (fun a ha => hold a.2 (hb a (List.mem_cons_of_mem _ ha)))
      have hacc2 : contentsOf (newArray st ((readArray st g.2).filter
          (NewScenes.releasedAfter parse cutoff))).1 acc = contentsOf st acc :=
        contentsOf_congr _ _ acc (fun a ha => hold a.2 (hacc a ha))
      rw [hrest]
      show _ = List.foldl (keepGroup parse cutoff)
        (keepGroup parse cutoff (contentsOf st acc) (g.1, readArray st g.2)) (contentsOf st rest)
      congr 1
      unfold keepGroup
      simp only
      split
      · unfold contentsOf
        rw [setProp_mapValues (readArray (newArray st ((readArray st g.2).filter
          (NewScenes.releasedAfter parse cutoff))).1) g.1 _ acc, readArray_newArray_new]
        exact congrArg _ hacc2
      · exact hacc2

/-- C20: both filters are pure.  On arrays passed by reference (valid references to arrays
of records), running compareScenes twice, the second time in the store the first run
left, gives arrays with identical content, which is the result of compareScenes on the
contents; every array that existed before, the two inputs included, has the same content
after each run.  The same holds for the recency filter with a fixed cutoff on a map from
endpoints to arrays of scenes. -/
theorem C20_filters_are_pure (store : ArrayStore) (l r : Nat) (parse : String → Option Int)
    (cutoff : Int) (groups : List (String × Nat))
    (hlb : l < store.length) (hrb : r < store.length)
    (hl : ∀ s ∈ readArray store l, s.isObject = true)
    (hr : ∀ s ∈ readArray store r, s.isObject = true)
    (hgb : ∀ g ∈ groups, g.2 < store.length)
    (hgrec : ∀ g ∈ groups, ∀ s ∈ readArray store g.2, s.isObject = true) :
    (∃ s1 out1 s2 out2,
      RightClick.compareScenesOnStore store l r = Except.ok (s1, out1)
      ∧ RightClick.compareScenesOnStore s1 l r = Except.ok (s2, out2)
      ∧ readArray s2 out2 = readArray s1 out1
      ∧ RightClick.compareScenes (readArray store l) (readArray store r)
          = Except.ok (readArray s1 out1)
      ∧ (∀ ref, ref < store.length →
          readArray s1 ref = readArray store ref ∧ readArray s2 ref = readArray store ref))
    ∧ (∃ t1 o1 t2 o2,
      NewScenes.filterByDateOnStore parse (some cutoff) store groups = Except.ok (t1, o1)
      ∧ NewScenes.filterByDateOnStore parse (some cutoff) t1 groups = Except.ok (t2, o2)
      ∧ contentsOf t2 o2 = contentsOf t1 o1
      ∧ NewScenes.filterByDate parse (some cutoff) (contentsOf store groups)
          = Except.ok (contentsOf t1 o1)
      ∧ (∀ ref, ref < store.length →
          readArray t1 ref = readArray store ref ∧ readArray t2 ref = readArray store ref)) := by
  constructor
  · have h1 := compareScenesOnStore_records store l r hrb hl hr
    have hl1 : ∀ x, readArray (store ++ x) l = readArray store l :=
      fun x => readArray_append_old store x l hlb
    have hr1 : ∀ x, readArray (store ++ x) r = readArray store r :=
      fun x => readArray_append_old store x r hrb
    have h2 := compareScenesOnStore_records (store ++ [(readArray store l).map
        (fun s => optGet s "title"), (readArray store r).map (fun s => optGet s "title"),
        (readArray store r).filter (fun s =>
          !(setHas (newSet ((readArray store l).map (fun s => optGet s "title")))
            (optGet s "title")))]) l r
      (by rw [List.length_append]; omega)
      (by rw [hl1]; exact hl) (by rw [hr1]; exact hr)
    rw [hl1, hr1] at h2
    refine ⟨_, _, _, _, h1, h2, ?_, ?_, ?_⟩
    · rw [readArray_append_new _ _ 2, readArray_append_new _ _ 2]
    · rw [readArray_append_new _ _ 2, compareScenes_records _ _ hl hr]
      rfl
    · intro ref href
      refine ⟨readArray_append_old _ _ ref href, ?_⟩
      rw [readArray_append_old _ _ ref (by rw [List.length_append]; omega),
        readArray_append_old _ _ ref href]
  · obtain ⟨t1, o1, hrun1, hle1, hkeep1, hc1⟩ :=
      filterByDateOnStore_fold parse cutoff groups store [] hgb hgrec (by simp)
    have hsame : contentsOf t1 groups = contentsOf store groups :=
      contentsOf_congr _ _ groups (fun a ha => hkeep1 a.2 (hgb a ha))
    obtain ⟨t2, o2, hrun2, _, hkeep2, hc2⟩ :=
      filterByDateOnStore_fold parse cutoff groups t1 []
        (fun g hg => Nat.lt_of_lt_of_le (hgb g hg) hle1)
        (fun g hg s hs => by
          rw [hkeep1 g.2 (hgb g hg)] at hs
          exact hgrec g hg s hs)
        (by simp)
    refine ⟨t1, o1, t2, o2, hrun1, hrun2, ?_, ?_, ?_⟩
    · rw [hc2, hc1, hsame]
      rfl
    · rw [hc1, filterByDate_ok parse cutoff (contentsOf store groups)]
      · rfl
      · intro g hg s hs
        unfold contentsOf at hg
        rw [List.mem_map] at hg
        obtain ⟨g0, hg0, rfl⟩ := hg
        exact hgrec g0 hg0 s hs
    · intro ref href
      refine ⟨hkeep1 ref href, ?_⟩
      rw [hkeep2 ref (Nat.lt_of_lt_of_le href hle1), hkeep1 ref href]

/-- C20 on a store of two arrays: local scenes A, B and remote scenes A, C (dated 5 and
11). -/
theorem C20_filters_are_pure_witness :
    ∃ s1 out1 s2 out2,
      RightClick.compareScenesOnStore
          [[sceneAt "A" 5, sceneAt "B" 5], [sceneAt "A" 5, sceneAt "C" 11]] 0 1
        = Except.ok (s1, out1)
      ∧ RightClick.compareScenesOnStore s1 0 1 = Except.ok (s2, out2)
      ∧ readArray s2 out2 = readArray s1 out1
      ∧ readArray s1 1 = [sceneAt "A" 5, sceneAt "C" 11] := by
  obtain ⟨s1, out1, s2, out2, h1, h2, h3, -, h5⟩ := (C20_filters_are_pure
    [[sceneAt "A" 5, sceneAt "B" 5], [sceneAt "A" 5, sceneAt "C" 11]] 0 1 (fun _ => none) 10
    [("https://stashdb.org/graphql", 1)]
    (by decide) (by decide) (by decide) (by decide) (by decide) (by decide)).1
  exact ⟨s1, out1, s2, out2, h1, h2, h3, (h5 1 (by decide)).1⟩

/-! ## The result of one query -/

theorem responseData_body (b : JSVal) (herr : (optGet b "errors").truthy = false)
    (hdata : (optGet b "data").truthy = true) :
    NewScenes.responseData (FetchOutcome.body b) = optGet b "data" := by
  cases b with
  | obj ps => exact responseData_ok ps herr hdata
  | _ => simp [optGet, JSVal.truthy] at hdata

/-- C29: performGraphQLQuery always returns a value (its result is a value, never an
exception).  The value is not null exactly when the request completed with a body that
parsed, whose errors field is absent (or holds null or another falsy value) and whose data
field holds something truthy (an object); the value is then that data.  In every other
case the value is null: a failed request, a body that does not parse, a body with an
errors array (even next to data), a body without data.  A batched answer that carries the
data of performer0 next to an error for performer1 yields null. -/
theorem C29_query_result_or_null (net : Net) (endpoint : String) (query : Query)
    (apiKey : JSVal) :
    (((NewScenes.performGraphQLQuery net endpoint query apiKey).result ≠ JSVal.null)
      ↔ ∃ b, net (NewScenes.requestOf endpoint query apiKey) = FetchOutcome.body b
          ∧ (optGet b "errors").truthy = false ∧ (optGet b "data").truthy = true)
    ∧ (∀ b, net (NewScenes.requestOf endpoint query apiKey) = FetchOutcome.body b →
        (optGet b "errors").truthy = false → (optGet b "data").truthy = true →
        (NewScenes.performGraphQLQuery net endpoint query apiKey).result = optGet b "data")
    ∧ (∀ ps errors, net (NewScenes.requestOf endpoint query apiKey)
          = FetchOutcome.body (obj ps) → lookup ps "errors" = arr errors →
        (NewScenes.performGraphQLQuery net endpoint query apiKey).result = JSVal.null)
    ∧ (∀ ps d, net (NewScenes.requestOf endpoint query apiKey)
          = FetchOutcome.body (obj ps) → lookup ps "errors" = JSVal.undefined →
        lookup ps "data" = obj d →
        (NewScenes.performGraphQLQuery net endpoint query apiKey).result = obj d)
    ∧ (NewScenes.performGraphQLQuery
        (fun _ => FetchOutcome.body (obj
          [("data", obj [("performer0", obj [("stash_ids", arr [])]),
                         ("performer1", JSVal.null)]),
           ("errors", arr [obj [("message", str "performer not found")]])]))
        endpoint query apiKey).result = JSVal.null := by
  have hres : (NewScenes.performGraphQLQuery net endpoint query apiKey).result
      = NewScenes.responseData (net (NewScenes.requestOf endpoint query apiKey)) := rfl
  rw [hres]
  refine ⟨⟨?_, ?_⟩, ?_, ?_, ?_, rfl⟩
  · intro hne
    cases hout : net (NewScenes.requestOf endpoint query apiKey) with
    | networkError => rw [hout] at hne; exact absurd rfl hne
    | invalidBody => rw [hout] at hne; exact absurd rfl hne
    | body b =>
      rw [hout] at hne
      refine ⟨b, rfl, ?_, ?_⟩
      · cases he : (optGet b "errors").truthy
        · rfl
        · exact absurd (responseData_failed _ (Or.inr (Or.inr (Or.inl ⟨b, rfl, he⟩)))) hne
      · cases hd : (optGet b "data").truthy
        · exact absurd (responseData_failed _ (Or.inr (Or.inr (Or.inr ⟨b, rfl, hd⟩)))) hne
        · rfl
  · rintro ⟨b, hout, he, hd⟩
    rw [hout, responseData_body b he hd]
    intro hnull
    rw [hnull] at hd
    exact absurd hd (by decide)
  · intro b hout he hd
    rw [hout, responseData_body b he hd]
  · intro ps errors hout he
    rw [hout]
    exact responseData_failed _ (Or.inr (Or.inr (Or.inl ⟨obj ps, rfl, by
      show (lookup ps "errors").truthy = true
      rw [he]; rfl⟩)))
  · intro ps d hout he hd
    have h1 : (lookup ps "errors").truthy = false := by rw [he]; rfl
    have h2 : (lookup ps "data").truthy = true := by rw [hd]; rfl
    rw [hout, responseData_ok ps h1 h2, hd]

/-! ## Algebra of the missing-records filter -/

theorem sameValueZero_self (v : JSVal) (h : isPrimitive v = true) :
    sameValueZero v v = true := by
  cases v <;> simp_all [sameValueZero, isPrimitive]

/-- C27: for record sequences local and remote whose remote titles are primitive values
(strings, numbers, booleans, null, undefined), compareScenes(local, remote) returns a
sequence missing of which every record has a title equal to no local title; with the
missing records added to the local ones nothing is missing,
compareScenes(local ++ missing, remote) = []; and
compareScenes(local, missing) = missing. -/
theorem C27_missing_records_algebra (loc rem : List JSVal)
    (hl : ∀ s ∈ loc, s.isObject = true)
    (hr : ∀ s ∈ rem, s.isObject = true ∧ isPrimitive (optGet s "title") = true) :
    ∃ missing, RightClick.compareScenes loc rem = Except.ok missing
      ∧ (∀ s ∈ missing, ∀ l ∈ loc,
          sameValueZero (optGet l "title") (optGet s "title") = false)
      ∧ RightClick.compareScenes (loc ++ missing) rem = Except.ok []
      ∧ RightClick.compareScenes loc missing = Except.ok missing := by
  have hro : ∀ s ∈ rem, s.isObject = true := fun s hs => (hr s hs).1
  refine ⟨_, compareScenes_records loc rem hl hro, ?_, ?_, ?_⟩
  · intro s hs l hl1
    have h := (List.mem_filter.mp hs).2
    rw [setHas_newSet] at h
    simp only [Bool.not_eq_true', List.any_eq_false, List.mem_map, forall_exists_index,
      and_imp, forall_apply_eq_imp_iff₂] at h
    simpa using h l hl1
  · have hmo : ∀ s ∈ loc ++ rem.filter (fun s =>
        !(setHas (newSet (loc.map (fun s => optGet s "title"))) (optGet s "title"))),
        s.isObject = true := by
      intro s hs
      rcases List.mem_append.mp hs with h | h
      · exact hl s h
      · exact hro s (List.mem_filter.mp h).1
    rw [compareScenes_records _ rem hmo hro]
    congr 1
    rw [List.filter_eq_nil_iff]
    intro s hs
    have hin2 : setHas (newSet ((loc ++ rem.filter (fun s =>
        !(setHas (newSet (loc.map (fun s => optGet s "title"))) (optGet s "title")))).map
          (fun s => optGet s "title"))) (optGet s "title") = true := by
      rw [setHas_newSet, List.map_append, List.any_append]
      cases hin : (loc.map (fun s => optGet s "title")).any
          (fun y => sameValueZero y (optGet s "title"))
      · rw [Bool.false_or, List.any_eq_true]
        refine ⟨optGet s "title", List.mem_map.mpr ⟨s, List.mem_filter.mpr ⟨hs, ?_⟩, rfl⟩,
          sameValueZero_self _ (hr s hs).2⟩
        rw [setHas_newSet, hin]; rfl
      · rfl
    rw [hin2]
    decide
  · have hmo : ∀ s ∈ rem.filter (fun s =>
        !(setHas (newSet (loc.map (fun s => optGet s "title"))) (optGet s "title"))),
        s.isObject = true := fun s hs => hro s (List.mem_filter.mp hs).1
    rw [compareScenes_records loc _ hl hmo, List.filter_filter]
    congr 1
    apply List.filter_congr
    intro s _
    simp

theorem C27_missing_records_algebra_witness :
    ∃ missing, RightClick.compareScenes [obj (titled "A"), obj (titled "B")]
        [obj (titled "A"), obj (titled "C"), obj (titled "D"), obj (titled "C")]
        = Except.ok missing
      ∧ RightClick.compareScenes ([obj (titled "A"), obj (titled "B")] ++ missing)
          [obj (titled "A"), obj (titled "C"), obj (titled "D"), obj (titled "C")]
          = Except.ok []
      ∧ RightClick.compareScenes [obj (titled "A"), obj (titled "B")] missing
          = Except.ok missing := by
  obtain ⟨missing, h1, -, h2, h3⟩ := C27_missing_records_algebra
    [obj (titled "A"), obj (titled "B")]
    [obj (titled "A"), obj (titled "C"), obj (titled "D"), obj (titled "C")]
    (by decide) (by decide)
  exact ⟨missing, h1, h2, h3⟩

/-! ## Scene links -/

theorem includes_iff (s sub : String) :
    includes s sub = true ↔ ∃ a b : List Char, s.toList = a ++ sub.toList ++ b := by
  unfold includes
  rw [List.any_eq_true]
  constructor
  · rintro ⟨t, ht, hp⟩
    obtain ⟨a, ha⟩ := (List.mem_tails _ _).mp ht
    obtain ⟨b, hb⟩ := List.isPrefixOf_iff_prefix.mp hp
    exact ⟨a, b, by rw [← ha, ← hb, List.append_assoc]⟩
  · rintro ⟨a, b, h⟩
    refine ⟨sub.toList ++ b, (List.mem_tails _ _).mpr ⟨a, ?_⟩,
      List.isPrefixOf_iff_prefix.mpr ⟨b, rfl⟩⟩
    rw [h, List.append_assoc]

/-- C25 fails on the code for a configured provider other than the three the function
knows: JAVStash passes the registry filter, and the link generated for one of its scenes
is on the host stashdb.org, not on javstash.org; a provider at the old FansDB address
https://fansdb.xyz/graphql gets a link on fansdb.cc. -/
theorem C25_other_provider_counterexample :
    storedEndpoints (NewScenes.getAllStashBoxes
        (fun _ => FetchOutcome.body (obj (registryBody
          [provider "https://javstash.org/graphql" "k" "JAVStash"]))) startConfig).result
      = ["https://javstash.org/graphql"]
    ∧ NewScenes.generateSceneUrl "https://javstash.org/graphql" (str "abc")
      = "https://stashdb.org/scenes/abc"
    ∧ hostOf (NewScenes.generateSceneUrl "https://javstash.org/graphql" (str "abc"))
      = "stashdb.org"
    ∧ hostOf "https://javstash.org/graphql" = "javstash.org"
    ∧ NewScenes.generateSceneUrl "https://fansdb.xyz/graphql" (str "abc")
      = "https://fansdb.cc/scenes/abc"
    ∧ hostOf "https://fansdb.xyz/graphql" = "fansdb.xyz" := by
  decide

/-- C25, amended: for every endpoint and scene id, generateSceneUrl returns
https://pmvstash.org/scenes/<id> when the endpoint contains pmvstash, otherwise
https://fansdb.cc/scenes/<id> when it contains fansdb, otherwise
https://stashdb.org/scenes/<id>, where <id> is the id rendered as a string and an
endpoint contains a word when the word occurs in it as a contiguous run of characters.
The host of the link is therefore pmvstash.org, fansdb.cc or stashdb.org according to the
word the endpoint contains, whatever the host of the endpoint; it is the provider's own
host for the providers https://pmvstash.org/graphql, https://fansdb.cc/graphql and
https://stashdb.org/graphql. -/
theorem C25_scene_link (endpoint : String) (stashId : JSVal) :
    (includes endpoint "pmvstash" = true →
      NewScenes.generateSceneUrl endpoint stashId
        = "https://pmvstash.org/scenes/" ++ stashId.toStr)
    ∧ (includes endpoint "pmvstash" = false → includes endpoint "fansdb" = true →
      NewScenes.generateSceneUrl endpoint stashId
        = "https://fansdb.cc/scenes/" ++ stashId.toStr)
    ∧ (includes endpoint "pmvstash" = false → includes endpoint "fansdb" = false →
      NewScenes.generateSceneUrl endpoint stashId
        = "https://stashdb.org/scenes/" ++ stashId.toStr)
    ∧ (∀ word : String, includes endpoint word = true
        ↔ ∃ a b : List Char, endpoint.toList = a ++ word.toList ++ b)
    ∧ (includes endpoint "pmvstash" = true →
      hostOf (NewScenes.generateSceneUrl endpoint stashId) = "pmvstash.org")
    ∧ (includes endpoint "pmvstash" = false → includes endpoint "fansdb" = true →
      hostOf (NewScenes.generateSceneUrl endpoint stashId) = "fansdb.cc")
    ∧ (includes endpoint "pmvstash" = false → includes endpoint "fansdb" = false →
      hostOf (NewScenes.generateSceneUrl endpoint stashId) = "stashdb.org")
    ∧ hostOf (NewScenes.generateSceneUrl "https://pmvstash.org/graphql" stashId)
        = hostOf "https://pmvstash.org/graphql"
    ∧ hostOf (NewScenes.generateSceneUrl "https://fansdb.cc/graphql" stashId)
        = hostOf "https://fansdb.cc/graphql"
    ∧ hostOf (NewScenes.generateSceneUrl "https://stashdb.org/graphql" stashId)
        = hostOf "https://stashdb.org/graphql"
    ∧ NewScenes.generateSceneUrl "https://stashdb.org/graphql" (num 1000000000000000000000)
        = "https://stashdb.org/scenes/1e+21" := by
  have h1 : includes endpoint "pmvstash" = true →
      NewScenes.generateSceneUrl endpoint stashId
        = "https://pmvstash.org/scenes/" ++ stashId.toStr := by
    intro h
    simp [NewScenes.generateSceneUrl, h]
  have h2 : includes endpoint "pmvstash" = false → includes endpoint "fansdb" = true →
      NewScenes.generateSceneUrl endpoint stashId
        = "https://fansdb.cc/scenes/" ++ stashId.toStr := by
    intro h1 h2
    simp [NewScenes.generateSceneUrl, h1, h2]
  have h3 : includes endpoint "pmvstash" = false → includes endpoint "fansdb" = false →
      NewScenes.generateSceneUrl endpoint stashId
        = "https://stashdb.org/scenes/" ++ stashId.toStr := by
    intro h1 h2
    simp [NewScenes.generateSceneUrl, h1, h2]
  refine ⟨h1, h2, h3, fun word => includes_iff endpoint word, ?_, ?_, ?_, ?_, ?_, ?_, ?_⟩
  · intro h
    rw [h1 h]
    rfl
  · intro ha hb
    rw [h2 ha hb]
    rfl
  · intro ha hb
    rw [h3 ha hb]
    rfl
  · rw [show NewScenes.generateSceneUrl "https://pmvstash.org/graphql" stashId
        = "https://pmvstash.org/scenes/" ++ stashId.toStr from by
      unfold NewScenes.generateSceneUrl
      rw [if_pos (by decide)]]
    rfl
  · rw [show NewScenes.generateSceneUrl "https://fansdb.cc/graphql" stashId
        = "https://fansdb.cc/scenes/" ++ stashId.toStr from by
      unfold NewScenes.generateSceneUrl
      rw [if_neg (by decide), if_pos (by decide)]]
    rfl
  · rw [show NewScenes.generateSceneUrl "https://stashdb.org/graphql" stashId
        = "https://stashdb.org/scenes/" ++ stashId.toStr from by
      unfold NewScenes.generateSceneUrl
      rw [if_neg (by decide), if_neg (by decide)]]
    rfl
  · decide

/-! ## The performer id of a detail page -/

/-- C24 fails on the code: for the URL of a performer detail page in which the digits end
the URL, or are followed by a query string, getPerformerIDFromURL returns null; it
returns the digits only when a slash follows them.  The pattern the badge plugin uses for
the same path finds the id in all three. -/
theorem C24_id_needs_trailing_slash :
    RightClick.getPerformerIDFromURL "http://localhost:9999/performers/12" = JSVal.null
    ∧ RightClick.getPerformerIDFromURL "http://localhost:9999/performers/12?page=2"
        = JSVal.null
    ∧ RightClick.getPerformerIDFromURL "http://localhost:9999/performers/12/scenes"
        = str "12"
    ∧ RightClick.getPerformerIDFromURL "http://localhost:9999/scenes" = JSVal.null
    ∧ NewScenes.hrefPerformerId "http://localhost:9999/performers/12" = some "12"
    ∧ NewScenes.hrefPerformerId "http://localhost:9999/performers/12?page=2" = some "12"
    ∧ NewScenes.hrefPerformerId "http://localhost:9999/performers/12/scenes"
        = some "12" := by
  refine ⟨rfl, rfl, rfl, rfl, ?_, ?_, ?_⟩ <;> decide

/-! ## The TPDB identity of a performer -/

/-- C28 fails on the code: with TPDB configured under the endpoint
https://theporndb.net/graphql?type=Movie (which tpdbConfig accepts, and to which the
image request is sent) and a performer whose external ID t1 is held under that endpoint,
fetchPerformerIDs returns an undefined tpdbID.  It returns t1 only when the ID is held
under exactly https://theporndb.net/graphql. -/
theorem C28_suffixed_endpoint_id_lost :
    RightClick.tpdbConfig
        [provider "https://stashdb.org/graphql" "k1" "StashDB",
         provider "https://theporndb.net/graphql?type=Movie" "k2" "TPDB"]
      = Except.ok (provider "https://theporndb.net/graphql?type=Movie" "k2" "TPDB")
    ∧ RightClick.tpdbEndpoint
        [provider "https://stashdb.org/graphql" "k1" "StashDB",
         provider "https://theporndb.net/graphql?type=Movie" "k2" "TPDB"]
      = Except.ok (str "https://theporndb.net/graphql?type=Movie")
    ∧ RightClick.fetchPerformerIDs (Except.ok (performerResponse
        [stashId "https://stashdb.org/graphql" "s1",
         stashId "https://theporndb.net/graphql?type=Movie" "t1"]))
      = obj [("stashDBID", str "s1"), ("tpdbID", JSVal.undefined)]
    ∧ RightClick.fetchPerformerIDs (Except.ok (performerResponse
        [stashId "https://stashdb.org/graphql" "s1",
         stashId "https://theporndb.net/graphql" "t1"]))
      = obj [("stashDBID", str "s1"), ("tpdbID", str "t1")] :=
  ⟨rfl, rfl, rfl, rfl⟩

/-! ## Attribution of scenes to a performer -/

/-- C26 fails on the code: performer 1 holds x at StashDB and y at FansDB, performer 2
holds y at StashDB.  The index holds at StashDB one scene under x and one under y.  The
aggregation for performer 1 under StashDB returns both scenes, the second of which was
fetched under an ID that performer 1 holds only at FansDB and that at StashDB belongs to
performer 2; a run of the driver hands both to the icon of performer 1. -/
theorem C26_scene_of_other_endpoint_attributed :
    NewScenes.aggregateScenes
        [("https://stashdb.org/graphql",
          [("x", arr [sceneAt "own" 9]), ("y", arr [sceneAt "foreign" 9])])]
        (objValues [("https://stashdb.org/graphql", str "x"),
                    ("https://fansdb.cc/graphql", str "y")])
      = Except.ok [("https://stashdb.org/graphql", [sceneAt "own" 9, sceneAt "foreign" 9])]
    ∧ NewScenes.aggregateScenes
        [("https://stashdb.org/graphql",
          [("x", arr [sceneAt "own" 9]), ("y", arr [sceneAt "foreign" 9])])]
        (objValues [("https://stashdb.org/graphql", str "y")])
      = Except.ok [("https://stashdb.org/graphql", [sceneAt "foreign" 9])]
    ∧ (NewScenes.processPerformerCards
        (worldNet
          [("performer0", obj [("stash_ids", arr
              [stashId "https://stashdb.org/graphql" "x",
               stashId "https://fansdb.cc/graphql" "y"])]),
           ("performer1", obj [("stash_ids", arr
              [stashId "https://stashdb.org/graphql" "y"])])]
          [("https://stashdb.org/graphql",
            [("stash0", scenesField [sceneAt "own" 9]),
             ("stash1", scenesField [sceneAt "foreign" 9])])])
        (fun _ => none) utcZone (fun _ => 0) stashdbConfig [some "1", some "2"] []).icons.map
          (fun icon => (icon.performerId, icon.filteredStashScenesMap))
      = [("1", [("https://stashdb.org/graphql", [sceneAt "own" 9, sceneAt "foreign" 9])]),
         ("2", [("https://stashdb.org/graphql", [sceneAt "foreign" 9])])] :=
  ⟨rfl, rfl, rfl⟩

/-! ## The tag list of an update -/

theorem setHas_map_str (acc : List String) (x : String) :
    setHas (acc.map str) (str x) = decide (x ∈ acc) := by
  induction acc with
  | nil => rfl
  | cons a acc ih =>
    have ih2 : (acc.map str).any (fun y => sameValueZero y (str x)) = decide (x ∈ acc) := ih
    simp only [setHas, List.map_cons, List.any_cons, sameValueZero_str, ih2, List.mem_cons]
    by_cases h1 : a = x
    · subst h1; simp
    · have h2 : ¬ x = a := fun h => h1 h.symm
      simp [h1, h2]

theorem mem_firstOccurrences (xs : List String) (y : String) :
    y ∈ firstOccurrences xs ↔ y ∈ xs := by
  induction xs with
  | nil => simp [firstOccurrences]
  | cons x xs ih =>
    simp only [firstOccurrences, List.mem_cons, List.mem_filter, ih, bne_iff_ne, ne_eq]
    by_cases h : y = x <;> simp [h]

theorem nodup_firstOccurrences (xs : List String) : (firstOccurrences xs).Nodup := by
  induction xs with
  | nil => simp [firstOccurrences]
  | cons x xs ih =>
    simp only [firstOccurrences, List.nodup_cons, List.mem_filter, bne_self_eq_false,
      Bool.false_eq_true, and_false, not_false_eq_true, true_and]
    exact ih.filter _

theorem firstOccurrences_of_nodup (xs : List String) (h : xs.Nodup) :
    firstOccurrences xs = xs := by
  induction xs with
  | nil => rfl
  | cons x xs ih =>
    rw [List.nodup_cons] at h
    simp only [firstOccurrences, ih h.2]
    congr 1
    rw [List.filter_eq_self]
    intro y hy
    simp only [bne_iff_ne, ne_eq]
    rintro rfl
    exact h.1 hy

theorem firstOccurrences_cons (x : String) (xs : List String) :
    firstOccurrences (x :: xs) = x :: (firstOccurrences xs).filter (fun y => y != x) := rfl

theorem firstOccurrences_append (a b : List String) :
    firstOccurrences (a ++ b)
      = firstOccurrences a ++ (firstOccurrences b).filter (fun y => decide (y ∉ a)) := by
  induction a with
  | nil => simp [firstOccurrences]
  | cons x a ih =>
    rw [List.cons_append, firstOccurrences_cons, firstOccurrences_cons, ih,
      List.filter_append, List.filter_filter, List.cons_append]
    congr 2
    apply List.filter_congr
    intro y _
    by_cases h : y = x <;> simp [h]

theorem foldl_setAdd_str (xs acc : List String) :
    (xs.map str).foldl setAdd (acc.map str)
      = (acc ++ (firstOccurrences xs).filter (fun y => decide (y ∉ acc))).map str := by
  induction xs generalizing acc with
  | nil => simp [firstOccurrences]
  | cons x xs ih =>
    simp only [List.map_cons, List.foldl_cons]
    by_cases hx : x ∈ acc
    · have h1 : setAdd (acc.map str) (str x) = acc.map str := by
        simp [setAdd, setHas_map_str, hx]
      rw [h1, ih acc]
      congr 2
      simp only [firstOccurrences, List.filter_cons, hx, not_true_eq_false, decide_False,
        Bool.false_eq_true, if_false, List.filter_filter]
      apply List.filter_congr
      intro y _
      by_cases h : y = x
      · subst h; simp [hx]
      · simp [h]
    · have h1 : setAdd (acc.map str) (str x) = (acc ++ [x]).map str := by
        simp [setAdd, setHas_map_str, hx]
      rw [h1, ih (acc ++ [x])]
      congr 1
      simp only [firstOccurrences, List.filter_cons, hx, not_false_eq_true, decide_True,
        if_true, List.filter_filter, List.append_assoc, List.singleton_append]
      congr 2
      apply List.filter_congr
      intro y _
      by_cases h : y = x <;> simp [h]

theorem newSet_str (xs : List String) :
    newSet (xs.map str) = (firstOccurrences xs).map str := by
  have h := foldl_setAdd_str xs []
  simpa [newSet] using h

theorem addTagsToPerformer_tagsResponse (ids newTagIds : List JSVal) :
    RightClick.addTagsToPerformer (tagsResponse ids) newTagIds
      = Except.ok (newSet (ids ++ newTagIds)) := by
  have h : mapE (fun tag => getProp tag "id") (ids.map (fun id => obj [("id", id)]))
      = Except.ok ((ids.map (fun id => obj [("id", id)])).map (fun tag => optGet tag "id")) :=
    mapE_ok _ _ _ (fun x hx => by
      obtain ⟨id, _, rfl⟩ := List.mem_map.mp hx
      rfl)
  have h2 : (ids.map (fun id => obj [("id", id)])).map (fun tag => optGet tag "id") = ids := by
    rw [List.map_map]
    conv_rhs => rw [← List.map_id ids]
    apply List.map_congr_left
    intro a _
    rfl
  rw [h2] at h
  show (match mapE (fun tag => getProp tag "id") (ids.map (fun id => obj [("id", id)])) with
    | Except.error e => Except.error e
    | Except.ok existingTags => Except.ok (newSet (existingTags ++ newTagIds))) = _
  rw [h]

/-- C22: for every list of existing tag IDs and every list of new tag IDs (strings), the
list addTagsToPerformer sends is the concatenation existing ++ new with each ID kept at
its first occurrence only: the existing IDs come first, then the new IDs that are not
existing ones; no ID occurs twice; an ID is sent exactly when it is an existing or a new
one.  When the performer's tags have become the list sent and the same new tags are added
again, the same list is sent. -/
theorem C22_combined_tag_ids (existing new : List String) :
    RightClick.addTagsToPerformer (tagsResponse (existing.map str)) (new.map str)
      = Except.ok ((firstOccurrences (existing ++ new)).map str)
    ∧ firstOccurrences (existing ++ new)
      = firstOccurrences existing
          ++ (firstOccurrences new).filter (fun id => decide (id ∉ existing))
    ∧ (firstOccurrences (existing ++ new)).Nodup
    ∧ (∀ id, id ∈ firstOccurrences (existing ++ new) ↔ id ∈ existing ∨ id ∈ new)
    ∧ (existing.Nodup → firstOccurrences existing = existing)
    ∧ RightClick.addTagsToPerformer
        (tagsResponse ((firstOccurrences (existing ++ new)).map str)) (new.map str)
      = Except.ok ((firstOccurrences (existing ++ new)).map str) := by
  refine ⟨?_, firstOccurrences_append _ _, nodup_firstOccurrences _, ?_,
    firstOccurrences_of_nodup _, ?_⟩
  · rw [addTagsToPerformer_tagsResponse, ← List.map_append, newSet_str]
  · intro id
    rw [mem_firstOccurrences, List.mem_append]
  · rw [addTagsToPerformer_tagsResponse, ← List.map_append, newSet_str,
      firstOccurrences_append,
      firstOccurrences_of_nodup _ (nodup_firstOccurrences _)]
    congr 2
    conv_rhs => rw [← List.append_nil (firstOccurrences (existing ++ new))]
    congr 1
    rw [List.filter_eq_nil_iff]
    intro y hy
    have : y ∈ firstOccurrences (existing ++ new) := by
      rw [mem_firstOccurrences, List.mem_append]
      exact Or.inr ((mem_firstOccurrences _ _).mp hy)
    simp [this]

/-! ## The paging loop -/

theorem pagingLoop_step (f : Nat → Option RightClick.QueryScenes) (fuel page : Nat)
    (requested : List Nat) (acc : List JSVal) (result : RightClick.QueryScenes)
    (h : f page = some result) :
    RightClick.pagingLoop f (fuel + 1) page requested acc
      = if ((acc ++ result.scenes).length : Int) ≥ result.count ∨ result.scenes.length < 25
        then some (requested ++ [page], Except.ok (acc ++ result.scenes))
        else RightClick.pagingLoop f fuel (page + 1) (requested ++ [page])
          (acc ++ result.scenes) := by
  rw [RightClick.pagingLoop, h]

theorem pagingLoop_paged (all : List JSVal) (k : Nat) :
    ∀ (extra p : Nat), 1 ≤ p → p + k = max 1 ((all.length + 24) / 25) →
      RightClick.pagingLoop (pagedServer all) (extra + (k + 1)) p (List.range' 1 (p - 1))
          (all.take (25 * (p - 1)))
        = some (List.range' 1 (max 1 ((all.length + 24) / 25)), Except.ok all) := by
  induction k with
  | zero =>
    intro extra p hp hn
    have hacc : all.take (25 * (p - 1)) ++ (all.drop (25 * (p - 1))).take 25
        = all.take (25 * (p - 1) + 25) := (List.take_add _ _ _).symm
    rw [show extra + (0 + 1) = extra + 1 from rfl,
      pagingLoop_step _ _ _ _ _ ⟨(all.drop (25 * (p - 1))).take 25, all.length⟩ rfl]
    simp only [hacc]
    have hall : all.take (25 * (p - 1) + 25) = all := by
      apply List.take_of_length_le
      omega
    rw [hall, if_pos (Or.inl (le_refl _))]
    have hr : List.range' 1 (p - 1) ++ [p] = List.range' 1 (max 1 ((all.length + 24) / 25)) := by
      rw [← hn, Nat.add_zero]
      have : p = (p - 1) + 1 := by omega
      conv_rhs => rw [this, List.range'_1_concat]
      congr 2
      omega
    rw [hr]
  | succ k ih =>
    intro extra p hp hn
    have hacc : all.take (25 * (p - 1)) ++ (all.drop (25 * (p - 1))).take 25
        = all.take (25 * (p - 1) + 25) := (List.take_add _ _ _).symm
    have hlt : 25 * p < all.length := by omega
    rw [show extra + (k + 1 + 1) = (extra + (k + 1)) + 1 from rfl,
      pagingLoop_step _ _ _ _ _ ⟨(all.drop (25 * (p - 1))).take 25, all.length⟩ rfl]
    simp only [hacc]
    have hlen : (all.take (25 * (p - 1) + 25)).length = 25 * p := by
      rw [List.length_take]
      omega
    have hpage : ((all.drop (25 * (p - 1))).take 25).length = 25 := by
      rw [List.length_take, List.length_drop]
      omega
    rw [if_neg (by rw [hlen, hpage]; omega)]
    have hr : List.range' 1 (p - 1) ++ [p] = List.range' 1 (p + 1 - 1) := by
      have : p + 1 - 1 = (p - 1) + 1 := by omega
      rw [this, List.range'_1_concat]
      congr 2
      omega
    have ht : all.take (25 * (p - 1) + 25) = all.take (25 * (p + 1 - 1)) := by
      congr 1
      omega
    rw [hr, ht]
    exact ih extra (p + 1) (by omega) (by omega)

/-- C30: against a provider that holds c scenes of the performer and serves them in pages
of 25, each answer reporting the total c, the paging loop ends (given fuel for at least
max(1, ceil(c/25)) iterations, whatever fuel is left over) after requesting the pages
1, 2, ..., max(1, ceil(c/25)) in this order, each once, and stashDBScenes is then the
sequence of all c scenes in page order; every page requested after the first one holds a
scene. -/
theorem C30_paging_loop_collects_all (all : List JSVal) (extra : Nat) :
    RightClick.fetchAllPages (pagedServer all) (max 1 ((all.length + 24) / 25) + extra)
      = some (List.range' 1 (max 1 ((all.length + 24) / 25)), Except.ok all)
    ∧ (List.range' 1 (max 1 ((all.length + 24) / 25))).length
      = max 1 ((all.length + 24) / 25)
    ∧ (∀ p ∈ List.range' 1 (max 1 ((all.length + 24) / 25)), p ≠ 1 →
        ∀ q, pagedServer all p = some q → q.scenes ≠ []) := by
  refine ⟨?_, List.length_range' _ _ _, ?_⟩
  · have hfuel : max 1 ((all.length + 24) / 25) + extra
        = extra + ((max 1 ((all.length + 24) / 25) - 1) + 1) := by omega
    rw [hfuel]
    exact pagingLoop_paged all _ extra 1 (le_refl _) (by omega)
  · intro p hp hp1 q hq
    rw [List.mem_range'_1] at hp
    simp only [pagedServer, Option.some.injEq] at hq
    subst hq
    simp only [ne_eq, List.take_eq_nil_iff, List.drop_eq_nil_iff, not_or, not_le]
    constructor
    · decide
    · omega

/-! ## Debouncing of the driver -/

theorem debounced_first {α : Type} (t : Nat) (a : α) :
    NewScenes.debouncedProcessPerformerCards t a NewScenes.Debounced.fresh
      = { timeoutId := some 1, pending := [{ id := 1, due := t + 300, args := a }],
          nextId := 2, started := [] } := rfl

theorem debounced_next {α : Type} (id t t2 n : Nat) (a a2 : α) (hid : id ≠ 0)
    (h1 : t ≤ t2) (h2 : t2 < t + 300) :
    NewScenes.debouncedProcessPerformerCards t2 a2
        { timeoutId := some id, pending := [{ id := id, due := t + 300, args := a }],
          nextId := n, started := [] }
      = { timeoutId := some n, pending := [{ id := n, due := t2 + 300, args := a2 }],
          nextId := n + 1, started := [] } := by
  have hnot : ¬ (t + 300 ≤ t2) := by omega
  simp [NewScenes.debouncedProcessPerformerCards, NewScenes.debounce, NewScenes.elapse,
    NewScenes.clearTimeout, h2, hnot, hid]

theorem triggerAll_chain {α : Type} (rest : List (Nat × α)) :
    ∀ (id n : Nat) (e : Nat × α), id ≠ 0 → n ≠ 0 →
      List.Chain (fun a b => a.1 ≤ b.1 ∧ b.1 < a.1 + 300) e rest →
      ∃ id2 n2, id2 ≠ 0 ∧ n2 ≠ 0 ∧
        NewScenes.triggerAll rest
            { timeoutId := some id, pending := [{ id := id, due := e.1 + 300, args := e.2 }],
              nextId := n, started := [] }
          = { timeoutId := some id2,
              pending := [{ id := id2, due := (rest.getLastD e).1 + 300,
                            args := (rest.getLastD e).2 }],
              nextId := n2, started := [] } := by
  induction rest with
  | nil =>
    intro id n e hid hn _
    exact ⟨id, n, hid, hn, rfl⟩
  | cons e2 rest ih =>
    intro id n e hid hn hchain
    rw [List.chain_cons] at hchain
    obtain ⟨id2, n2, h1, h2, h3⟩ := ih n (n + 1) e2 hn (Nat.succ_ne_zero n) hchain.2
    refine ⟨id2, n2, h1, h2, ?_⟩
    rw [List.getLastD_cons, ← h3]
    show NewScenes.triggerAll rest (NewScenes.debouncedProcessPerformerCards e2.1 e2.2 _) = _
    rw [debounced_next id e.1 e2.1 n e.2 e2.2 hid hchain.1.1 hchain.1.2]

theorem triggerAll_burst {α : Type} (first : Nat × α) (rest : List (Nat × α))
    (hburst : List.Chain (fun a b => a.1 ≤ b.1 ∧ b.1 < a.1 + 300) first rest) :
    ∃ id n, NewScenes.triggerAll (first :: rest) NewScenes.Debounced.fresh
      = { timeoutId := some id,
          pending := [{ id := id, due := (rest.getLastD first).1 + 300,
                        args := (rest.getLastD first).2 }],
          nextId := n, started := [] } := by
  obtain ⟨id2, n2, -, -, h⟩ := triggerAll_chain rest 1 2 first (by decide) (by decide) hburst
  refine ⟨id2, n2, ?_⟩
  rw [← h]
  rfl

theorem chain_take {α : Type} (R : α → α → Prop) (l : List α) :
    ∀ (a : α) (k : Nat), List.Chain R a l → List.Chain R a (l.take k) := by
  induction l with
  | nil => intro a k h; simp
  | cons b l ih =>
    intro a k h
    cases k with
    | zero => exact List.Chain.nil
    | succ k =>
      rw [List.chain_cons] at h
      rw [List.take_succ_cons, List.chain_cons]
      exact ⟨h.1, ih b k h.2⟩

/-- C21: for a burst of calls of the debounced driver, first and then rest, in which
every call comes less than 300 ms after the one before it: while the burst goes on (after
any number of its calls) no run has started; up to 300 ms after the last call no run has
started; and from 300 ms after the last call on exactly one run has started, at the last
call's time plus 300 ms and with the last call's arguments. -/
theorem C21_burst_starts_one_run {α : Type} (first : Nat × α) (rest : List (Nat × α))
    (hburst : List.Chain (fun a b => a.1 ≤ b.1 ∧ b.1 < a.1 + 300) first rest) :
    (∀ k, (NewScenes.triggerAll ((first :: rest).take k) NewScenes.Debounced.fresh).started
        = [])
    ∧ (∀ t, t < (rest.getLastD first).1 + 300 →
        (NewScenes.elapse t
          (NewScenes.triggerAll (first :: rest) NewScenes.Debounced.fresh)).started = [])
    ∧ (∀ t, (rest.getLastD first).1 + 300 ≤ t →
        (NewScenes.elapse t
          (NewScenes.triggerAll (first :: rest) NewScenes.Debounced.fresh)).started
          = [((rest.getLastD first).1 + 300, (rest.getLastD first).2)]) := by
  obtain ⟨id, n, h⟩ := triggerAll_burst first rest hburst
  refine ⟨?_, ?_, ?_⟩
  · intro k
    cases k with
    | zero => rfl
    | succ k =>
      rw [List.take_succ_cons]
      obtain ⟨id2, n2, h2⟩ := triggerAll_burst first (rest.take k) (chain_take _ rest first k hburst)
      rw [h2]
  · intro t ht
    rw [h]
    have hnot : ¬ ((rest.getLastD first).1 + 300 ≤ t) := by omega
    simp [NewScenes.elapse, hnot, -List.getLastD_eq_getLast?]
  · intro t ht
    rw [h]
    simp [NewScenes.elapse, ht, -List.getLastD_eq_getLast?]

theorem C21_burst_starts_one_run_witness :
    List.Chain (fun a b : Nat × String => a.1 ≤ b.1 ∧ b.1 < a.1 + 300) (0, "a")
        [(100, "b"), (399, "c")]
    ∧ (NewScenes.triggerAll (List.take 2 [(0, "a"), (100, "b"), (399, "c")])
        NewScenes.Debounced.fresh).started = []
    ∧ (NewScenes.elapse 698 (NewScenes.triggerAll [(0, "a"), (100, "b"), (399, "c")]
        NewScenes.Debounced.fresh)).started = []
    ∧ (NewScenes.elapse 699 (NewScenes.triggerAll [(0, "a"), (100, "b"), (399, "c")]
        NewScenes.Debounced.fresh)).started = [(699, "c")]
    ∧ (NewScenes.elapse 5000 (NewScenes.triggerAll [(0, "a"), (100, "b"), (399, "c")]
        NewScenes.Debounced.fresh)).started = [(699, "c")] :=
  have hburst : List.Chain (fun a b : Nat × String => a.1 ≤ b.1 ∧ b.1 < a.1 + 300) (0, "a")
      [(100, "b"), (399, "c")] :=
    List.Chain.cons ⟨by decide, by decide⟩
      (List.Chain.cons ⟨by decide, by decide⟩ List.Chain.nil)
  ⟨hburst,
   (C21_burst_starts_one_run (0, "a") [(100, "b"), (399, "c")] hburst).1 2,
   (C21_burst_starts_one_run (0, "a") [(100, "b"), (399, "c")] hburst).2.1 698 (by decide),
   (C21_burst_starts_one_run (0, "a") [(100, "b"), (399, "c")] hburst).2.2 699 (by decide),
   (C21_burst_starts_one_run (0, "a") [(100, "b"), (399, "c")] hburst).2.2 5000 (by decide)⟩

/-! ## Recent tags -/

theorem truthy_of_isObject (v : JSVal) (h : v.isObject = true) : v.truthy = true := by
  cases v <;> simp_all [JSVal.isObject, JSVal.truthy]

theorem isObject_of_isTag (parse : String → Option Int) (t : JSVal)
    (h : isTag parse t = true) : t.isObject = true := by
  simp only [isTag, Bool.and_eq_true] at h
  exact h.1.1

theorem mem_of_getOwn {α : Type} (o : List (String × α)) (k : String) (v : α)
    (h : getOwn o k = some v) : (k, v) ∈ o := by
  induction o with
  | nil => simp [getOwn] at h
  | cons p o ih =>
    obtain ⟨k2, v2⟩ := p
    by_cases hk : k2 = k
    · subst hk
      simp only [getOwn, if_true, Option.some.injEq] at h
      subst h
      exact List.mem_cons_self _ _
    · simp only [getOwn, hk, if_false] at h
      exact List.mem_cons_of_mem _ (ih h)

theorem keys_insertKey_perm {α : Type} (k : String) (v : α) (o : List (String × α)) :
    ((insertKey k v o).map Prod.fst).Perm (k :: o.map Prod.fst) := by
  induction o with
  | nil => exact List.Perm.refl _
  | cons p o ih =>
    obtain ⟨k2, v2⟩ := p
    simp only [insertKey]
    split
    · exact List.Perm.refl _
    · simp only [List.map_cons]
      exact (List.Perm.cons k2 ih).trans (List.Perm.swap k k2 _)

theorem flatMapTags_performers (tagLists : List (List JSVal)) :
    RightClick.flatMapTags (tagLists.map (fun tags => obj [("tags", arr tags)]))
      = Except.ok tagLists.flatten := by
  have h : mapE (fun performer => getProp performer "tags")
      (tagLists.map (fun tags => obj [("tags", arr tags)]))
      = Except.ok ((tagLists.map (fun tags => obj [("tags", arr tags)])).map
          (fun performer => optGet performer "tags")) :=
    mapE_ok _ _ _ (fun x hx => by
      obtain ⟨tags, _, rfl⟩ := List.mem_map.mp hx
      rfl)
  have hflat : ∀ tl : List (List JSVal),
      ((tl.map (fun tags => obj [("tags", arr tags)])).map
        (fun performer => optGet performer "tags")).flatMap
          (fun tags =>
            match tags with
            | JSVal.arr items => items
            | v => [v]) = tl.flatten := by
    intro tl
    induction tl with
    | nil => rfl
    | cons tags rest ih =>
      simp only [List.map_cons, List.flatMap_cons, List.flatten_cons, ih]
      rfl
  unfold RightClick.flatMapTags
  rw [h]
  exact congrArg Except.ok (hflat tagLists)

theorem addUniqueTag_step (parse : String → Option Int) (u : List (String × JSVal))
    (tag : JSVal) (htag : isTag parse tag = true)
    (hu : ∀ p ∈ u, isTag parse p.2 = true ∧ p.1 = (optGet p.2 "id").toStr) :
    RightClick.addUniqueTag u tag
      = Except.ok (if hasOwn u (optGet tag "id").toStr then u
          else insertKey (optGet tag "id").toStr tag u) := by
  unfold RightClick.addUniqueTag
  rw [getProp_of_isObject tag "id" (isObject_of_isTag parse tag htag)]
  simp only
  cases hget : getOwn u (optGet tag "id").toStr with
  | none =>
    have hno : hasOwn u (optGet tag "id").toStr = false := (getOwn_eq_none _ _).mp hget
    simp [JSVal.truthy, setProp, hno]
  | some v =>
    have hmem := mem_of_getOwn u _ v hget
    have hv : v.truthy = true :=
      truthy_of_isObject v (isObject_of_isTag parse v (hu _ hmem).1)
    have hyes : hasOwn u (optGet tag "id").toStr = true := by
      cases h : hasOwn u (optGet tag "id").toStr
      · rw [(getOwn_eq_none _ _).mpr h] at hget
        exact absurd hget (by simp)
      · rfl
    simp [hv, hyes]

theorem addUniqueTag_fold (parse : String → Option Int) (tags : List JSVal) :
    (∀ t ∈ tags, isTag parse t = true) →
    ∀ u : List (String × JSVal),
      (∀ p ∈ u, isTag parse p.2 = true ∧ p.1 = (optGet p.2 "id").toStr) →
      (u.map Prod.fst).Nodup →
      ∃ u2, foldlE RightClick.addUniqueTag u tags = Except.ok u2
        ∧ (∀ p ∈ u2, isTag parse p.2 = true ∧ p.1 = (optGet p.2 "id").toStr)
        ∧ (u2.map Prod.fst).Nodup
        ∧ (∀ p ∈ u2, p ∈ u ∨ p.2 ∈ tags)
        ∧ (∀ k, k ∈ u.map Prod.fst → k ∈ u2.map Prod.fst)
        ∧ (∀ t ∈ tags, (optGet t "id").toStr ∈ u2.map Prod.fst) := by
  induction tags with
  | nil =>
    intro _ u hu hnd
    exact ⟨u, rfl, hu, hnd, fun p hp => Or.inl hp, fun k hk => hk,
      fun t ht => absurd ht (List.not_mem_nil t)⟩
  | cons tag tags ih =>
    intro htags u hu hnd
    have htag := htags tag (List.mem_cons_self _ _)
    have hrest : ∀ t ∈ tags, isTag parse t = true :=
      fun t ht => htags t (List.mem_cons_of_mem _ ht)
    have hstep := addUniqueTag_step parse u tag htag hu
    by_cases hk : hasOwn u (optGet tag "id").toStr = true
    · rw [if_pos hk] at hstep
      obtain ⟨u2, h1, h2, h3, h4, h5, h6⟩ := ih hrest u hu hnd
      refine ⟨u2, ?_, h2, h3, ?_, h5, ?_⟩
      · simp only [foldlE, hstep]
        exact h1
      · intro p hp
        rcases h4 p hp with h | h
        · exact Or.inl h
        · exact Or.inr (List.mem_cons_of_mem _ h)
      · intro t ht
        rcases List.mem_cons.mp ht with rfl | ht
        · exact h5 _ ((hasOwn_iff_mem_keys _ _).mp hk)
        · exact h6 t ht
    · rw [if_neg hk] at hstep
      have hperm := keys_insertKey_perm (optGet tag "id").toStr tag u
      have hu1 : ∀ p ∈ insertKey (optGet tag "id").toStr tag u,
          isTag parse p.2 = true ∧ p.1 = (optGet p.2 "id").toStr := by
        intro p hp
        rcases mem_insertKey _ _ _ p hp with rfl | h
        · exact ⟨htag, rfl⟩
        · exact hu p h
      have hnd1 : ((insertKey (optGet tag "id").toStr tag u).map Prod.fst).Nodup := by
        rw [hperm.nodup_iff, List.nodup_cons]
        exact ⟨fun hmem => hk ((hasOwn_iff_mem_keys _ _).mpr hmem), hnd⟩
      obtain ⟨u2, h1, h2, h3, h4, h5, h6⟩ := ih hrest _ hu1 hnd1
      refine ⟨u2, ?_, h2, h3, ?_, ?_, ?_⟩
      · simp only [foldlE, hstep]
        exact h1
      · intro p hp
        rcases h4 p hp with h | h
        · rcases mem_insertKey _ _ _ p h with rfl | h
          · exact Or.inr (List.mem_cons_self _ _)
          · exact Or.inl h
        · exact Or.inr (List.mem_cons_of_mem _ h)
      · intro k hkm
        exact h5 k (hperm.mem_iff.mpr (List.mem_cons_of_mem _ hkm))
      · intro t ht
        rcases List.mem_cons.mp ht with rfl | ht
        · exact h5 _ (hperm.mem_iff.mpr (List.mem_cons_self _ _))
        · exact h6 t ht

theorem recentFirst_of_isTag (parse : String → Option Int) (a b : JSVal)
    (ha : isTag parse a = true) (hb : isTag parse b = true) :
    RightClick.recentFirst parse a b = true ↔ updatedAt parse b ≤ updatedAt parse a := by
  simp only [isTag, Bool.and_eq_true, Option.isSome_iff_exists] at ha hb
  obtain ⟨ta, hta⟩ := ha.2
  obtain ⟨tb, htb⟩ := hb.2
  simp only [RightClick.recentFirst, updatedAt, hta, htb, Option.getD_some, decide_eq_true_eq]
  omega

theorem id_of_isTag (parse : String → Option Int) (t : JSVal) (h : isTag parse t = true) :
    ∃ s, optGet t "id" = str s := by
  simp only [isTag, Bool.and_eq_true] at h
  have h2 := h.1.2
  cases hid : optGet t "id" with
  | str s => exact ⟨s, rfl⟩
  | _ => rw [hid] at h2; simp at h2

theorem orderedInsert_congr {α : Type} (r s : α → α → Prop) [DecidableRel r] [DecidableRel s]
    (a : α) (l : List α) (h : ∀ b ∈ l, r a b ↔ s a b) :
    List.orderedInsert r a l = List.orderedInsert s a l := by
  induction l with
  | nil => rfl
  | cons b l ih =>
    have hb := h b (List.mem_cons_self _ _)
    have ih2 := ih (fun c hc => h c (List.mem_cons_of_mem _ hc))
    by_cases hr : r a b
    · rw [List.orderedInsert, List.orderedInsert, if_pos hr, if_pos (hb.mp hr)]
    · rw [List.orderedInsert, List.orderedInsert, if_neg hr, if_neg (fun hs => hr (hb.mpr hs)),
        ih2]

theorem insertionSort_congr {α : Type} (r s : α → α → Prop) [DecidableRel r] [DecidableRel s]
    (l : List α) (h : ∀ a ∈ l, ∀ b ∈ l, r a b ↔ s a b) :
    List.insertionSort r l = List.insertionSort s l := by
  induction l with
  | nil => rfl
  | cons a l ih =>
    have ih2 := ih (fun x hx y hy => h x (List.mem_cons_of_mem _ hx) y (List.mem_cons_of_mem _ hy))
    rw [List.insertionSort, List.insertionSort, ih2]
    apply orderedInsert_congr
    intro b hb
    exact h a (List.mem_cons_self _ _) b
      (List.mem_cons_of_mem _ ((List.perm_insertionSort s l).mem_iff.mp hb))

/-- C23: for performers whose tags are records with a string id and a valid updated_at
date, tags of one id carrying one updated_at, fetchRecentTags computes a list sortedTags
that has at most 10 tags, no two of them with the same id, ordered from the most recent
updated_at to the least recent, every one of them a tag of some performer; and when a tag
of some performer has an id that no tag of sortedTags has, then sortedTags has 10 tags and
that tag is no more recent than any of them. -/
theorem C23_recent_tags (parse : String → Option Int) (tagLists : List (List JSVal))
    (htag : ∀ t ∈ tagLists.flatten, isTag parse t = true)
    (hsame : ∀ a ∈ tagLists.flatten, ∀ b ∈ tagLists.flatten,
      sameValueZero (optGet a "id") (optGet b "id") = true →
        updatedAt parse a = updatedAt parse b) :
    ∃ sortedTags,
      RightClick.fetchRecentTags parse (Except.ok (performersResponse tagLists))
        = RightClick.RecentTags.shown sortedTags
      ∧ sortedTags.length ≤ 10
      ∧ sortedTags.Pairwise (fun a b => optGet a "id" ≠ optGet b "id")
      ∧ sortedTags.Pairwise (fun a b => updatedAt parse b ≤ updatedAt parse a)
      ∧ (∀ t ∈ sortedTags, t ∈ tagLists.flatten)
      ∧ (∀ t ∈ tagLists.flatten, (∀ k ∈ sortedTags, optGet k "id" ≠ optGet t "id") →
          sortedTags.length = 10
            ∧ ∀ k ∈ sortedTags, updatedAt parse t ≤ updatedAt parse k) := by
  obtain ⟨U, hU, hU1, hU2, hU3, -, hU5⟩ :=
    addUniqueTag_fold parse tagLists.flatten htag [] (by simp) (by simp)
  have hfetch : RightClick.fetchRecentTags parse (Except.ok (performersResponse tagLists))
      = RightClick.RecentTags.shown ((RightClick.sortTags parse (objValues U)).take 10) := by
    show (match RightClick.flatMapTags (tagLists.map (fun tags => obj [("tags", arr tags)])) with
      | Except.error _ => RightClick.RecentTags.failed
      | Except.ok tags =>
        match foldlE RightClick.addUniqueTag [] tags with
        | Except.error _ => RightClick.RecentTags.failed
        | Except.ok uniqueTags =>
          RightClick.RecentTags.shown
            ((RightClick.sortTags parse (objValues uniqueTags)).take 10)) = _
    rw [flatMapTags_performers]
    simp only [hU]
  have hVmem : ∀ v ∈ objValues U, isTag parse v = true ∧ v ∈ tagLists.flatten := by
    intro v hv
    obtain ⟨p, hp, rfl⟩ := List.mem_map.mp hv
    refine ⟨(hU1 p hp).1, ?_⟩
    rcases hU3 p hp with h | h
    · exact absurd h (List.not_mem_nil p)
    · exact h
  have hsort : RightClick.sortTags parse (objValues U)
      = List.insertionSort (fun a b => updatedAt parse b ≤ updatedAt parse a) (objValues U) :=
    insertionSort_congr _ _ _ (fun a ha b hb =>
      recentFirst_of_isTag parse a b (hVmem a ha).1 (hVmem b hb).1)
  haveI : IsTotal JSVal (fun a b => updatedAt parse b ≤ updatedAt parse a) :=
    ⟨fun a b => le_total _ _⟩
  haveI : IsTrans JSVal (fun a b => updatedAt parse b ≤ updatedAt parse a) :=
    ⟨fun a b c hab hbc => le_trans hbc hab⟩
  have hsorted := List.sorted_insertionSort
    (fun a b => updatedAt parse b ≤ updatedAt parse a) (objValues U)
  have hperm := List.perm_insertionSort
    (fun a b => updatedAt parse b ≤ updatedAt parse a) (objValues U)
  rw [hsort] at hfetch
  have hkeys : (objValues U).map (fun v => (optGet v "id").toStr) = U.map Prod.fst := by
    rw [objValues, List.map_map]
    apply List.map_congr_left
    intro p hp
    exact (hU1 p hp).2.symm
  have hnd : ((List.insertionSort (fun a b => updatedAt parse b ≤ updatedAt parse a)
      (objValues U)).map (fun v => (optGet v "id").toStr)).Nodup := by
    rw [(hperm.map _).nodup_iff, hkeys]
    exact hU2
  refine ⟨_, hfetch, List.length_take_le _ _, ?_, ?_, ?_, ?_⟩
  · have h1 := hnd.sublist ((List.take_sublist 10 _).map _)
    rw [List.Nodup, List.pairwise_map] at h1
    exact h1.imp (fun h heq => h (by rw [heq]))
  · exact hsorted.sublist (List.take_sublist 10 _)
  · intro t ht
    exact (hVmem t (hperm.mem_iff.mp (List.mem_of_mem_take ht))).2
  · intro t ht hne
    obtain ⟨p, hp, hpk⟩ := List.mem_map.mp (hU5 t ht)
    have hv : p.2 ∈ objValues U := List.mem_map.mpr ⟨p, hp, rfl⟩
    have hkey : (optGet p.2 "id").toStr = (optGet t "id").toStr := by
      rw [← (hU1 p hp).2, hpk]
    obtain ⟨s1, hs1⟩ := id_of_isTag parse p.2 (hU1 p hp).1
    obtain ⟨s2, hs2⟩ := id_of_isTag parse t (htag t ht)
    have hid : optGet p.2 "id" = optGet t "id" := by
      rw [hs1, hs2] at hkey
      rw [hs1, hs2]
      exact congrArg str hkey
    have hnot : p.2 ∉ (List.insertionSort (fun a b => updatedAt parse b ≤ updatedAt parse a)
        (objValues U)).take 10 := fun hin => hne p.2 hin hid
    have hinS := hperm.mem_iff.mpr hv
    rw [← List.take_append_drop 10 (List.insertionSort
      (fun a b => updatedAt parse b ≤ updatedAt parse a) (objValues U)), List.mem_append] at hinS
    have hdrop := hinS.resolve_left hnot
    have htime : updatedAt parse t = updatedAt parse p.2 :=
      hsame t ht p.2 (hVmem p.2 hv).2 (by rw [hs1, hs2] at hid; rw [hs1, hs2, hid, sameValueZero_str]; simp)
    constructor
    · have hlen : 10 < (List.insertionSort (fun a b => updatedAt parse b ≤ updatedAt parse a)
          (objValues U)).length := by
        by_contra hle
        rw [List.drop_of_length_le (by omega)] at hdrop
        exact absurd hdrop (List.not_mem_nil _)
      rw [List.length_take]
      omega
    · intro k hk
      rw [htime]
      exact hsorted.rel_of_mem_take_of_mem_drop hk hdrop

theorem C23_recent_tags_witness :
    ∃ sortedTags,
      RightClick.fetchRecentTags (fun _ => none) (Except.ok (performersResponse
          [[tagRecord "1" 50, tagRecord "2" 70], [tagRecord "2" 70, tagRecord "3" 60]]))
        = RightClick.RecentTags.shown sortedTags
      ∧ sortedTags.length ≤ 10
      ∧ sortedTags.Pairwise (fun a b => optGet a "id" ≠ optGet b "id")
      ∧ sortedTags.Pairwise
          (fun a b => updatedAt (fun _ => none) b ≤ updatedAt (fun _ => none) a) := by
  obtain ⟨s, h1, h2, h3, h4, -⟩ := C23_recent_tags (fun _ => none)
    [[tagRecord "1" 50, tagRecord "2" 70], [tagRecord "2" 70, tagRecord "3" 60]]
    (by decide) (by decide)
  exact ⟨s, h1, h2, h3, h4⟩

end Stash
